import Mathlib

/-!
# PropLoader: the WiFi module connection for the P2 (`wifiprop2connection.cpp`)

A shallow embedding of `WiFiProp2Connection` and proofs about it.

Bytes are natural numbers (a `uint8_t` is a `Nat` below 256), buffers are
lists of bytes, C `int`s are `Int`s.  A C string is the part of a buffer
before its first NUL byte.  Socket primitives, which the source only calls,
are inputs of the model (`World`, `DiscoveryWorld`); what the session sends
or reports is recorded in the state so that theorems can speak about it.
Diagnostic output (`message`, `printf`), pauses (`usleep`) and the closing of
the control-channel and broadcast sockets leave no trace in the model.
-/

namespace PropLoader

/-! ## Bytes and C strings -/

/-- The bytes of an ASCII string literal. -/
def bytes (s : String) : List Nat := s.toList.map Char.toNat

/-- The C string stored at the start of a buffer: the bytes before the first NUL. -/
def cstr (buf : List Nat) : List Nat := buf.takeWhile (fun b => b != 0)

/-- The function `strlen`. -/
def strlen (s : List Nat) : Nat := (cstr s).length

/-- The function `isdigit` of the C locale. -/
def isdigit (c : Nat) : Bool := 48 ≤ c && c ≤ 57

/-- The function `isspace` of the C locale: space, TAB, LF, VT, FF, CR. -/
def isspace (c : Nat) : Bool := c == 32 || (9 ≤ c && c ≤ 13)

/-- The function `tolower` of the C locale. -/
def tolower (c : Nat) : Nat := if 65 ≤ c && c ≤ 90 then c + 32 else c

/-- The byte a C string pointer points at: the head, or NUL at the end. -/
def peek (s : List Nat) : Nat := s.headD 0

/-- The function `strcmp`: the difference of the first two bytes that differ, a
missing byte counting as the terminating NUL. -/
def strcmp : List Nat → List Nat → Int
  | [], [] => 0
  | [], b :: _ => - (b : Int)
  | a :: _, [] => (a : Int)
  | a :: s, b :: t =>
    if a ≠ b then (a : Int) - (b : Int)
    else if a = 0 then 0
    else strcmp s t

/-- The function `strncasecmp`: compares at most `n` bytes, ignoring letter case,
stopping at a NUL. -/
def strncasecmp : List Nat → List Nat → Nat → Int
  | _, _, 0 => 0
  | s, t, n + 1 =>
    let a := tolower (peek s)
    let b := tolower (peek t)
    if a ≠ b then (a : Int) - (b : Int)
    else if a = 0 then 0
    else strncasecmp s.tail t.tail n


/-- The value of the decimal digits at the start of `s`, continuing from `acc`. -/
def digitsValue : List Nat → Nat → Nat
  | [], acc => acc
  | c :: s, acc => if isdigit c then digitsValue s (acc * 10 + (c - 48)) else acc

/-- The constant `LONG_MAX` where `long` has 64 bits. -/
def LONG_MAX : Int := 9223372036854775807

/-- The saturation of `strtol`, on which `atoi` and the `%d` of `sscanf` rest: a
value beyond the range of `long` becomes `LONG_MIN` or `LONG_MAX`. -/
def saturateLong (x : Int) : Int :=
  if x < -LONG_MAX - 1 then -LONG_MAX - 1 else if x > LONG_MAX then LONG_MAX else x

/-- The truncation of a `long` to a 32-bit `int` (two's complement). -/
def wrapInt (x : Int) : Int := (x + 2147483648) % 4294967296 - 2147483648

/-- The `int` that `atoi` and `%d` give for a digit string of value `x`.  C
leaves the result open when `x` is not in the range of `int`; the model follows
the C library on a 64-bit system, which saturates to a `long` and truncates
it, so that the digits of 2^63 give -1. -/
def toInt (x : Int) : Int := wrapInt (saturateLong x)

/-- The function `atoi`: leading white space, an optional sign, then decimal
digits; the scan stops at the first other byte (a NUL included). -/
def atoi (s : List Nat) : Int :=
  let t := s.dropWhile isspace
  if peek t = 45 then toInt (- (digitsValue t.tail 0 : Int))
  else if peek t = 43 then toInt (digitsValue t.tail 0)
  else toInt (digitsValue t 0)

/-- Digits of `n`, most significant first, in front of `acc` (`fuel` bounds the
number of digits). -/
def decimalAux : Nat → Nat → List Nat → List Nat
  | 0, _, acc => acc
  | fuel + 1, n, acc =>
    if n < 10 then (48 + n) :: acc
    else decimalAux fuel (n / 10) ((48 + n % 10) :: acc)

/-- The decimal numeral of a natural number, as ASCII bytes. -/
def decimal (n : Nat) : List Nat := decimalAux (n + 1) n []

/-- What `%d` of `snprintf` prints for an `int`. -/
def fmtInt (x : Int) : List Nat :=
  if x < 0 then 45 :: decimal x.natAbs else decimal x.natAbs

/-- The conversion `%d` of `sscanf`: an optional sign and at least one digit. -/
def scanInt (s : List Nat) : Option Int :=
  if peek s = 45 then
    if isdigit (peek s.tail) then some (toInt (- (digitsValue s.tail 0 : Int))) else none
  else if peek s = 43 then
    if isdigit (peek s.tail) then some (toInt (digitsValue s.tail 0)) else none
  else if isdigit (peek s) then some (toInt (digitsValue s 0)) else none

/-- The call `sscanf(res, "%s %d", buf, pResult)` with `char buf[80]`: the number
of conversions it returns (`-1` is `EOF`) and the value it stores through
`pResult`, if any.  `%s` skips white space and stores the bytes up to the next
white space, and a NUL, in `buf`; the blank and `%d` skip white space again.
The result is `none` when the first token has 80 bytes or more: the store runs
beyond `buf`, and what the call does is undefined. -/
def sscanfStatus (res : List Nat) : Option (Int × Option Int) :=
  let s1 := (cstr res).dropWhile isspace
  if s1 = [] then some (-1, none)
  else if 80 ≤ (s1.takeWhile (fun c => !isspace c)).length then none
  else
    let s2 := (s1.dropWhile (fun c => !isspace c)).dropWhile isspace
    match scanInt s2 with
    | none => some (1, none)
    | some v => some (2, some v)

/-! ## The session and its environment -/

/-- The codes passed to `nerror`, with their arguments. -/
inductive ErrorReport where
  | ERROR_COMMUNICATION_LOST
  | ERROR_PROPELLER_NOT_FOUND (portName : List Nat)
  | ERROR_WRONG_PROPELLER_VERSION (version : Int)
  | ERROR_RAM_CHECKSUM_FAILED
  | ERROR_LOAD_IMAGE_FAILED
  | ERROR_INTERNAL_CODE_ERROR
  deriving DecidableEq, Repr

/-- The type `SOCKADDR_IN`: an internet address and a port. -/
structure SOCKADDR_IN where
  sin_addr : Nat
  sin_port : Nat
  deriving DecidableEq, Repr

/-- A call of a socket primitive on the data channel, other than a send. -/
inductive DataCall where
  | connect (addr : SOCKADDR_IN)
  | receive (len : Nat) (timeout : Int)
  | receiveExact (len : Nat) (timeout : Int)
  | terminal (checkForExit pstMode : Bool)
  | close (sock : Nat)
  deriving DecidableEq, Repr

/-- What the network does during one call of `sendRequest`. -/
structure CtlOutcome where
  /-- The return value of `ConnectSocketTimeout`. -/
  connect : Int
  /-- The return value of `SendSocketData`, given the request size. -/
  send : Nat → Int
  /-- The bytes `ReceiveSocketDataTimeout` delivers; `none` when it returns `-1`. -/
  recv : Option (List Nat)

/-- The inputs of the model: everything the source obtains from outside. -/
structure World where
  /-- The outcome of the `n`-th control-channel request of the session. -/
  ctl : Nat → CtlOutcome
  /-- The return value of the `n`-th `SendSocketData` on the data channel, given its bytes. -/
  dataSend : Nat → List Nat → Int
  /-- The indeterminate bytes a local `buffer[1024]` holds behind what
  `snprintf` wrote into it. -/
  uninit : List Nat
  /-- The configuration field `loader-baud-rate`, when it is set. -/
  loaderBaudRate : Option Int
  /-- The constant `DEF_LOADER_BAUDRATE` of `loader.h`. -/
  DEF_LOADER_BAUDRATE : Int
  /-- Whether `malloc` succeeds. -/
  mallocOk : Bool
  /-- What the `sscanf` of the `n`-th control-channel request returns and stores
  when its first token overruns `buf`: undefined in C, left open here. -/
  overrun : Nat → Int × Option Int
  /-- The primitive `GetInternetAddress(hostName, port, addr)`: its return value
  and what it leaves in `*addr`, given the host name, the port and what `*addr`
  held before. -/
  GetInternetAddress : List Nat → Nat → SOCKADDR_IN → Int × SOCKADDR_IN
  /-- The primitive `ConnectSocketTimeout` on the data channel: the socket it
  stores when it returns 0; `none` when it fails, and it then stores nothing. -/
  ConnectSocketTimeout : SOCKADDR_IN → Option Nat
  /-- The `n`-th receive on the data channel, given the buffer length and the
  timeout: the return value and the bytes stored. -/
  dataReceive : Nat → Nat → Int → Int × List Nat

/-- The members of `WiFiProp2Connection` (with those it inherits from
`PropConnection`), and a record of what the session did. -/
structure Session where
  m_ipaddr : Option (List Nat)
  m_version : Option (List Nat)
  /-- The socket of the data channel; `none` is `INVALID_SOCKET`. -/
  m_telnetSocket : Option Nat
  m_resetPin : Int
  m_baudRate : Int
  /-- The value of `portName()`. -/
  portName : List Nat
  /-- Record: the requests handed to `sendRequest`, oldest first. -/
  requests : List (List Nat)
  /-- Record: the calls of `nerror`, oldest first. -/
  errors : List ErrorReport
  /-- Record: the buffers handed to `SendSocketData` on the data channel, oldest first. -/
  dataWrites : List (List Nat)
  /-- The endpoint of the control channel. -/
  m_httpAddr : SOCKADDR_IN
  /-- The endpoint of the data channel. -/
  m_telnetAddr : SOCKADDR_IN
  /-- Record: the other socket calls on the data channel, oldest first. -/
  dataCalls : List DataCall

/-- What `sendRequest` hands back: its return value, the value stored through
`pResult` (`none` when nothing was stored) and the contents of `res`. -/
structure Response where
  ret : Int
  result : Option Int
  res : List Nat

/-- The method `WiFiProp2Connection::sendRequest`.  The request is recorded when
the method is called, whether or not the connection can then be made; the
response overwrites the start of `res` and leaves the rest of it in place.
When the scan of the status line overruns its buffer, its outcome is the
environment's. -/
def sendRequest (w : World) (s : Session) (req : List Nat) (reqSize : Nat)
    (res : List Nat) (resMax : Nat) : Response × Session :=
  let o := w.ctl s.requests.length
  let s1 := { s with requests := s.requests ++ [req.take reqSize] }
  if o.connect ≠ 0 then (⟨-1, none, res⟩, s1)
  else if o.send reqSize ≠ (reqSize : Int) then (⟨-1, none, res⟩, s1)
  else
    match o.recv with
    | none => (⟨-1, none, res⟩, s1)
    | some data =>
      let got := data.take resMax
      let res1 := got ++ res.drop got.length
      let scanned := (sscanfStatus res1).getD (w.overrun s.requests.length)
      if scanned.1 ≠ 2 then (⟨-1, scanned.2, res1⟩, s1)
      else (⟨(got.length : Int), scanned.2, res1⟩, s1)

/-- The loop of `getBody`: advances `p` while at least four bytes remain and
they are not CR LF CR LF; returns the final `p` and `cnt`. -/
def getBodyLoop (msg : List Nat) : Nat → Nat → Nat × Nat
  | p, 0 => (p, 0)
  | p, cnt + 1 =>
    if cnt + 1 ≥ 4 ∧ (msg.getD p 0 ≠ 13 ∨ msg.getD (p + 1) 0 ≠ 10
        ∨ msg.getD (p + 2) 0 ≠ 13 ∨ msg.getD (p + 3) 0 ≠ 10) then
      getBodyLoop msg (p + 1) cnt
    else (p, cnt + 1)

/-- The method `WiFiProp2Connection::getBody`: `none` is the `NULL` return; otherwise the
offset of the body in `msg` and the value stored through `pBodySize`. -/
def getBody (msg : List Nat) (msgSize : Nat) : Option (Nat × Nat) :=
  let r := getBodyLoop msg 0 msgSize
  if r.2 < 4 then none else some (r.1 + 4, r.2 - 4)

/-- The bytes of a body that `getBody` located. -/
def bodyBytes (msg : List Nat) (b : Nat × Nat) : List Nat := (msg.drop b.1).take b.2

/-- The request of `setBaudRate`: the `snprintf` into `buffer` and the call of
`sendRequest`, which answers into the same buffer. -/
def setBaudRateRequest (w : World) (s : Session) (baudRate : Int) : Response × Session :=
  let hdr := bytes "POST /wx/setting?name=baud-rate&value=" ++ fmtInt baudRate
    ++ bytes " HTTP/1.1\r\n\r\n"
  let buffer := hdr ++ 0 :: w.uninit
  sendRequest w s buffer hdr.length buffer 1024

/-- The method `WiFiProp2Connection::setBaudRate`. -/
def setBaudRate (w : World) (s : Session) (baudRate : Int) : Int × Session :=
  if baudRate ≠ s.m_baudRate then
    let r := setBaudRateRequest w s baudRate
    if r.1.ret = -1 then (-1, r.2)
    else if r.1.result ≠ some 200 then (-1, r.2)
    else (0, { r.2 with m_baudRate := baudRate })
  else (0, s)

/-- The function `beginsWith` of the source. -/
def beginsWith (body str : List Nat) : Bool :=
  let length := strlen str
  strncasecmp body str length == 0

/-- A call of `nerror`. -/
def nerror (s : Session) (e : ErrorReport) : Session := { s with errors := s.errors ++ [e] }

/-- The function `memcpy(dst, src, n)`, as the new contents of `dst`. -/
def memcpy (dst src : List Nat) (n : Nat) : List Nat := src.take n ++ dst.drop n

/-- What `loadImage` hands back: its return value, the session, and the
contents of the caller's `response` buffer. -/
structure LoadResult where
  ret : Int
  session : Session
  response : List Nat

/-- The first part of `loadImage(image, imageSize, response, responseSize)`, up
to the call of `sendRequest`: `none` when it returns `-1` before the request,
otherwise what `sendRequest` handed back.  `imageSize` is the length of `image`. -/
def loadImageRequest (w : World) (s : Session) (image : List Nat) (responseSize : Int) :
    Option Response × Session :=
  let loaderBaudRate :=
    match w.loaderBaudRate with
    | some v => v
    | none => w.DEF_LOADER_BAUDRATE
  let sb := setBaudRate w s loaderBaudRate
  if sb.1 ≠ 0 then (none, sb.2)
  else
    let hdr := bytes "POST /propeller/load?baud-rate=" ++ fmtInt loaderBaudRate
      ++ bytes "&reset-pin=" ++ fmtInt sb.2.m_resetPin
      ++ bytes "&response-size=" ++ fmtInt responseSize
      ++ bytes "&response-timeout=1000 HTTP/1.1\r\nContent-Length: " ++ fmtInt image.length
      ++ bytes "\r\n\r\n"
    let buffer := hdr ++ 0 :: w.uninit
    if !w.mallocOk then (none, sb.2)
    else
      let packet := hdr ++ image
      let r := sendRequest w sb.2 packet (hdr.length + image.length) buffer 1023
      (some r.1, r.2)

/-- The second part of `loadImage(image, imageSize, response, responseSize)`:
what it does with the outcome of `sendRequest`. -/
def loadImageReply (s : Session) (r : Response) (response : List Nat) (responseSize : Int) :
    LoadResult :=
  if r.ret = -1 then ⟨-1, s, response⟩
  else if r.result ≠ some 200 then
    match getBody r.res r.ret.toNat with
    | none => ⟨-1, s, response⟩
    | some b =>
      -- `body[cnt] = '\0'`: the C string `body` ends after `cnt` bytes at the latest
      let body := bodyBytes r.res b
      if beginsWith body (bytes "RX handshake timeout") then
        ⟨-1, nerror s .ERROR_COMMUNICATION_LOST, response⟩
      else if beginsWith body (bytes "RX handshake failed") then
        ⟨-1, nerror s (.ERROR_PROPELLER_NOT_FOUND s.portName), response⟩
      else if beginsWith body (bytes "Wrong Propeller version: got ") then
        let version := atoi (body.drop (strlen (bytes "Wrong Propeller version: got ")))
        ⟨-1, nerror s (.ERROR_WRONG_PROPELLER_VERSION version), response⟩
      else if beginsWith body (bytes "Checksum timeout") then
        ⟨-1, nerror s .ERROR_COMMUNICATION_LOST, response⟩
      else if beginsWith body (bytes "Checksum error") then
        ⟨-1, nerror s .ERROR_RAM_CHECKSUM_FAILED, response⟩
      else if beginsWith body (bytes "Load image failed") then
        ⟨-1, nerror s .ERROR_LOAD_IMAGE_FAILED, response⟩
      else if beginsWith body (bytes "StartAck timeout") then
        ⟨-2, nerror s .ERROR_COMMUNICATION_LOST, response⟩
      else
        ⟨-1, nerror s .ERROR_INTERNAL_CODE_ERROR, response⟩
  else
    match getBody r.res r.ret.toNat with
    | none => ⟨-2, nerror s .ERROR_COMMUNICATION_LOST, response⟩
    | some b =>
      if (b.2 : Int) ≠ responseSize then ⟨-2, nerror s .ERROR_COMMUNICATION_LOST, response⟩
      else ⟨0, s, memcpy response (bodyBytes r.res b) b.2⟩

/-- The method `WiFiProp2Connection::loadImage(image, imageSize, response, responseSize)`,
the load over the control channel. -/
def loadImage (w : World) (s : Session) (image : List Nat) (response : List Nat)
    (responseSize : Int) : LoadResult :=
  match loadImageRequest w s image responseSize with
  | (none, s1) => ⟨-1, s1, response⟩
  | (some r, s1) => loadImageReply s1 r response responseSize

/-- The method `WiFiProp2Connection::setResetMethod`. -/
def setResetMethod (s : Session) (method : List Nat) : Int × Session :=
  if strcmp method (bytes "dtr") = 0 then (0, { s with m_resetPin := 12 })
  else if strcmp method (bytes "cts") = 0 then (0, { s with m_resetPin := 13 })
  else if strcmp method (bytes "rts") = 0 then (0, { s with m_resetPin := 15 })
  else if isdigit (peek method) then (0, { s with m_resetPin := atoi method })
  else (-1, s)

/-! ## The data channel and the program transfer -/

/-- The method `WiFiProp2Connection::isOpen`. -/
def isOpen (s : Session) : Bool := s.m_telnetSocket != none

/-- The method `WiFiProp2Connection::sendData`. -/
def sendData (w : World) (s : Session) (buf : List Nat) (len : Nat) : Int × Session :=
  if !isOpen s then (-1, s)
  else (w.dataSend s.dataWrites.length (buf.take len),
        { s with dataWrites := s.dataWrites ++ [buf.take len] })

/-- The method `WiFiProp2Connection::generateResetSignal`. -/
def generateResetSignal (w : World) (s : Session) : Int × Session :=
  let hdr := bytes "POST /propeller/reset?reset-pin=" ++ fmtInt s.m_resetPin
    ++ bytes "&reset-delay=35 HTTP/1.1\r\n\r\n"
  let buffer := hdr ++ 0 :: w.uninit
  let r := sendRequest w s buffer hdr.length buffer 1024
  if r.1.ret = -1 then (-1, r.2)
  else if r.1.result ≠ some 200 then (-1, r.2)
  else (0, r.2)

/-- The table `p2_Prop_Txt`: `> Prop_Txt 0 0 0 0`. -/
def p2_Prop_Txt : List Nat :=
  [0x20, 0x3e, 0x20, 0x50, 0x72, 0x6f, 0x70, 0x5f, 0x54, 0x78, 0x74, 0x20, 0x30, 0x20, 0x30,
   0x20, 0x30, 0x20, 0x30, 0x20]

/-- The table `p2_tilde`: ` ~ <CR>`. -/
def p2_tilde : List Nat := [0x20, 0x7e, 0x0d]

/-- The method `WiFiProp2Connection::sendDownloadHeader` (the pause of `usleep` has no
effect on the state). -/
def sendDownloadHeader (w : World) (s : Session) : Int × Session :=
  let s1 := (generateResetSignal w s).2
  let r := sendData w s1 p2_Prop_Txt p2_Prop_Txt.length
  if r.1 ≠ (p2_Prop_Txt.length : Int) then (-1, r.2)
  else (0, r.2)

/-- The base64 alphabet: the character of a 6-bit value. -/
def base64Char (v : Nat) : Nat :=
  if v < 26 then 65 + v
  else if v < 52 then 97 + (v - 26)
  else if v < 62 then 48 + (v - 52)
  else if v = 62 then 43
  else 47

/-- Modelled from the spec: `Base64encode` of `base64.h`, which is not among the
sources; the spec consumes base64 encoding as a pure function, so this is the
standard encoding (RFC 4648) with `=` padding, `4*ceil(size/3)` characters. -/
def Base64encode : List Nat → List Nat
  | [] => []
  | [a] => [base64Char (a / 4), base64Char (a % 4 * 16), 61, 61]
  | [a, b] => [base64Char (a / 4), base64Char (a % 4 * 16 + b / 16), base64Char (b % 16 * 4), 61]
  | a :: b :: c :: rest =>
    base64Char (a / 4) :: base64Char (a % 4 * 16 + b / 16)
      :: base64Char (b % 16 * 4 + c / 64) :: base64Char (c % 64) :: Base64encode rest

/-- The `for` loop of `sendDownloadDataTxt` over the first `n` bytes of `enc`:
every `=` (0x3D) becomes a space (0x20). -/
def clearEquals : List Nat → Nat → List Nat
  | b :: enc, n + 1 => (if b = 0x3D then 0x20 else b) :: clearEquals enc n
  | enc, _ => enc

/-- The buffer `enc` of `sendDownloadDataTxt` as it is handed to `sendData`: the
first `enclen` bytes of the encoded image after the `=` signs are replaced. -/
def framedImage (image : List Nat) : List Nat :=
  let enclen := 4 * ((image.length + 2) / 3)
  (clearEquals (Base64encode image) enclen).take enclen

/-- The method `WiFiProp2Connection::sendDownloadDataTxt`; `size` is the length of `image`. -/
def sendDownloadDataTxt (w : World) (s : Session) (image : List Nat) : Int × Session :=
  let enclen := 4 * ((image.length + 2) / 3)
  let enc := clearEquals (Base64encode image) enclen
  let h := sendDownloadHeader w s
  if h.1 = 0 then
    let s1 := (sendData w h.2 enc enclen).2
    let s2 := (sendData w s1 p2_tilde p2_tilde.length).2
    (0, s2)
  else (0, h.2)

/-- The 6-bit value of a character of the base64 alphabet. -/
def base64Value (c : Nat) : Option Nat :=
  if 65 ≤ c ∧ c ≤ 90 then some (c - 65)
  else if 97 ≤ c ∧ c ≤ 122 then some (c - 71)
  else if 48 ≤ c ∧ c ≤ 57 then some (c + 4)
  else if c = 43 then some 62
  else if c = 47 then some 63
  else none

/-- Standard base64 decoding (RFC 4648, padded): the receiver's side of the
round trip; `none` when the text is not valid base64. -/
def Base64decode : List Nat → Option (List Nat)
  | c1 :: c2 :: c3 :: c4 :: rest =>
    if rest = [] ∧ c4 = 61 then
      if c3 = 61 then
        match base64Value c1, base64Value c2 with
        | some x, some y => some [x * 4 + y / 16]
        | _, _ => none
      else
        match base64Value c1, base64Value c2, base64Value c3 with
        | some x, some y, some z => some [x * 4 + y / 16, y % 16 * 16 + z / 4]
        | _, _, _ => none
    else
      match base64Value c1, base64Value c2, base64Value c3, base64Value c4,
          Base64decode rest with
      | some x, some y, some z, some u, some tl =>
        some ((x * 4 + y / 16) :: (y % 16 * 16 + z / 4) :: (z % 4 * 64 + u) :: tl)
      | _, _, _, _, _ => none
  | [] => some []
  | _ => none

/-- The receiver's mapping of the spaces of a framed image back to `=`. -/
def spaceToEquals (c : Nat) : Nat := if c = 0x20 then 0x3D else c

/-- The constant `HTTP_PORT`. -/
def HTTP_PORT : Nat := 80

/-- The constant `TELNET_PORT`. -/
def TELNET_PORT : Nat := 23

/-- The method `WiFiProp2Connection::setAddress`.  The old `m_ipaddr` is freed
first; a failing `malloc` leaves `NULL` in it.  Each `GetInternetAddress` writes
through the pointer to the member it is given. -/
def setAddress (w : World) (s : Session) (ipaddr : List Nat) : Int × Session :=
  if !w.mallocOk then (-1, { s with m_ipaddr := none })
  else
    let s1 := { s with m_ipaddr := some (cstr ipaddr) }
    let http := w.GetInternetAddress (cstr ipaddr) HTTP_PORT s1.m_httpAddr
    let s2 := { s1 with m_httpAddr := http.2 }
    if http.1 ≠ 0 then (-1, s2)
    else
      let telnet := w.GetInternetAddress (cstr ipaddr) TELNET_PORT s2.m_telnetAddr
      let s3 := { s2 with m_telnetAddr := telnet.2 }
      if telnet.1 ≠ 0 then (-1, s3)
      else (0, { s3 with portName := cstr ipaddr })

/-- The method `WiFiProp2Connection::connect`. -/
def connect (w : World) (s : Session) : Int × Session :=
  if isOpen s then (-1, s)
  else if s.m_ipaddr.isNone then (-1, s)
  else
    let s1 := { s with dataCalls := s.dataCalls ++ [.connect s.m_telnetAddr] }
    match w.ConnectSocketTimeout s.m_telnetAddr with
    | none => (-1, s1)
    | some sock => (0, { s1 with m_telnetSocket := some sock })

/-- The method `WiFiProp2Connection::disconnect`. -/
def disconnect (s : Session) : Int × Session :=
  match s.m_telnetSocket with
  | none => (-1, s)
  | some sock => (0, { s with m_telnetSocket := none, dataCalls := s.dataCalls ++ [.close sock] })

/-- The method `WiFiProp2Connection::close`. -/
def close (s : Session) : Int × Session :=
  if !isOpen s then (-1, s)
  else (0, (disconnect s).2)

/-- The method `WiFiProp2Connection::receiveDataTimeout`: the return value, the
contents of `buf`, and the session. -/
def receiveDataTimeout (w : World) (s : Session) (buf : List Nat) (len : Nat) (timeout : Int) :
    (Int × List Nat) × Session :=
  if !isOpen s then ((-1, buf), s)
  else
    let r := w.dataReceive s.dataCalls.length len timeout
    ((r.1, r.2.take len ++ buf.drop (r.2.take len).length),
      { s with dataCalls := s.dataCalls ++ [.receive len timeout] })

/-- The method `WiFiProp2Connection::receiveDataExactTimeout`: the return value,
the contents of `buf`, and the session. -/
def receiveDataExactTimeout (w : World) (s : Session) (buf : List Nat) (len : Nat)
    (timeout : Int) : (Int × List Nat) × Session :=
  if !isOpen s then ((-1, buf), s)
  else
    let r := w.dataReceive s.dataCalls.length len timeout
    ((r.1, r.2.take len ++ buf.drop (r.2.take len).length),
      { s with dataCalls := s.dataCalls ++ [.receiveExact len timeout] })

/-- The method `WiFiProp2Connection::terminal`. -/
def terminal (s : Session) (checkForExit pstMode : Bool) : Int × Session :=
  if !isOpen s then (-1, s)
  else (0, { s with dataCalls := s.dataCalls ++ [.terminal checkForExit pstMode] })

/-- The class `WiFiInfo`: a module's name and address string. -/
structure WiFiInfo where
  m_name : List Nat
  m_address : List Nat
  deriving DecidableEq, Repr

/-- A datagram that `ReceiveSocketDataAndAddress` delivers. -/
structure Reply where
  /-- The string `AddressToString(&addr)` of the sender. -/
  address : List Nat
  /-- The sender's `addr.sin_addr.s_addr`. -/
  s_addr : Nat
  /-- The bytes of the datagram. -/
  payload : List Nat

/-- What the network does during one discovery round. -/
structure Round where
  /-- The return value of `SendSocketDataTo` for interface `i`, given `txCnt`. -/
  sends : Nat → Nat → Int
  /-- The datagrams that become available within the reply timeout, in order;
  `none` is a `ReceiveSocketDataAndAddress` that returns a negative value. -/
  arrivals : List (Option Reply)

/-- The inputs of `findModules`. -/
structure DiscoveryWorld where
  /-- The return value of `GetInterfaceAddresses`. -/
  ifCnt : Int
  /-- The return value of `OpenBroadcastSocket`. -/
  openBroadcastSocket : Int
  /-- What happens in the `k`-th round, should the loop get that far. -/
  rounds : Nat → Round

/-- The constant `DISCOVER_ATTEMPTS`. -/
def DISCOVER_ATTEMPTS : Int := 3

/-- The tag `NAME_TAG`. -/
def NAME_TAG : List Nat := bytes "\"name\": \""

/-- The tag `MACADDR_TAG`. -/
def MACADDR_TAG : List Nat := bytes "\"mac address\": \""

/-- The variables of `findModules`, and a record of its rounds. -/
structure Discovery where
  list : List WiFiInfo
  count : Int
  tries : Int
  txCnt : Nat
  /-- The words of `txBuf` behind the leading zero word. -/
  txBuf : List Nat
  numberFound : Int
  /-- Record: `numberFound` at the end of each completed round, oldest first. -/
  found : List Int
  /-- Record: name, address and MAC address of each line printed for `show`. -/
  printed : List (List Nat × List Nat × List Nat)

/-- The value `*(uint32_t *)rxBuf` (little-endian; only compared with zero). -/
def word32 (rxBuf : List Nat) : Nat :=
  rxBuf.getD 0 0 + 256 * rxBuf.getD 1 0 + 65536 * rxBuf.getD 2 0 + 16777216 * rxBuf.getD 3 0

/-- The function `strstr` on C strings: the rest of `hay` from the first
occurrence of `needle` on; `none` is `NULL`. -/
def strstr : List Nat → List Nat → Option (List Nat)
  | [], needle => if needle = [] then some [] else none
  | c :: hay, needle =>
    if needle.isPrefixOf (c :: hay) then some (c :: hay) else strstr hay needle

/-- The extraction of one quoted field from a reply, as `findModules` does it
for `NAME_TAG` and for `MACADDR_TAG`: the empty string when the tag is absent,
`none` when the function returns `-1` (no closing quote, or 128 bytes or more). -/
def extractField (rxBuf tag : List Nat) : Option (List Nat) :=
  match strstr (cstr rxBuf) tag with
  | none => some []
  | some p =>
    let p := p.drop (strlen tag)
    let value := p.takeWhile (fun c => c != 34)
    if value.length = p.length then none    -- `strchr(p, '"')` is `NULL`
    else if value.length ≥ 128 then none    -- `p2 - p >= sizeof(nameBuffer)`
    else some value

/-- One pass of the body of the receive loop of `findModules`, for one datagram:
`some ret` when the function returns `ret`, `none` when the loop goes on. -/
def processReply (doShow : Bool) (r : Reply) (st : Discovery) : Option Int × Discovery :=
  let rxBuf := r.payload.take 1023
  if rxBuf.length ≥ 4 ∧ word32 rxBuf ≠ 0 then
    if st.list.any (fun i => i.m_address == r.address) then (none, st)
    else
      let st1 := { st with numberFound := st.numberFound + 1 }
      let st2 := if st1.txCnt < 1024
        then { st1 with txBuf := st1.txBuf ++ [r.s_addr], txCnt := st1.txCnt + 4 } else st1
      match extractField rxBuf NAME_TAG with
      | none => (some (-1), st2)
      | some name =>
        match extractField rxBuf MACADDR_TAG with
        | none => (some (-1), st2)
        | some macAddr =>
          let st3 := if doShow
            then { st2 with printed := st2.printed ++ [(name, r.address, macAddr)] } else st2
          let st4 := { st3 with list := st3.list ++ [⟨name, r.address⟩] }
          if st4.count > 0 then
            let st5 := { st4 with count := st4.count - 1 }
            if st5.count = 0 then (some 0, st5) else (none, st5)
          else (none, st4)
  else (none, st)

/-- The receive loop of `findModules`, over the datagrams of one round. -/
def receiveLoop (doShow : Bool) : List (Option Reply) → Discovery → Option Int × Discovery
  | [], st => (none, st)
  | none :: _, st => (some (-3), st)
  | some r :: rest, st =>
    match processReply doShow r st with
    | (some ret, st1) => (some ret, st1)
    | (none, st1) => receiveLoop doShow rest st1

/-- One pass of the body of the outer loop of `findModules`, with the network's
behaviour `rd`: `some ret` when the function returns `ret` inside the round. -/
def discoverRound (ifCnt : Nat) (doShow : Bool) (rd : Round) (st : Discovery) :
    Option Int × Discovery :=
  let st0 := { st with numberFound := 0 }
  if (List.range ifCnt).any (fun i => rd.sends i st0.txCnt != (st0.txCnt : Int)) then
    (some (-1), st0)
  else
    match receiveLoop doShow rd.arrivals st0 with
    | (some ret, st1) => (some ret, st1)
    | (none, st1) =>
      let tries := if st1.numberFound > 0 then DISCOVER_ATTEMPTS else st1.tries - 1
      (none, { st1 with tries := tries, found := st1.found ++ [st1.numberFound] })

/-- The outer loop of `findModules` from round `k` on; `fuel` bounds the number
of rounds, and `none` means that the bound was reached. -/
def discoverLoop (w : DiscoveryWorld) (doShow : Bool) :
    Nat → Nat → Discovery → Option (Int × Discovery)
  | 0, _, st => if st.tries > 0 then none else some (0, st)
  | fuel + 1, k, st =>
    if st.tries > 0 then
      match discoverRound w.ifCnt.toNat doShow (w.rounds k) st with
      | (some ret, st1) => some (ret, st1)
      | (none, st1) => discoverLoop w doShow fuel (k + 1) st1
    else some (0, st)

/-- The variables of `findModules` on entry. -/
def Discovery.init (list : List WiFiInfo) (count : Int) : Discovery :=
  { list := list, count := count, tries := DISCOVER_ATTEMPTS, txCnt := 4, txBuf := [],
    numberFound := 0, found := [], printed := [] }

/-- The method `WiFiProp2Connection::findModules(show, list, count)`: the return value and
the final variables (`list` is the caller's list), or `none` when `fuel` rounds
did not suffice. -/
def findModules (w : DiscoveryWorld) (fuel : Nat) (doShow : Bool) (list : List WiFiInfo)
    (count : Int) : Option (Int × Discovery) :=
  if w.ifCnt < 0 then some (-1, Discovery.init list count)
  else if w.openBroadcastSocket ≠ 0 then some (-1, Discovery.init list count)
  else discoverLoop w doShow fuel 0 (Discovery.init list count)

/-- A round in which every send succeeds and the given datagrams arrive. -/
def Round.ofReplies (rs : List Reply) : Round :=
  { sends := fun _ txCnt => txCnt, arrivals := rs.map some }

/-- The network in which the given rounds happen and silence follows. -/
def DiscoveryWorld.ofRounds (ifCnt : Int) (rounds : List (List Reply)) : DiscoveryWorld :=
  { ifCnt := ifCnt, openBroadcastSocket := 0,
    rounds := fun k => Round.ofReplies (rounds.getD k []) }

/-! ## Notions used in the statements -/

/-- The byte sequence CR LF CR LF that ends the header. -/
def CRLFCRLF : List Nat := [13, 10, 13, 10]

/-- Whether a string is a literal decimal integer: an optional sign and one or
more decimal digits, nothing else. -/
def isDecimalInteger (m : List Nat) : Bool :=
  let digits := if peek m = 45 ∨ peek m = 43 then m.tail else m
  !digits.isEmpty && digits.all isdigit

/-- Whether `findModules` processes a datagram as a reply: at least four bytes
and a first 32-bit word that is not zero. -/
def accepted (r : Reply) : Bool :=
  decide ((r.payload.take 1023).length ≥ 4 ∧ word32 (r.payload.take 1023) ≠ 0)

/-- The address strings of the modules in the result list. -/
def Discovery.addresses (st : Discovery) : List (List Nat) := st.list.map (fun i => i.m_address)

/-- The sender addresses of the datagrams that `findModules` processes as
replies, in order of arrival. -/
def acceptedAddresses : List (Option Reply) → List (List Nat)
  | [] => []
  | none :: rs => acceptedAddresses rs
  | some r :: rs => if accepted r then r.address :: acceptedAddresses rs else acceptedAddresses rs

/-- The datagrams of the `n` rounds from round `k` on, in order of arrival. -/
def arrivalsFrom (w : DiscoveryWorld) : Nat → Nat → List (Option Reply)
  | _, 0 => []
  | k, n + 1 => (w.rounds k).arrivals ++ arrivalsFrom w (k + 1) n

/-- Each element once, in the order of first occurrence. -/
def firstSeen : List (List Nat) → List (List Nat)
  | [] => []
  | a :: l => a :: (firstSeen l).filter (fun b => b != a)

/-- The list `seen`, extended by the elements of `xs` that it does not hold yet. -/
def addNew (seen : List (List Nat)) : List (List Nat) → List (List Nat)
  | [] => seen
  | a :: xs => if a ∈ seen then addNew seen xs else addNew (seen ++ [a]) xs

/-- The relation between the retry counter and the record of completed rounds
while the loop runs: the record ends with `3 - tries` rounds without a new
module, and holds no run of three such rounds before its last two entries. -/
def RetryInv (found : List Int) (tries : Int) : Prop :=
  0 ≤ tries ∧ tries ≤ 3 ∧ ∃ pre, found = pre ++ List.replicate (3 - tries).toNat 0
    ∧ ¬ [0, 0, 0] <:+: pre ++ [0, 0]

/-- The second white-space-delimited token of a text. -/
def secondToken (text : List Nat) : List Nat :=
  (((text.dropWhile isspace).dropWhile (fun c => !isspace c)).dropWhile isspace).takeWhile
    (fun c => !isspace c)

/-- The seven texts that the non-200 branch of `loadImage` compares the body with. -/
def errorPatterns : List (List Nat) :=
  [bytes "RX handshake timeout", bytes "Checksum timeout", bytes "StartAck timeout",
   bytes "RX handshake failed", bytes "Wrong Propeller version: got ", bytes "Checksum error",
   bytes "Load image failed"]

/-- Whether a body begins with a text when the case of ASCII letters is ignored. -/
def beginsIgnoringCase (body text : List Nat) : Bool :=
  (body.take text.length).map tolower == text.map tolower

/-- The chain of comparisons in the non-200 branch of `loadImage`, in the order
of the source, as a function of the body: the value of `sts` and the error
handed to `nerror`. -/
def classifyBody (portName body : List Nat) : Int × ErrorReport :=
  if beginsWith body (bytes "RX handshake timeout") then (-1, .ERROR_COMMUNICATION_LOST)
  else if beginsWith body (bytes "RX handshake failed") then
    (-1, .ERROR_PROPELLER_NOT_FOUND portName)
  else if beginsWith body (bytes "Wrong Propeller version: got ") then
    (-1, .ERROR_WRONG_PROPELLER_VERSION
      (atoi (body.drop (strlen (bytes "Wrong Propeller version: got ")))))
  else if beginsWith body (bytes "Checksum timeout") then (-1, .ERROR_COMMUNICATION_LOST)
  else if beginsWith body (bytes "Checksum error") then (-1, .ERROR_RAM_CHECKSUM_FAILED)
  else if beginsWith body (bytes "Load image failed") then (-1, .ERROR_LOAD_IMAGE_FAILED)
  else if beginsWith body (bytes "StartAck timeout") then (-2, .ERROR_COMMUNICATION_LOST)
  else (-1, .ERROR_INTERNAL_CODE_ERROR)

/-- Whether a body begins with a text as the text is spelled. -/
def beginsAsSpelled (body text : List Nat) : Bool := text.isPrefixOf body

/-- A first-match-wins scan over the patterns in the documented priority order,
with `cmp` as the comparison of a body with a pattern. -/
def classifyInOrder (cmp : List Nat → List Nat → Bool) (portName body : List Nat) :
    ErrorReport :=
  if cmp body (bytes "RX handshake timeout") then .ERROR_COMMUNICATION_LOST
  else if cmp body (bytes "Checksum timeout") then .ERROR_COMMUNICATION_LOST
  else if cmp body (bytes "StartAck timeout") then .ERROR_COMMUNICATION_LOST
  else if cmp body (bytes "RX handshake failed") then .ERROR_PROPELLER_NOT_FOUND portName
  else if cmp body (bytes "Wrong Propeller version: got ") then
    .ERROR_WRONG_PROPELLER_VERSION
      (atoi (body.drop (strlen (bytes "Wrong Propeller version: got "))))
  else if cmp body (bytes "Checksum error") then .ERROR_RAM_CHECKSUM_FAILED
  else if cmp body (bytes "Load image failed") then .ERROR_LOAD_IMAGE_FAILED
  else .ERROR_INTERNAL_CODE_ERROR

/-- The classification as the specification words it: a first-match-wins scan
over the leading-substring patterns in the documented priority order, each
pattern compared as it is spelled. -/
def classifySpecOrder (portName body : List Nat) : ErrorReport :=
  classifyInOrder beginsAsSpelled portName body

/-! ## Sample inputs -/

/-- A sample session: the state the constructor leaves, at 115200 baud. -/
def sampleSession : Session :=
  { m_ipaddr := none, m_version := none, m_telnetSocket := none, m_resetPin := 12,
    m_baudRate := 115200, portName := [], requests := [], errors := [], dataWrites := [],
    m_httpAddr := ⟨0, 0⟩, m_telnetAddr := ⟨0, 0⟩, dataCalls := [] }

/-- A sample session whose cached baud rate is not 115200. -/
def sampleSession9600 : Session := { sampleSession with m_baudRate := 9600 }

/-- A sample environment: every request is answered with status 500 and the
body `RX handshake timeout and more`. -/
def sampleWorld500 : World :=
  { ctl := fun _ => ⟨0, fun n => n,
      some (bytes "HTTP/1.1 500 Internal Server Error\r\n\r\nRX handshake timeout and more")⟩,
    dataSend := fun _ buf => buf.length, uninit := [], loaderBaudRate := none,
    DEF_LOADER_BAUDRATE := 115200, mallocOk := true,
    overrun := fun _ => (-1, none),
    GetInternetAddress := fun _ port _ => (0, ⟨167772161, port⟩),
    ConnectSocketTimeout := fun _ => some 3,
    dataReceive := fun _ _ _ => (0, []) }

/-- What `sendRequest` hands back to `loadImage` in the sample environment. -/
def sampleResponse500 : Response :=
  ((loadImageRequest sampleWorld500 sampleSession [] 0).1).getD ⟨-1, none, []⟩

/-- A sample environment: every request is answered with status 200 and the
body `abcd`. -/
def sampleWorld200 : World :=
  { ctl := fun _ => ⟨0, fun n => n, some (bytes "HTTP/1.1 200 OK\r\n\r\nabcd")⟩,
    dataSend := fun _ buf => buf.length, uninit := [], loaderBaudRate := none,
    DEF_LOADER_BAUDRATE := 115200, mallocOk := true,
    overrun := fun _ => (-1, none),
    GetInternetAddress := fun _ port _ => (0, ⟨167772161, port⟩),
    ConnectSocketTimeout := fun _ => some 3,
    dataReceive := fun _ _ _ => (0, []) }

/-- What `sendRequest` hands back to `loadImage` in that environment. -/
def sampleResponse200 : Response :=
  ((loadImageRequest sampleWorld200 sampleSession [] 4).1).getD ⟨-1, none, []⟩

/-- A sample network: two rounds in which three datagrams arrive from two
addresses, the second address under two names; silence afterwards. -/
def sampleNet : DiscoveryWorld :=
  DiscoveryWorld.ofRounds 2
    [[⟨bytes "10.0.0.1", 1, bytes "abcd"⟩,
      ⟨bytes "10.0.0.2", 2, bytes "abcd\"name\": \"one\""⟩],
     [⟨bytes "10.0.0.2", 2, bytes "abcd\"name\": \"two\""⟩]]

/-- What `findModules(false, list)` returns on the sample network. -/
def sampleDiscovery : Int × Discovery :=
  (findModules sampleNet 5 false [] (-1)).getD (-1, Discovery.init [] (-1))

/-- A sample environment in which every request is answered with the given bytes. -/
def sampleWorldWith (response : List Nat) : World :=
  { sampleWorld200 with ctl := fun _ => ⟨0, fun n => n, some response⟩ }

/-- What `sendRequest` hands back to `loadImage(image, 0, response, 0)` in a
sample session and the given environment. -/
def sampleLoadResponse (w : World) : Response :=
  ((loadImageRequest w sampleSession [] 0).1).getD ⟨-1, none, []⟩

/-- A sample environment whose module answers 500 with the given body. -/
def sampleWorldError (body : List Nat) : World :=
  sampleWorldWith (bytes "HTTP/1.1 500 Internal Server Error\r\n\r\n" ++ body)

/-- What `findModules(false, list, 1)` returns on the sample network. -/
def sampleDiscoveryOne : Int × Discovery :=
  (findModules sampleNet 6 false [] 1).getD (-1, Discovery.init [] 1)

/-- A sample reply whose name field holds 128 bytes. -/
def sampleLongNameReply : Reply :=
  ⟨bytes "10.0.0.2", 2, bytes "abcd\"name\": \"" ++ List.replicate 128 65 ++ bytes "\""⟩

/-- A sample network: a reply from one module, then one from another address
with a name of 128 bytes. -/
def sampleLongNameNet : DiscoveryWorld :=
  DiscoveryWorld.ofRounds 2 [[⟨bytes "10.0.0.1", 1, bytes "abcd"⟩, sampleLongNameReply]]

/-- A sample environment in which the name resolves for the control port and
not for the data port; a failing resolution leaves `*addr` as it was. -/
def sampleWorldHalfResolved : World :=
  { sampleWorld200 with
    GetInternetAddress := fun _ port old =>
      if port = HTTP_PORT then (0, ⟨167772161, port⟩) else (-1, old) }

/-- A sample session with the data channel open: bound to an address, then connected. -/
def sampleOpenSession : Session :=
  (connect sampleWorld200 (setAddress sampleWorld200 sampleSession (bytes "10.0.0.1")).2).2

/-- A sample environment in which the first write on the data channel succeeds
and every later one fails with a socket error. -/
def sampleWorldWriteError : World :=
  { sampleWorld200 with dataSend := fun n buf => if n = 0 then buf.length else -1 }

/-! # Theorems -/

/-! ## Lemmas on C strings -/

theorem wrapInt_of_lt (n : Nat) (h : n < 2147483648) : wrapInt (n : Int) = n := by
  unfold wrapInt; omega

theorem toInt_of_lt (n : Nat) (h : n < 2147483648) : toInt (n : Int) = n := by
  unfold toInt saturateLong LONG_MAX wrapInt
  split_ifs <;> omega

theorem toInt_neg_of_le (n : Nat) (h : n ≤ 2147483648) : toInt (-(n : Int)) = -(n : Int) := by
  unfold toInt saturateLong LONG_MAX wrapInt
  split_ifs <;> omega

/-- Beyond the range of `long` the conversions saturate before they truncate:
the digits of 2^63 give -1, and 2^32 + 7, which a `long` holds, gives 7. -/
theorem toInt_saturates :
    atoi (bytes "9223372036854775808") = -1
    ∧ scanInt (bytes "9223372036854775808") = some (-1)
    ∧ atoi (bytes "-9223372036854775809") = 0
    ∧ atoi (bytes "4294967303") = 7 := by
  decide

theorem isdigit_add (n : Nat) (h : n < 10) : isdigit (48 + n) = true := by
  simp [isdigit]; omega

theorem decimalAux_head (fuel n : Nat) (acc : List Nat) (h : n < fuel) :
    ∃ c t, decimalAux fuel n acc = c :: t ∧ isdigit c = true := by
  induction fuel generalizing n acc with
  | zero => omega
  | succ fuel ih =>
    unfold decimalAux
    by_cases hn : n < 10
    · simp only [hn, if_true]
      exact ⟨_, _, rfl, isdigit_add n hn⟩
    · simp only [hn, if_false]
      exact ih _ _ (by omega)

theorem digitsValue_decimalAux (fuel n : Nat) (acc s : List Nat) (h : n < fuel) :
    digitsValue (decimalAux fuel n acc ++ s) 0 = digitsValue (acc ++ s) n := by
  induction fuel generalizing n acc with
  | zero => omega
  | succ fuel ih =>
    unfold decimalAux
    by_cases hn : n < 10
    · simp only [hn, if_true, List.cons_append]
      rw [digitsValue, isdigit_add n hn]
      simp
    · simp only [hn, if_false]
      rw [ih _ _ (by omega), List.cons_append, digitsValue, isdigit_add _ (Nat.mod_lt _ (by omega))]
      simp only [if_true]
      congr 1
      omega

theorem digitsValue_of_not_digit (s : List Nat) (a : Nat) (h : isdigit (peek s) = false) :
    digitsValue s a = a := by
  cases s with
  | nil => rfl
  | cons c t => simp [peek] at h; simp [digitsValue, h]

theorem digitsValue_decimal (n : Nat) (s : List Nat) (h : isdigit (peek s) = false) :
    digitsValue (decimal n ++ s) 0 = n := by
  unfold decimal
  rw [digitsValue_decimalAux _ _ _ _ (by omega)]
  exact digitsValue_of_not_digit _ _ h

theorem isdigit_not_space (c : Nat) (h : isdigit c = true) :
    isspace c = false ∧ c ≠ 45 ∧ c ≠ 43 := by
  simp [isdigit, isspace] at *
  omega

theorem atoi_of_digit (c : Nat) (t : List Nat) (h : isdigit c = true) :
    atoi (c :: t) = toInt (digitsValue (c :: t) 0) := by
  obtain ⟨h1, h2, h3⟩ := isdigit_not_space c h
  unfold atoi
  rw [List.dropWhile_cons_of_neg (by simp [h1])]
  simp [peek, h2, h3]

/-- The function `atoi` reads a decimal numeral back, whatever follows it. -/
theorem atoi_decimal (n : Nat) (s : List Nat) (hn : n < 2147483648)
    (h : isdigit (peek s) = false) : atoi (decimal n ++ s) = n := by
  obtain ⟨c, t, hc, hd⟩ := decimalAux_head (n + 1) n [] (by omega)
  have hv := digitsValue_decimal n s h
  unfold decimal at hv ⊢
  rw [hc] at hv ⊢
  rw [List.cons_append] at hv ⊢
  rw [atoi_of_digit c _ hd, hv, toInt_of_lt n hn]

theorem strncasecmp_append_left (p q sfx : List Nat) (n : Nat) (h : n ≤ p.length) :
    strncasecmp (p ++ sfx) q n = strncasecmp p q n := by
  induction n generalizing p q with
  | zero => simp [strncasecmp]
  | succ n ih =>
    cases p with
    | nil => simp at h
    | cons c p =>
      simp only [List.length_cons, Nat.add_le_add_iff_right] at h
      simp only [strncasecmp, List.cons_append, peek, List.headD_cons, List.tail_cons]
      rw [ih p q.tail h]

theorem strncasecmp_ne_zero_mono (s t : List Nat) (k n : Nat) (hkn : k ≤ n)
    (h : strncasecmp s t k ≠ 0) : strncasecmp s t n ≠ 0 := by
  induction k generalizing s t n with
  | zero => simp [strncasecmp] at h
  | succ k ih =>
    obtain ⟨m, rfl⟩ : ∃ m, n = m + 1 := ⟨n - 1, by omega⟩
    simp only [strncasecmp] at h ⊢
    by_cases h1 : tolower (peek s) = tolower (peek t)
    · simp only [h1, ne_eq, not_true_eq_false, if_false] at h ⊢
      by_cases h2 : tolower (peek t) = 0
      · simp [h2] at h
      · simp only [h2, if_false] at h ⊢
        exact ih _ _ _ (by omega) h
    · simp only [ne_eq, h1, not_false_eq_true, if_true] at h ⊢
      exact h

/-- A body that continues a text `p` begins with a pattern `q` no longer than `p`
whenever `p` does. -/
theorem beginsWith_append_true (p q sfx : List Nat) (hlen : strlen q ≤ p.length)
    (h : beginsWith p q = true) : beginsWith (p ++ sfx) q = true := by
  unfold beginsWith at h ⊢
  simp only [] at h ⊢
  rw [strncasecmp_append_left _ _ _ _ hlen]
  exact h

/-- A body that continues a text `p` does not begin with a pattern `q` that
differs from `p` within the first `k` bytes. -/
theorem beginsWith_append_false (p q sfx : List Nat) (k : Nat) (hk : k ≤ p.length)
    (hkq : k ≤ strlen q) (h : strncasecmp p q k ≠ 0) : beginsWith (p ++ sfx) q = false := by
  unfold beginsWith
  simp only [beq_eq_false_iff_ne]
  apply strncasecmp_ne_zero_mono _ _ k _ hkq
  rw [strncasecmp_append_left _ _ _ _ hk]
  exact h

theorem drop_strlen_append (p rest : List Nat) (hp : strlen p = p.length) :
    (p ++ rest).drop (strlen p) = rest := by
  rw [hp]; simp

/-- C1: in the non-200 branch of `loadImage`, a body that starts with one of the
listed texts, whatever follows it, is reported with the documented error: the
three timeouts as communication lost, `RX handshake failed` as Propeller not
found, `Checksum error` as checksum failed, `Load image failed` as load failed,
and `Wrong Propeller version: got N` (a decimal numeral not followed by a digit)
as wrong version with exactly `N`. -/
theorem loadImage_reports_listed_bodies (w : World) (s : Session) (image response : List Nat)
    (responseSize : Int) (r : Response) (b : Nat × Nat) (sfx : List Nat)
    (hreq : (loadImageRequest w s image responseSize).1 = some r)
    (hret : r.ret ≠ -1) (hstatus : r.result ≠ some 200)
    (hbody : getBody r.res r.ret.toNat = some b) :
    let s1 := (loadImageRequest w s image responseSize).2
    let out := loadImage w s image response responseSize
    (bodyBytes r.res b = bytes "RX handshake timeout" ++ sfx →
        out.session.errors = s1.errors ++ [.ERROR_COMMUNICATION_LOST])
    ∧ (bodyBytes r.res b = bytes "Checksum timeout" ++ sfx →
        out.session.errors = s1.errors ++ [.ERROR_COMMUNICATION_LOST])
    ∧ (bodyBytes r.res b = bytes "StartAck timeout" ++ sfx →
        out.session.errors = s1.errors ++ [.ERROR_COMMUNICATION_LOST])
    ∧ (bodyBytes r.res b = bytes "RX handshake failed" ++ sfx →
        out.session.errors = s1.errors ++ [.ERROR_PROPELLER_NOT_FOUND s1.portName])
    ∧ (bodyBytes r.res b = bytes "Checksum error" ++ sfx →
        out.session.errors = s1.errors ++ [.ERROR_RAM_CHECKSUM_FAILED])
    ∧ (bodyBytes r.res b = bytes "Load image failed" ++ sfx →
        out.session.errors = s1.errors ++ [.ERROR_LOAD_IMAGE_FAILED])
    ∧ (∀ N : Nat, N < 2147483648 → isdigit (peek sfx) = false →
        bodyBytes r.res b = bytes "Wrong Propeller version: got " ++ (decimal N ++ sfx) →
        out.session.errors = s1.errors ++ [.ERROR_WRONG_PROPELLER_VERSION N]) := by
  intro s1 out
  have hout : out = loadImageReply s1 r response responseSize := by
    show loadImage w s image response responseSize = _
    unfold loadImage
    have : loadImageRequest w s image responseSize = (some r, s1) := by
      rw [← hreq]
    rw [this]
  have key : ∀ body, bodyBytes r.res b = body →
      out.session.errors = s1.errors ++ [
        if beginsWith body (bytes "RX handshake timeout") then .ERROR_COMMUNICATION_LOST
        else if beginsWith body (bytes "RX handshake failed") then
          .ERROR_PROPELLER_NOT_FOUND s1.portName
        else if beginsWith body (bytes "Wrong Propeller version: got ") then
          .ERROR_WRONG_PROPELLER_VERSION
            (atoi (body.drop (strlen (bytes "Wrong Propeller version: got "))))
        else if beginsWith body (bytes "Checksum timeout") then .ERROR_COMMUNICATION_LOST
        else if beginsWith body (bytes "Checksum error") then .ERROR_RAM_CHECKSUM_FAILED
        else if beginsWith body (bytes "Load image failed") then .ERROR_LOAD_IMAGE_FAILED
        else if beginsWith body (bytes "StartAck timeout") then .ERROR_COMMUNICATION_LOST
        else .ERROR_INTERNAL_CODE_ERROR] := by
    intro body hb
    rw [hout]
    unfold loadImageReply
    simp only [hret, hstatus, if_false, ne_eq, not_false_eq_true, if_true, hbody, hb]
    repeat' split
    all_goals rfl
  refine ⟨?_, ?_, ?_, ?_, ?_, ?_, ?_⟩
  · intro hb
    rw [key _ hb, beginsWith_append_true _ _ _ (by decide) (by decide)]
    rfl
  · intro hb
    rw [key _ hb, beginsWith_append_false _ _ _ 1 (by decide) (by decide) (by decide), beginsWith_append_false _ _ _ 1 (by decide) (by decide) (by decide), beginsWith_append_false _ _ _ 1 (by decide) (by decide) (by decide), beginsWith_append_true _ _ _ (by decide) (by decide)]
    rfl
  · intro hb
    rw [key _ hb, beginsWith_append_false _ _ _ 1 (by decide) (by decide) (by decide), beginsWith_append_false _ _ _ 1 (by decide) (by decide) (by decide), beginsWith_append_false _ _ _ 1 (by decide) (by decide) (by decide), beginsWith_append_false _ _ _ 1 (by decide) (by decide) (by decide), beginsWith_append_false _ _ _ 1 (by decide) (by decide) (by decide), beginsWith_append_false _ _ _ 1 (by decide) (by decide) (by decide), beginsWith_append_true _ _ _ (by decide) (by decide)]
    rfl
  · intro hb
    rw [key _ hb, beginsWith_append_false _ _ _ 14 (by decide) (by decide) (by decide), beginsWith_append_true _ _ _ (by decide) (by decide)]
    rfl
  · intro hb
    rw [key _ hb, beginsWith_append_false _ _ _ 1 (by decide) (by decide) (by decide), beginsWith_append_false _ _ _ 1 (by decide) (by decide) (by decide), beginsWith_append_false _ _ _ 1 (by decide) (by decide) (by decide), beginsWith_append_false _ _ _ 10 (by decide) (by decide) (by decide), beginsWith_append_true _ _ _ (by decide) (by decide)]
    rfl
  · intro hb
    rw [key _ hb, beginsWith_append_false _ _ _ 1 (by decide) (by decide) (by decide), beginsWith_append_false _ _ _ 1 (by decide) (by decide) (by decide), beginsWith_append_false _ _ _ 1 (by decide) (by decide) (by decide), beginsWith_append_false _ _ _ 1 (by decide) (by decide) (by decide), beginsWith_append_false _ _ _ 1 (by decide) (by decide) (by decide), beginsWith_append_true _ _ _ (by decide) (by decide)]
    rfl
  · intro N hN hsfx hb
    rw [key _ hb, beginsWith_append_false _ _ _ 1 (by decide) (by decide) (by decide), beginsWith_append_false _ _ _ 1 (by decide) (by decide) (by decide), beginsWith_append_true _ _ _ (by decide) (by decide),
      drop_strlen_append _ _ (by decide), atoi_decimal N sfx hN hsfx]
    rfl

set_option maxRecDepth 100000 in
/-- C1 at the body `RX handshake timeout and more`: communication lost. -/
theorem loadImage_reports_listed_bodies_witness :
    (loadImage sampleWorld500 sampleSession [] [] 0).session.errors
      = [.ERROR_COMMUNICATION_LOST] :=
  (loadImage_reports_listed_bodies sampleWorld500 sampleSession [] [] 0 sampleResponse500
    (38, 29) (bytes " and more") (by rfl) (by decide) (by decide) (by decide)).1 (by decide)

/-! ## `getBody` -/

theorem getD_append_add (pre rest : List Nat) (i : Nat) :
    (pre ++ rest).getD (pre.length + i) 0 = rest.getD i 0 := by
  rw [List.getD_append_right _ _ _ _ (by omega)]
  congr 1
  omega

theorem crlf_prefix_iff (rest : List Nat) :
    CRLFCRLF <+: rest ↔ ∃ post, rest = 13 :: 10 :: 13 :: 10 :: post := by
  constructor
  · rintro ⟨t, ht⟩
    exact ⟨t, ht.symm⟩
  · rintro ⟨t, rfl⟩
    exact ⟨t, rfl⟩

theorem getBodyLoop_cons (pre : List Nat) (c : Nat) (rest : List Nat) :
    getBodyLoop (pre ++ c :: rest) pre.length (rest.length + 1) =
      if rest.length + 1 ≥ 4 ∧ ¬ CRLFCRLF <+: c :: rest then
        getBodyLoop ((pre ++ [c]) ++ rest) (pre ++ [c]).length rest.length
      else (pre.length, rest.length + 1) := by
  have h0 : (pre ++ c :: rest).getD pre.length 0 = (c :: rest).getD 0 0 := by
    simpa using getD_append_add pre (c :: rest) 0
  rw [getBodyLoop, h0, getD_append_add, getD_append_add, getD_append_add]
  by_cases hlen : rest.length + 1 ≥ 4
  · obtain ⟨x, y, z, t, rfl⟩ : ∃ x y z t, rest = x :: y :: z :: t := by
      match rest, hlen with
      | x :: y :: z :: t, _ => exact ⟨x, y, z, t, rfl⟩
    have hp : CRLFCRLF <+: c :: x :: y :: z :: t ↔ (c = 13 ∧ x = 10 ∧ y = 13 ∧ z = 10) := by
      rw [crlf_prefix_iff]
      constructor
      · rintro ⟨post, h⟩
        simp at h
        tauto
      · rintro ⟨rfl, rfl, rfl, rfl⟩
        exact ⟨t, rfl⟩
    simp only [hp, List.getD_cons_zero, List.getD_cons_succ, List.append_assoc, List.singleton_append,
      List.length_append, List.length_singleton]
    by_cases hb : c = 13 ∧ x = 10 ∧ y = 13 ∧ z = 10
    · obtain ⟨rfl, rfl, rfl, rfl⟩ := hb
      simp
    · have : (c ≠ 13 ∨ x ≠ 10 ∨ y ≠ 13 ∨ z ≠ 10) := by tauto
      simp [hb, this]
  · simp [hlen]

/-- The loop of `getBody` stops at the first CR LF CR LF, and below four
remaining bytes when there is none. -/
theorem getBodyLoop_spec (rest : List Nat) : ∀ pre : List Nat,
    (¬ CRLFCRLF <:+: rest → (getBodyLoop (pre ++ rest) pre.length rest.length).2 < 4)
    ∧ (∀ a post, rest = a ++ CRLFCRLF ++ post → ¬ CRLFCRLF <:+: a ++ [13, 10, 13] →
        getBodyLoop (pre ++ rest) pre.length rest.length
          = (pre.length + a.length, 4 + post.length)) := by
  induction rest with
  | nil =>
    intro pre
    constructor
    · intro _; simp [getBodyLoop]
    · intro a post h; simp [CRLFCRLF] at h
  | cons c rest ih =>
    intro pre
    rw [List.length_cons, getBodyLoop_cons]
    by_cases hcond : rest.length + 1 ≥ 4 ∧ ¬ CRLFCRLF <+: c :: rest
    · rw [if_pos hcond]
      obtain ⟨ih1, ih2⟩ := ih (pre ++ [c])
      constructor
      · intro hn
        apply ih1
        intro hin
        exact hn (hin.trans (List.suffix_cons c rest).isInfix)
      · intro a post hrest hfirst
        cases a with
        | nil =>
          exfalso
          apply hcond.2
          exact ⟨post, by rw [hrest]; simp⟩
        | cons a0 a =>
          simp only [List.cons_append, List.cons.injEq] at hrest
          obtain ⟨rfl, hrest⟩ := hrest
          rw [ih2 a post hrest]
          · simp; omega
          · intro hin
            exact hfirst (hin.trans (List.suffix_cons _ _).isInfix)
    · rw [if_neg hcond]
      constructor
      · intro hn
        by_contra hlt
        apply hcond
        refine ⟨by simp at hlt; omega, ?_⟩
        intro hpre
        exact hn hpre.isInfix
      · intro a post hrest hfirst
        have hlen : (c :: rest).length = a.length + 4 + post.length := by
          rw [hrest]; simp [CRLFCRLF]; omega
        simp only [List.length_cons] at hlen
        have hpre : CRLFCRLF <+: c :: rest := by
          by_contra hp
          exact hcond ⟨by omega, hp⟩
        cases a with
        | nil => simp at hlen ⊢; omega
        | cons a0 a =>
          exfalso
          apply hfirst
          obtain ⟨t, ht⟩ := hpre
          have h1 : CRLFCRLF <+: (a0 :: a ++ [13, 10, 13]) ++ (10 :: post) := by
            refine ⟨t, ?_⟩
            rw [ht, hrest]; simp [CRLFCRLF]
          have h2 := List.prefix_of_prefix_length_le h1 (List.prefix_append _ _)
            (by simp [CRLFCRLF])
          exact h2.isInfix

theorem exists_first_boundary (msg : List Nat) (h : CRLFCRLF <:+: msg) :
    ∃ pre post, msg = pre ++ CRLFCRLF ++ post ∧ ¬ CRLFCRLF <:+: pre ++ [13, 10, 13] := by
  induction msg with
  | nil =>
    have := h.length_le
    simp [CRLFCRLF] at this
  | cons c msg ih =>
    by_cases hp : CRLFCRLF <+: c :: msg
    · obtain ⟨t, ht⟩ := hp
      refine ⟨[], t, by simp [ht], ?_⟩
      intro hin
      have := hin.length_le
      simp [CRLFCRLF] at this
    · rcases List.infix_cons_iff.mp h with h1 | h1
      · exact absurd h1 hp
      · obtain ⟨pre, post, hmsg, hfirst⟩ := ih h1
        refine ⟨c :: pre, post, by simp [hmsg], ?_⟩
        intro hin
        rw [List.cons_append] at hin
        rcases List.infix_cons_iff.mp hin with h2 | h2
        · apply hp
          apply h2.trans
          refine ⟨10 :: post, ?_⟩
          rw [hmsg]; simp [CRLFCRLF]
        · exact hfirst h2

theorem getBody_of_first_boundary (pre post : List Nat)
    (hfirst : ¬ CRLFCRLF <:+: pre ++ [13, 10, 13]) :
    getBody (pre ++ CRLFCRLF ++ post) (pre ++ CRLFCRLF ++ post).length
        = some (pre.length + 4, post.length)
    ∧ bodyBytes (pre ++ CRLFCRLF ++ post) (pre.length + 4, post.length) = post := by
  constructor
  · have h := (getBodyLoop_spec (pre ++ CRLFCRLF ++ post) []).2 pre post rfl hfirst
    simp only [List.nil_append, List.length_nil, Nat.zero_add] at h
    unfold getBody
    rw [h]
    simp
  · unfold bodyBytes
    have : pre.length + 4 = (pre ++ CRLFCRLF).length := by simp [CRLFCRLF]
    simp only [this, List.drop_left, List.take_length]

/-- C2: `getBody` finds a body exactly when the message contains CR LF CR LF;
the body is then what follows the first occurrence, and its size is the message
size minus the offset of that occurrence minus 4 (an empty body is still a body);
the sample response has the body `hello` of size 5. -/
theorem getBody_first_boundary (msg : List Nat) :
    ((getBody msg msg.length).isSome ↔ CRLFCRLF <:+: msg)
    ∧ (∀ pre post, msg = pre ++ CRLFCRLF ++ post → ¬ CRLFCRLF <:+: pre ++ [13, 10, 13] →
        getBody msg msg.length = some (pre.length + 4, msg.length - pre.length - 4)
        ∧ bodyBytes msg (pre.length + 4, msg.length - pre.length - 4) = post)
    ∧ (∀ b, getBody msg msg.length = some b →
        ∃ pre post, msg = pre ++ CRLFCRLF ++ post ∧ ¬ CRLFCRLF <:+: pre ++ [13, 10, 13]
          ∧ b = (pre.length + 4, post.length) ∧ bodyBytes msg b = post)
    ∧ getBody (bytes "HTTP/1.1 200 OK\r\nContent-Length: 5\r\n\r\nhello") 43 = some (38, 5)
    ∧ bodyBytes (bytes "HTTP/1.1 200 OK\r\nContent-Length: 5\r\n\r\nhello") (38, 5)
        = bytes "hello"
    ∧ getBody (bytes "HTTP/1.1 200 OK\r\n\r\n") 19 = some (19, 0)
    ∧ getBody (bytes "HTTP/1.1 200 OK\r\n") 17 = none := by
  have hsome : ∀ b, getBody msg msg.length = some b →
      ∃ pre post, msg = pre ++ CRLFCRLF ++ post ∧ ¬ CRLFCRLF <:+: pre ++ [13, 10, 13]
        ∧ b = (pre.length + 4, post.length) ∧ bodyBytes msg b = post := by
    intro b hb
    have hin : CRLFCRLF <:+: msg := by
      by_contra hn
      have h := (getBodyLoop_spec msg []).1 hn
      simp only [List.nil_append, List.length_nil] at h
      simp [getBody, h] at hb
    obtain ⟨pre, post, hmsg, hfirst⟩ := exists_first_boundary msg hin
    obtain ⟨h1, h2⟩ := getBody_of_first_boundary pre post hfirst
    rw [← hmsg] at h1 h2
    rw [h1] at hb
    cases hb
    exact ⟨pre, post, hmsg, hfirst, rfl, h2⟩
  refine ⟨⟨?_, ?_⟩, ?_, hsome, by decide, by decide, by decide, by decide⟩
  · intro h
    obtain ⟨b, hb⟩ := Option.isSome_iff_exists.mp h
    obtain ⟨pre, post, hmsg, -⟩ := hsome b hb
    exact ⟨pre, post, hmsg.symm⟩
  · intro hin
    obtain ⟨pre, post, hmsg, hfirst⟩ := exists_first_boundary msg hin
    have h1 := (getBody_of_first_boundary pre post hfirst).1
    rw [← hmsg] at h1
    simp [h1]
  · intro pre post hmsg hfirst
    have hlen : msg.length - pre.length - 4 = post.length := by
      rw [hmsg]; simp [CRLFCRLF]
    rw [hlen]
    have h := getBody_of_first_boundary pre post hfirst
    rw [← hmsg] at h
    exact h

/-! ## The load over the control channel -/

theorem getD_take (l : List Nat) (n i : Nat) (h : i < n) : (l.take n).getD i 0 = l.getD i 0 := by
  simp [List.getD_eq_getElem?_getD, List.getElem?_take, h]

/-- The loop of `getBody` reads nothing behind the `cnt` bytes it is given. -/
theorem getBodyLoop_take (msg : List Nat) (cnt : Nat) : ∀ p : Nat,
    getBodyLoop (msg.take (p + cnt)) p cnt = getBodyLoop msg p cnt := by
  induction cnt with
  | zero => intro p; simp [getBodyLoop]
  | succ cnt ih =>
    intro p
    have ih' := ih (p + 1)
    rw [show p + 1 + cnt = p + (cnt + 1) by omega] at ih'
    simp only [getBodyLoop]
    by_cases h4 : cnt + 1 ≥ 4
    · rw [getD_take _ _ _ (by omega), getD_take _ _ _ (by omega), getD_take _ _ _ (by omega),
        getD_take _ _ _ (by omega), ih']
    · simp [h4]

theorem getBody_take (msg : List Nat) (n : Nat) : getBody (msg.take n) n = getBody msg n := by
  unfold getBody
  have := getBodyLoop_take msg n 0
  simp only [Nat.zero_add] at this
  rw [this]

/-- What `sendRequest` returns is `-1` or the number of bytes at the start of `res`. -/
theorem sendRequest_ret (w : World) (s : Session) (req : List Nat) (reqSize : Nat)
    (res : List Nat) (resMax : Nat) :
    (sendRequest w s req reqSize res resMax).1.ret = -1
    ∨ (0 ≤ (sendRequest w s req reqSize res resMax).1.ret
      ∧ (sendRequest w s req reqSize res resMax).1.ret.toNat
        ≤ (sendRequest w s req reqSize res resMax).1.res.length) := by
  unfold sendRequest
  simp only []
  split_ifs
  · left; rfl
  · left; rfl
  · split
    · left; rfl
    · split_ifs
      · left; rfl
      · right; simp

theorem loadImageRequest_ret (w : World) (s : Session) (image : List Nat) (responseSize : Int)
    (r : Response) (hreq : (loadImageRequest w s image responseSize).1 = some r)
    (hret : r.ret ≠ -1) : 0 ≤ r.ret ∧ r.ret.toNat ≤ r.res.length := by
  unfold loadImageRequest at hreq
  simp only [] at hreq
  split_ifs at hreq
  all_goals first
    | exact Option.noConfusion hreq
    | (have hr := Option.some.inj hreq
       rw [← hr]
       rw [← hr] at hret
       rcases sendRequest_ret _ _ _ _ _ _ with h | h
       · exact absurd h hret
       · exact h)

theorem getBody_eq_some (msg : List Nat) (b : Nat × Nat)
    (hb : getBody msg msg.length = some b) :
    ∃ pre post, msg = pre ++ CRLFCRLF ++ post ∧ ¬ CRLFCRLF <:+: pre ++ [13, 10, 13]
      ∧ b = (pre.length + 4, post.length) := by
  have hin : CRLFCRLF <:+: msg := by
    by_contra hn
    have h := (getBodyLoop_spec msg []).1 hn
    simp only [List.nil_append, List.length_nil] at h
    simp [getBody, h] at hb
  obtain ⟨pre, post, hmsg, hfirst⟩ := exists_first_boundary msg hin
  have h1 := (getBody_of_first_boundary pre post hfirst).1
  rw [← hmsg, hb] at h1
  exact ⟨pre, post, hmsg, hfirst, Option.some.inj h1⟩

/-- On a buffer that holds at least `n` bytes, `getBody` finds a body exactly
when the first `n` bytes split at a first CR LF CR LF, and the body is the rest
of those `n` bytes. -/
theorem getBody_buffer (buf : List Nat) (n : Nat) (hn : n ≤ buf.length) (b : Nat × Nat) :
    getBody buf n = some b ↔
      ∃ pre body, buf.take n = pre ++ CRLFCRLF ++ body ∧ ¬ CRLFCRLF <:+: pre ++ [13, 10, 13]
        ∧ b = (pre.length + 4, body.length) := by
  have hlen : (buf.take n).length = n := by simp [hn]
  rw [← getBody_take]
  constructor
  · intro h
    rw [← hlen] at h
    rw [hlen] at h
    have h' : getBody (buf.take n) (buf.take n).length = some b := by rw [hlen]; exact h
    exact getBody_eq_some _ _ h'
  · rintro ⟨pre, body, hsplit, hfirst, rfl⟩
    have h1 := (getBody_of_first_boundary pre body hfirst).1
    rw [← hsplit, hlen] at h1
    exact h1

theorem bodyBytes_buffer (buf : List Nat) (n : Nat) (pre body : List Nat)
    (hsplit : buf.take n = pre ++ CRLFCRLF ++ body) :
    bodyBytes buf (pre.length + 4, body.length) = body := by
  have hbuf : buf = (pre ++ CRLFCRLF) ++ (body ++ buf.drop n) := by
    conv_lhs => rw [← List.take_append_drop n buf, hsplit]
    simp
  unfold bodyBytes
  have h4 : pre.length + 4 = (pre ++ CRLFCRLF).length := by simp [CRLFCRLF]
  rw [hbuf, h4]
  simp only [List.drop_left, List.take_left]

theorem loadImage_eq_reply (w : World) (s : Session) (image response : List Nat)
    (responseSize : Int) (r : Response)
    (hreq : (loadImageRequest w s image responseSize).1 = some r) :
    loadImage w s image response responseSize
      = loadImageReply (loadImageRequest w s image responseSize).2 r response responseSize := by
  unfold loadImage
  have : loadImageRequest w s image responseSize
      = (some r, (loadImageRequest w s image responseSize).2) := by
    rw [← hreq]
  rw [this]

/-- C3: when `loadImage` receives a response with status 200, it returns 0
exactly when the response has a header/body boundary and the body behind the
first one has `responseSize` bytes; the response buffer then receives exactly
those bytes.  Otherwise (no body, or a shorter or longer one) it returns -2,
reports communication lost and leaves the response buffer unchanged. -/
theorem loadImage_200_exact_body (w : World) (s : Session) (image response : List Nat)
    (responseSize : Int) (r : Response)
    (hreq : (loadImageRequest w s image responseSize).1 = some r)
    (hret : r.ret ≠ -1) (hstatus : r.result = some 200) :
    let s1 := (loadImageRequest w s image responseSize).2
    let out := loadImage w s image response responseSize
    let received := r.res.take r.ret.toNat
    (out.ret = 0 ↔ ∃ pre body, received = pre ++ CRLFCRLF ++ body
        ∧ ¬ CRLFCRLF <:+: pre ++ [13, 10, 13] ∧ (body.length : Int) = responseSize)
    ∧ (∀ pre body, received = pre ++ CRLFCRLF ++ body → ¬ CRLFCRLF <:+: pre ++ [13, 10, 13] →
        (body.length : Int) = responseSize →
        out.ret = 0 ∧ out.response = body ++ response.drop body.length ∧ out.session = s1)
    ∧ (out.ret ≠ 0 → out.ret = -2 ∧ out.session = nerror s1 .ERROR_COMMUNICATION_LOST
        ∧ out.response = response) := by
  intro s1 out received
  have hn := (loadImageRequest_ret w s image responseSize r hreq hret).2
  have hout : out = loadImageReply s1 r response responseSize :=
    loadImage_eq_reply w s image response responseSize r hreq
  have hchar := getBody_buffer r.res r.ret.toNat hn
  cases hgb : getBody r.res r.ret.toNat with
  | none =>
    have hval : out = ⟨-2, nerror s1 .ERROR_COMMUNICATION_LOST, response⟩ := by
      rw [hout]; unfold loadImageReply
      simp [hret, hstatus, hgb]
    have hno : ¬ ∃ pre body, received = pre ++ CRLFCRLF ++ body
        ∧ ¬ CRLFCRLF <:+: pre ++ [13, 10, 13] ∧ (body.length : Int) = responseSize := by
      rintro ⟨pre, body, h1, h2, -⟩
      have := (hchar (pre.length + 4, body.length)).mpr ⟨pre, body, h1, h2, rfl⟩
      rw [hgb] at this
      exact Option.noConfusion this
    refine ⟨⟨fun h => ?_, fun h => absurd h hno⟩, fun pre body h1 h2 h3 => ?_, fun _ => ?_⟩
    · rw [hval] at h; simp at h
    · exact absurd ⟨pre, body, h1, h2, h3⟩ hno
    · rw [hval]; exact ⟨rfl, rfl, rfl⟩
  | some b =>
    obtain ⟨pre0, body0, hsplit0, hfirst0, hb0⟩ := (hchar b).mp hgb
    have huniq : ∀ pre body, received = pre ++ CRLFCRLF ++ body →
        ¬ CRLFCRLF <:+: pre ++ [13, 10, 13] → body.length = b.2 ∧ bodyBytes r.res b = body := by
      intro pre body h1 h2
      have := (hchar (pre.length + 4, body.length)).mpr ⟨pre, body, h1, h2, rfl⟩
      rw [hgb] at this
      have hb := Option.some.inj this
      rw [hb]
      exact ⟨rfl, bodyBytes_buffer r.res r.ret.toNat pre body h1⟩
    by_cases hsz : (b.2 : Int) = responseSize
    · have hval : out = ⟨0, s1, memcpy response (bodyBytes r.res b) b.2⟩ := by
        rw [hout]; unfold loadImageReply
        simp [hret, hstatus, hgb, hsz]
      refine ⟨⟨fun _ => ⟨pre0, body0, hsplit0, hfirst0, ?_⟩, fun _ => by rw [hval]⟩,
        fun pre body h1 h2 _ => ?_, fun h => ?_⟩
      · rw [(huniq pre0 body0 hsplit0 hfirst0).1]; exact hsz
      · obtain ⟨hl, hbb⟩ := huniq pre body h1 h2
        rw [hval]
        refine ⟨rfl, ?_, rfl⟩
        simp only [memcpy, hbb, ← hl, List.take_length]
      · rw [hval] at h; exact absurd rfl h
    · have hval : out = ⟨-2, nerror s1 .ERROR_COMMUNICATION_LOST, response⟩ := by
        rw [hout]; unfold loadImageReply
        simp [hret, hstatus, hgb, hsz]
      have hno : ¬ ∃ pre body, received = pre ++ CRLFCRLF ++ body
          ∧ ¬ CRLFCRLF <:+: pre ++ [13, 10, 13] ∧ (body.length : Int) = responseSize := by
        rintro ⟨pre, body, h1, h2, h3⟩
        apply hsz
        rw [← (huniq pre body h1 h2).1]; exact h3
      refine ⟨⟨fun h => ?_, fun h => absurd h hno⟩, fun pre body h1 h2 h3 => ?_, fun _ => ?_⟩
      · rw [hval] at h; simp at h
      · exact absurd ⟨pre, body, h1, h2, h3⟩ hno
      · rw [hval]; exact ⟨rfl, rfl, rfl⟩

set_option maxRecDepth 100000 in
/-- C3 at a 200 response whose body `abcd` has the expected four bytes. -/
theorem loadImage_200_exact_body_witness :
    (loadImage sampleWorld200 sampleSession [] [0, 0, 0, 0] 4).ret = 0
    ∧ (loadImage sampleWorld200 sampleSession [] [0, 0, 0, 0] 4).response = bytes "abcd" := by
  have h := (loadImage_200_exact_body sampleWorld200 sampleSession [] [0, 0, 0, 0] 4
    sampleResponse200 (by rfl) (by decide) (by decide)).2.1
    (bytes "HTTP/1.1 200 OK") (bytes "abcd") (by decide) (by decide) (by decide)
  exact ⟨h.1, h.2.1⟩

/-! ## The framing of the image -/

theorem base64Value_base64Char (v : Nat) (h : v < 64) : base64Value (base64Char v) = some v := by
  unfold base64Char base64Value
  split_ifs
  all_goals first
    | (simp only [Option.some.injEq]; omega)
    | (exfalso; omega)

theorem base64Char_ne (v : Nat) : base64Char v ≠ 32 ∧ base64Char v ≠ 61 := by
  unfold base64Char
  split_ifs <;> omega

theorem Base64encode_length (image : List Nat) :
    (Base64encode image).length = 4 * ((image.length + 2) / 3) := by
  induction image using Base64encode.induct with
  | case1 => rfl
  | case2 a => simp [Base64encode]
  | case3 a b => simp [Base64encode]
  | case4 a b c rest ih =>
    simp only [Base64encode, List.length_cons, ih]
    omega

theorem Base64encode_no_space (image : List Nat) : ∀ c ∈ Base64encode image, c ≠ 32 := by
  induction image using Base64encode.induct with
  | case1 => simp [Base64encode]
  | case2 a =>
    simp only [Base64encode, List.mem_cons, List.mem_singleton, List.not_mem_nil, or_false]
    rintro c (rfl | rfl | rfl | rfl) <;> first | exact (base64Char_ne _).1 | decide
  | case3 a b =>
    simp only [Base64encode, List.mem_cons, List.mem_singleton, List.not_mem_nil, or_false]
    rintro c (rfl | rfl | rfl | rfl) <;> first | exact (base64Char_ne _).1 | decide
  | case4 a b c rest ih =>
    simp only [Base64encode, List.mem_cons]
    rintro x (rfl | rfl | rfl | rfl | h)
    · exact (base64Char_ne _).1
    · exact (base64Char_ne _).1
    · exact (base64Char_ne _).1
    · exact (base64Char_ne _).1
    · exact ih x h

/-- The loop over a whole buffer replaces every `=` of it. -/
theorem clearEquals_length (enc : List Nat) :
    clearEquals enc enc.length = enc.map (fun b => if b = 0x3D then 0x20 else b) := by
  induction enc with
  | nil => rfl
  | cons b enc ih => simp [clearEquals, ih]

theorem framedImage_eq (image : List Nat) :
    framedImage image = (Base64encode image).map (fun b => if b = 0x3D then 0x20 else b) := by
  unfold framedImage
  simp only []
  rw [← Base64encode_length, clearEquals_length, ← List.length_map, List.take_length]

theorem spaceToEquals_framed (image : List Nat) :
    (framedImage image).map spaceToEquals = Base64encode image := by
  rw [framedImage_eq, List.map_map]
  conv_rhs => rw [← List.map_id (Base64encode image)]
  apply List.map_congr_left
  intro c hc
  have := Base64encode_no_space image c hc
  simp only [Function.comp, spaceToEquals, id]
  split_ifs <;> omega

theorem Base64decode_encode (image : List Nat) (hbytes : ∀ b ∈ image, b < 256) :
    Base64decode (Base64encode image) = some image := by
  induction image using Base64encode.induct with
  | case1 => rfl
  | case2 a =>
    have ha : a < 256 := hbytes a (by simp)
    simp only [Base64encode, Base64decode, and_self, if_true]
    rw [base64Value_base64Char _ (by omega), base64Value_base64Char _ (by omega)]
    simp only [Option.some.injEq, List.cons.injEq, and_true]
    omega
  | case3 a b =>
    have ha : a < 256 := hbytes a (by simp)
    have hb : b < 256 := hbytes b (by simp)
    simp only [Base64encode, Base64decode, and_self, if_true, (base64Char_ne _).2, if_false]
    rw [base64Value_base64Char _ (by omega), base64Value_base64Char _ (by omega),
      base64Value_base64Char _ (by omega)]
    simp only [Option.some.injEq, List.cons.injEq, and_true]
    omega
  | case4 a b c rest ih =>
    have ha : a < 256 := hbytes a (by simp)
    have hb : b < 256 := hbytes b (by simp)
    have hc : c < 256 := hbytes c (by simp)
    have ih' := ih (fun x hx => hbytes x (by simp [hx]))
    simp only [Base64encode, Base64decode, (base64Char_ne _).2, and_false, if_false]
    rw [base64Value_base64Char _ (by omega), base64Value_base64Char _ (by omega),
      base64Value_base64Char _ (by omega), base64Value_base64Char _ (by omega), ih']
    simp only [Option.some.injEq, List.cons.injEq, and_true]
    omega

theorem sendRequest_session (w : World) (s : Session) (req : List Nat) (reqSize : Nat)
    (res : List Nat) (resMax : Nat) :
    (sendRequest w s req reqSize res resMax).2
      = { s with requests := s.requests ++ [req.take reqSize] } := by
  unfold sendRequest
  simp only []
  split_ifs
  · rfl
  · rfl
  · split
    · rfl
    · split_ifs <;> rfl

theorem generateResetSignal_session (w : World) (s : Session) :
    ∃ req, (generateResetSignal w s).2 = { s with requests := s.requests ++ [req] } := by
  unfold generateResetSignal
  simp only []
  split_ifs <;> exact ⟨_, sendRequest_session _ _ _ _ _ _⟩

/-- With the data channel open and the mode command accepted,
`sendDownloadDataTxt` writes the mode command, the framed image and the
terminator, in this order. -/
theorem sendDownloadDataTxt_writes (w : World) (s : Session) (image : List Nat)
    (hopen : isOpen s = true) (hsend : w.dataSend s.dataWrites.length p2_Prop_Txt = 20) :
    (sendDownloadDataTxt w s image).2.dataWrites
      = s.dataWrites ++ [p2_Prop_Txt, framedImage image, p2_tilde] := by
  obtain ⟨req, hreset⟩ := generateResetSignal_session w s
  have hopen1 : isOpen (generateResetSignal w s).2 = true := by rw [hreset]; exact hopen
  have hdw1 : (generateResetSignal w s).2.dataWrites = s.dataWrites := by rw [hreset]
  have htake : List.take p2_Prop_Txt.length p2_Prop_Txt = p2_Prop_Txt := List.take_length _
  have hhdr : sendDownloadHeader w s = (0, { (generateResetSignal w s).2 with
      dataWrites := s.dataWrites ++ [p2_Prop_Txt] }) := by
    unfold sendDownloadHeader sendData
    simp only [hopen1, Bool.not_true, Bool.false_eq_true, if_false, htake, hdw1, hsend]
    rfl
  unfold sendDownloadDataTxt
  simp only [hhdr, if_true]
  unfold sendData
  simp only [isOpen] at hopen1 ⊢
  simp only [hopen1, Bool.not_true, Bool.false_eq_true, if_false]
  simp [framedImage]

/-- C4: the buffer that `sendDownloadDataTxt` writes for an image has
`4*ceil(n/3)` bytes, is the base64 text of the image with every `=` replaced
by a space, and decodes back to the image once the spaces are mapped back to
`=`. -/
theorem framedImage_round_trip (image : List Nat) (hbytes : ∀ b ∈ image, b < 256) :
    (framedImage image).length = 4 * ((image.length + 2) / 3)
    ∧ framedImage image = (Base64encode image).map (fun b => if b = 0x3D then 0x20 else b)
    ∧ Base64decode ((framedImage image).map spaceToEquals) = some image
    ∧ ∀ (w : World) (s : Session), isOpen s = true →
        w.dataSend s.dataWrites.length p2_Prop_Txt = 20 →
        (sendDownloadDataTxt w s image).2.dataWrites
          = s.dataWrites ++ [p2_Prop_Txt, framedImage image, p2_tilde] := by
  refine ⟨?_, framedImage_eq image, ?_, fun w s h1 h2 => sendDownloadDataTxt_writes w s image h1 h2⟩
  · rw [framedImage_eq, List.length_map, Base64encode_length]
  · rw [spaceToEquals_framed, Base64decode_encode image hbytes]

/-- C4 at the image `hell`, whose encoding ends in two padding characters. -/
theorem framedImage_round_trip_witness :
    framedImage (bytes "hell") = bytes "aGVsbA  "
    ∧ Base64decode ((framedImage (bytes "hell")).map spaceToEquals) = some (bytes "hell") :=
  ⟨by decide, (framedImage_round_trip (bytes "hell") (by decide)).2.2.1⟩

/-! ## The reset pin -/

theorem strcmp_eq_zero_iff (a b : List Nat) : strcmp a b = 0 ↔ cstr a = cstr b := by
  induction a generalizing b with
  | nil =>
    cases b with
    | nil => simp [strcmp]
    | cons y t =>
      by_cases hy : y = 0
      · subst hy; simp [strcmp, cstr]
      · simp [strcmp, cstr, hy]
  | cons x s ih =>
    cases b with
    | nil =>
      by_cases hx : x = 0
      · subst hx; simp [strcmp, cstr]
      · simp [strcmp, cstr, hx]
    | cons y t =>
      simp only [strcmp]
      by_cases hxy : x = y
      · subst hxy
        by_cases hx : x = 0
        · subst hx; simp [cstr]
        · have := ih t
          simp only [cstr] at this
          simp [hx, cstr, this]
      · simp only [ne_eq, hxy, not_false_eq_true, if_true]
        constructor
        · intro h; omega
        · intro h
          exfalso
          by_cases hx : x = 0
          · subst hx
            have hy : y ≠ 0 := fun h0 => hxy h0.symm
            simp [cstr, hy] at h
          · by_cases hy : y = 0
            · subst hy; simp [cstr, hx] at h
            · simp [cstr, hx, hy] at h
              exact hxy h.1

theorem strcmp_digit_ne (method name : List Nat) (hd : isdigit (peek method) = true)
    (hn : isdigit (peek name) = false) : strcmp method name ≠ 0 := by
  cases method with
  | nil => simp [peek, isdigit] at hd
  | cons c t =>
    cases name with
    | nil =>
      simp only [peek, List.headD_cons, isdigit, Bool.and_eq_true, decide_eq_true_eq] at hd
      simp only [strcmp]; omega
    | cons d u =>
      simp only [peek, List.headD_cons] at hd hn
      have : c ≠ d := by rintro rfl; rw [hd] at hn; exact Bool.noConfusion hn
      simp only [strcmp, ne_eq, this, not_false_eq_true, if_true]
      omega

/-- A string that begins with a digit is resolved by `atoi`. -/
theorem setResetMethod_of_digit (s : Session) (method : List Nat)
    (hd : isdigit (peek method) = true) :
    setResetMethod s method = (0, { s with m_resetPin := atoi method }) := by
  unfold setResetMethod
  rw [if_neg (strcmp_digit_ne _ _ hd (by decide)), if_neg (strcmp_digit_ne _ _ hd (by decide)),
    if_neg (strcmp_digit_ne _ _ hd (by decide)), if_pos hd]

theorem decimal_digit (n : Nat) : isdigit (peek (decimal n)) = true := by
  obtain ⟨c, t, hc, hd⟩ := decimalAux_head (n + 1) n [] (by omega)
  unfold decimal
  rw [hc]
  exact hd

/-- C7: `setResetMethod` maps `dtr` to pin 12, `cts` to 13, `rts` to 15 and the
decimal numeral of every non-negative `int` to that number, returning 0 with
`m_resetPin` set; `7` gives 7 and `bogus` gives -1. -/
theorem setResetMethod_resolves (s : Session) :
    setResetMethod s (bytes "dtr") = (0, { s with m_resetPin := 12 })
    ∧ setResetMethod s (bytes "cts") = (0, { s with m_resetPin := 13 })
    ∧ setResetMethod s (bytes "rts") = (0, { s with m_resetPin := 15 })
    ∧ (∀ n : Nat, n < 2147483648 →
        setResetMethod s (decimal n) = (0, { s with m_resetPin := (n : Int) }))
    ∧ setResetMethod s (bytes "7") = (0, { s with m_resetPin := 7 })
    ∧ setResetMethod s (bytes "bogus") = (-1, s) := by
  refine ⟨rfl, rfl, rfl, ?_, rfl, rfl⟩
  intro n hn
  rw [setResetMethod_of_digit s _ (decimal_digit n)]
  have := atoi_decimal n [] hn (by decide)
  rw [List.append_nil] at this
  rw [this]

/-- C7 at the numeral `15`. -/
theorem setResetMethod_resolves_witness :
    setResetMethod sampleSession (bytes "15") = (0, { sampleSession with m_resetPin := 15 }) :=
  (setResetMethod_resolves sampleSession).2.2.2.1 15 (by decide)

/-- C8 fails as stated: `7x` is neither a pin name nor a literal decimal
integer, yet `setResetMethod` accepts it and sets the pin to 7. -/
theorem setResetMethod_accepts_7x :
    bytes "7x" ≠ bytes "dtr" ∧ bytes "7x" ≠ bytes "cts" ∧ bytes "7x" ≠ bytes "rts"
    ∧ isDecimalInteger (bytes "7x") = false
    ∧ (setResetMethod sampleSession (bytes "7x")).1 = 0
    ∧ (setResetMethod sampleSession (bytes "7x")).2.m_resetPin = 7
    ∧ sampleSession.m_resetPin = 12 := by
  decide

/-- C8, amended: a string that is neither `dtr`, `cts`, `rts` nor begins with a
decimal digit makes `setResetMethod` return -1 and leaves the session, the reset
pin included, unchanged; the empty string is one of them. -/
theorem setResetMethod_rejects (s : Session) (method : List Nat)
    (hdtr : cstr method ≠ bytes "dtr") (hcts : cstr method ≠ bytes "cts")
    (hrts : cstr method ≠ bytes "rts") (hd : isdigit (peek method) = false) :
    setResetMethod s method = (-1, s) := by
  unfold setResetMethod
  have h (name : List Nat) (hname : cstr name = name) (hne : cstr method ≠ name) :
      ¬ strcmp method name = 0 := by
    rw [strcmp_eq_zero_iff, hname]; exact hne
  rw [if_neg (h _ (by decide) hdtr), if_neg (h _ (by decide) hcts),
    if_neg (h _ (by decide) hrts), hd]
  rfl

/-- C8, amended, at the empty string and at `x7`. -/
theorem setResetMethod_rejects_witness :
    setResetMethod sampleSession (bytes "") = (-1, sampleSession)
    ∧ setResetMethod sampleSession (bytes "x7") = (-1, sampleSession) :=
  ⟨setResetMethod_rejects sampleSession (bytes "") (by decide) (by decide) (by decide)
      (by decide),
   setResetMethod_rejects sampleSession (bytes "x7") (by decide) (by decide) (by decide)
      (by decide)⟩

/-! ## The baud-rate cache -/

/-- The request of `setBaudRate` changes nothing in the session but the record
of requests, which grows by the request line for that baud rate. -/
theorem setBaudRateRequest_session (w : World) (s : Session) (b : Int) :
    (setBaudRateRequest w s b).2 = { s with requests := s.requests ++
      [bytes "POST /wx/setting?name=baud-rate&value=" ++ fmtInt b ++ bytes " HTTP/1.1\r\n\r\n"] } := by
  unfold setBaudRateRequest
  simp only [sendRequest_session, List.take_left]

/-- What `setBaudRate` does, by cases. -/
theorem setBaudRate_cases (w : World) (s : Session) (b : Int) :
    (b = s.m_baudRate ∧ setBaudRate w s b = (0, s))
    ∨ (b ≠ s.m_baudRate
        ∧ ((setBaudRateRequest w s b).1.ret = -1 ∨ (setBaudRateRequest w s b).1.result ≠ some 200)
        ∧ setBaudRate w s b = (-1, (setBaudRateRequest w s b).2))
    ∨ (b ≠ s.m_baudRate
        ∧ (setBaudRateRequest w s b).1.ret ≠ -1 ∧ (setBaudRateRequest w s b).1.result = some 200
        ∧ setBaudRate w s b = (0, { (setBaudRateRequest w s b).2 with m_baudRate := b })) := by
  unfold setBaudRate
  by_cases hb : b = s.m_baudRate
  · left; simp [hb]
  · right
    simp only [ne_eq, hb, not_false_eq_true, if_true]
    by_cases h1 : (setBaudRateRequest w s b).1.ret = -1
    · left; simp [h1]
    · by_cases h2 : (setBaudRateRequest w s b).1.result = some 200
      · right; simp [h1, h2]
      · left; simp [h1, h2]

/-- C9: `setBaudRate(b)` sends a control-channel request (calls `sendRequest`,
with the request line for `b`) exactly when `b` differs from the cached baud
rate; of two consecutive `setBaudRate(115200)` calls, the first acknowledged
with 200, only the first sends a request, and the second returns 0. -/
theorem setBaudRate_requests_iff (w : World) (s : Session) (b : Int) :
    ((setBaudRate w s b).2.requests.length = s.requests.length + 1 ↔ b ≠ s.m_baudRate)
    ∧ (b ≠ s.m_baudRate → (setBaudRate w s b).2.requests = s.requests ++
        [bytes "POST /wx/setting?name=baud-rate&value=" ++ fmtInt b ++ bytes " HTTP/1.1\r\n\r\n"])
    ∧ (b = s.m_baudRate → (setBaudRate w s b).2.requests = s.requests)
    ∧ (s.m_baudRate ≠ 115200 → (setBaudRateRequest w s 115200).1.ret ≠ -1 →
        (setBaudRateRequest w s 115200).1.result = some 200 →
        (setBaudRate w s 115200).1 = 0
        ∧ (setBaudRate w (setBaudRate w s 115200).2 115200).1 = 0
        ∧ (setBaudRate w (setBaudRate w s 115200).2 115200).2.requests.length
            = s.requests.length + 1) := by
  have hreq := setBaudRateRequest_session w s b
  refine ⟨?_, ?_, ?_, ?_⟩
  · rcases setBaudRate_cases w s b with ⟨h, e⟩ | ⟨h, -, e⟩ | ⟨h, -, -, e⟩
    · rw [e]; simp [h]
    · rw [e, hreq]; simp [h]
    · rw [e, hreq]; simp [h]
  · intro hb
    rcases setBaudRate_cases w s b with ⟨h, e⟩ | ⟨h, -, e⟩ | ⟨h, -, -, e⟩
    · exact absurd h hb
    · rw [e, hreq]
    · rw [e, hreq]
  · intro hb
    rcases setBaudRate_cases w s b with ⟨h, e⟩ | ⟨h, -, e⟩ | ⟨h, -, -, e⟩
    · rw [e]
    · exact absurd hb h
    · exact absurd hb h
  · intro hs h1 h2
    have hreq' := setBaudRateRequest_session w s 115200
    rcases setBaudRate_cases w s 115200 with ⟨h, e⟩ | ⟨h, hf, e⟩ | ⟨h, -, -, e⟩
    · exact absurd h.symm hs
    · rcases hf with hf | hf
      · exact absurd hf h1
      · exact absurd h2 hf
    · rw [e, hreq']
      rcases setBaudRate_cases w ({ ({ s with requests := s.requests ++
          [bytes "POST /wx/setting?name=baud-rate&value=" ++ fmtInt 115200
            ++ bytes " HTTP/1.1\r\n\r\n"] } : Session) with m_baudRate := 115200 }) 115200
        with ⟨h', e'⟩ | ⟨h', -, e'⟩ | ⟨h', -, -, e'⟩
      · rw [e']; simp
      · exact absurd rfl h'
      · exact absurd rfl h'

set_option maxRecDepth 100000 in
/-- C9 at a session cached at 9600 baud whose module answers 200. -/
theorem setBaudRate_requests_iff_witness :
    (setBaudRate sampleWorld200 sampleSession9600 115200).1 = 0
    ∧ (setBaudRate sampleWorld200 (setBaudRate sampleWorld200 sampleSession9600 115200).2
        115200).1 = 0
    ∧ (setBaudRate sampleWorld200 (setBaudRate sampleWorld200 sampleSession9600 115200).2
        115200).2.requests.length = sampleSession9600.requests.length + 1 :=
  (setBaudRate_requests_iff sampleWorld200 sampleSession9600 115200).2.2.2
    (by decide) (by decide) (by decide)

/-- C10: when the set-baud-rate request fails or is answered with a status
other than 200, `setBaudRate(b)` returns -1 and the cached baud rate is
unchanged; the cache holds `b` after the call only if the call returned 0. -/
theorem setBaudRate_failure_keeps_cache (w : World) (s : Session) (b : Int) :
    (b ≠ s.m_baudRate →
      ((setBaudRateRequest w s b).1.ret = -1 ∨ (setBaudRateRequest w s b).1.result ≠ some 200) →
      (setBaudRate w s b).1 = -1 ∧ (setBaudRate w s b).2.m_baudRate = s.m_baudRate)
    ∧ ((setBaudRate w s b).2.m_baudRate = b → (setBaudRate w s b).1 = 0)
    ∧ ((setBaudRate w s b).1 = 0 ∨ (setBaudRate w s b).1 = -1)
    ∧ ((setBaudRate w s b).1 = -1 → (setBaudRate w s b).2.m_baudRate = s.m_baudRate) := by
  have hreq := setBaudRateRequest_session w s b
  rcases setBaudRate_cases w s b with ⟨h, e⟩ | ⟨h, hf, e⟩ | ⟨h, h1, h2, e⟩
  · rw [e]
    exact ⟨fun hb => absurd h hb, fun _ => rfl, Or.inl rfl, fun _ => rfl⟩
  · rw [e, hreq]
    exact ⟨fun _ _ => ⟨rfl, rfl⟩, fun hb => absurd hb.symm h, Or.inr rfl, fun _ => rfl⟩
  · rw [e, hreq]
    refine ⟨fun _ hf => ?_, fun _ => rfl, Or.inl rfl, fun h0 => ?_⟩
    · rcases hf with hf | hf
      · exact absurd hf h1
      · exact absurd h2 hf
    · simp at h0

set_option maxRecDepth 100000 in
/-- C10 at a session cached at 9600 baud whose module answers 500. -/
theorem setBaudRate_failure_keeps_cache_witness :
    (setBaudRate sampleWorld500 sampleSession9600 115200).1 = -1
    ∧ (setBaudRate sampleWorld500 sampleSession9600 115200).2.m_baudRate = 9600 :=
  (setBaudRate_failure_keeps_cache sampleWorld500 sampleSession9600 115200).1
    (by decide) (Or.inr (by decide))

/-! ## Discovery -/

theorem any_address_iff (st : Discovery) (a : List Nat) :
    st.list.any (fun i => i.m_address == a) = true ↔ a ∈ st.addresses := by
  simp only [Discovery.addresses, List.any_eq_true, beq_iff_eq, List.mem_map]

/-- The outcomes of one pass of the receive loop: the datagram is skipped, or
it comes from a new module, which is counted and then either rejected as
malformed, or appended (after which the count limit may end the call). -/
theorem processReply_cases (doShow : Bool) (r : Reply) (st : Discovery) :
    ((accepted r = false ∨ r.address ∈ st.addresses) ∧ processReply doShow r st = (none, st))
    ∨ (accepted r = true ∧ r.address ∉ st.addresses
        ∧ (processReply doShow r st).2.tries = st.tries
        ∧ (processReply doShow r st).2.found = st.found
        ∧ (processReply doShow r st).2.numberFound = st.numberFound + 1
        ∧ (((processReply doShow r st).1 = some (-1)
              ∧ (processReply doShow r st).2.list = st.list
              ∧ (processReply doShow r st).2.count = st.count)
          ∨ ((∃ name, (processReply doShow r st).2.list = st.list ++ [⟨name, r.address⟩])
              ∧ ((st.count ≤ 0 ∧ (processReply doShow r st).1 = none
                    ∧ (processReply doShow r st).2.count = st.count)
                ∨ (1 < st.count ∧ (processReply doShow r st).1 = none
                    ∧ (processReply doShow r st).2.count = st.count - 1)
                ∨ (st.count = 1 ∧ (processReply doShow r st).1 = some 0
                    ∧ (processReply doShow r st).2.count = 0))))) := by
  have hany := any_address_iff st r.address
  have hacc : accepted r = true ↔
      ((r.payload.take 1023).length ≥ 4 ∧ word32 (r.payload.take 1023) ≠ 0) := by
    simp [accepted]
  unfold processReply
  simp only []
  by_cases hc : (r.payload.take 1023).length ≥ 4 ∧ word32 (r.payload.take 1023) ≠ 0
  · rw [if_pos hc]
    by_cases hm : st.list.any (fun i => i.m_address == r.address) = true
    · rw [if_pos hm]
      exact Or.inl ⟨Or.inr (hany.mp hm), rfl⟩
    · rw [if_neg hm]
      right
      refine ⟨hacc.mpr hc, fun h => hm (hany.mpr h), ?_⟩
      cases extractField (r.payload.take 1023) NAME_TAG with
      | none => 
        simp only []
        split_ifs <;> simp
      | some name =>
        cases extractField (r.payload.take 1023) MACADDR_TAG with
        | none => 
          simp only []
          split_ifs <;> simp
        | some macAddr =>
          cases doShow <;> by_cases htx : st.txCnt < 1024 <;>
            simp only [htx, if_true, if_false, Bool.false_eq_true] <;>
            by_cases h0 : st.count > 0 <;> by_cases h1 : st.count - 1 = 0 <;>
            simp [h0, h1] <;> omega
  · rw [if_neg hc]
    refine Or.inl ⟨Or.inl ?_, rfl⟩
    cases h : accepted r
    · rfl
    · exact absurd (hacc.mp h) hc

theorem receiveLoop_cons (doShow : Bool) (r : Reply) (rs : List (Option Reply))
    (st : Discovery) :
    receiveLoop doShow (some r :: rs) st
      = if (processReply doShow r st).1 = none
        then receiveLoop doShow rs (processReply doShow r st).2
        else processReply doShow r st := by
  rcases h : processReply doShow r st with ⟨_ | ret, st1⟩ <;> simp [receiveLoop, h]

theorem addresses_append (st st1 : Discovery) (name a : List Nat)
    (h : st1.list = st.list ++ [⟨name, a⟩]) : st1.addresses = st.addresses ++ [a] := by
  simp [Discovery.addresses, h]

/-- What the receive loop does to the variables over the datagrams of one round. -/
theorem receiveLoop_spec (doShow : Bool) (rs : List (Option Reply)) : ∀ st : Discovery,
    (receiveLoop doShow rs st).2.tries = st.tries
    ∧ (receiveLoop doShow rs st).2.found = st.found
    ∧ (st.addresses.Nodup → (receiveLoop doShow rs st).2.addresses.Nodup)
    ∧ (∀ S : List (List Nat), st.addresses ⊆ S → (∀ a ∈ acceptedAddresses rs, a ∈ S) →
        (receiveLoop doShow rs st).2.addresses ⊆ S)
    ∧ st.list.length ≤ (receiveLoop doShow rs st).2.list.length
    ∧ ((receiveLoop doShow rs st).1 = none →
        (receiveLoop doShow rs st).2.addresses = addNew st.addresses (acceptedAddresses rs)
        ∧ (receiveLoop doShow rs st).2.numberFound + st.list.length
            = st.numberFound + (receiveLoop doShow rs st).2.list.length)
    ∧ (st.count ≤ 0 → (receiveLoop doShow rs st).2.count = st.count
        ∧ (receiveLoop doShow rs st).1 ≠ some 0)
    ∧ (∀ ret, (receiveLoop doShow rs st).1 = some ret →
        ret = -1 ∨ ret = -3 ∨ (ret = 0 ∧ 0 < st.count ∧ (receiveLoop doShow rs st).2.count = 0)) := by
  induction rs with
  | nil =>
    intro st
    simp [receiveLoop, addNew, acceptedAddresses]
  | cons o rs ih =>
    intro st
    cases o with
    | none =>
      have e : receiveLoop doShow (none :: rs) st = (some (-3), st) := rfl
      rw [e]
      refine ⟨rfl, rfl, fun h => h, fun S hS _ => hS, le_refl _, fun h => ?_, fun _ => ⟨rfl, ?_⟩,
        fun ret h => ?_⟩
      · exact Option.noConfusion h
      · intro h; cases h
      · right; left
        exact (Option.some.inj h).symm
    | some r =>
      rw [receiveLoop_cons]
      rcases processReply_cases doShow r st with ⟨hskip, hp⟩ | ⟨hacc, hnew, ht, hf, hnf, hrest⟩
      · -- the datagram is skipped
        rw [hp]
        simp only [if_true]
        obtain ⟨i1, i2, i3, i4, i5, i6, i7, i8⟩ := ih st
        have hadd : addNew st.addresses (acceptedAddresses (some r :: rs))
            = addNew st.addresses (acceptedAddresses rs) := by
          rcases hskip with h | h
          · simp [acceptedAddresses, h]
          · by_cases ha : accepted r = true
            · simp [acceptedAddresses, ha, addNew, h]
            · simp [acceptedAddresses, ha]
        refine ⟨i1, i2, i3, ?_, i5, ?_, i7, i8⟩
        · intro S hS hall
          apply i4 S hS
          intro a ha
          apply hall
          by_cases hacc : accepted r = true
          · simp [acceptedAddresses, hacc, ha]
          · simp [acceptedAddresses, hacc, ha]
        · intro h
          rw [hadd]
          exact i6 h
      · -- the datagram comes from a new module
        have hacc_list : acceptedAddresses (some r :: rs) = r.address :: acceptedAddresses rs := by
          simp [acceptedAddresses, hacc]
        rcases hrest with ⟨hret, hl, hc⟩ | ⟨⟨name, hl⟩, hcount⟩
        · -- malformed field: the function returns -1
          rw [if_neg (by rw [hret]; simp)]
          have haddr : (processReply doShow r st).2.addresses = st.addresses := by
            simp [Discovery.addresses, hl]
          refine ⟨ht, hf, fun h => by rw [haddr]; exact h, fun S hS _ => by rw [haddr]; exact hS,
            by rw [hl], fun h => ?_, fun h => ⟨hc, by rw [hret]; simp⟩, fun ret h => ?_⟩
          · rw [hret] at h; simp at h
          · rw [hret] at h
            left
            exact (Option.some.inj h).symm
        · have haddr := addresses_append st _ name r.address hl
          have hnodup : st.addresses.Nodup → (processReply doShow r st).2.addresses.Nodup := by
            intro h
            rw [haddr]
            exact List.Nodup.append h (List.nodup_singleton _) (by simpa using hnew)
          have hlen : (processReply doShow r st).2.list.length = st.list.length + 1 := by
            simp [hl]
          rcases hcount with ⟨hc0, hret, hc⟩ | ⟨hc0, hret, hc⟩ | ⟨hc0, hret, hc⟩
          · -- no count limit: the loop goes on
            rw [if_pos hret]
            obtain ⟨i1, i2, i3, i4, i5, i6, i7, i8⟩ := ih (processReply doShow r st).2
            refine ⟨i1.trans ht, i2.trans hf, fun h => i3 (hnodup h), ?_, by omega, ?_, ?_, ?_⟩
            · intro S hS hall
              apply i4 S
              · rw [haddr]
                intro a ha
                rcases List.mem_append.mp ha with ha | ha
                · exact hS ha
                · rw [List.mem_singleton.mp ha]
                  exact hall _ (by rw [hacc_list]; simp)
              · intro a ha
                exact hall _ (by rw [hacc_list]; simp [ha])
            · intro h
              obtain ⟨j1, j2⟩ := i6 h
              refine ⟨?_, by omega⟩
              rw [j1, hacc_list, haddr]
              simp [addNew, hnew]
            · intro h
              obtain ⟨j1, j2⟩ := i7 (by rw [hc]; exact h)
              exact ⟨j1.trans hc, j2⟩
            · intro ret h
              rcases i8 ret h with h | h | ⟨h1, h2, h3⟩
              · exact Or.inl h
              · exact Or.inr (Or.inl h)
              · rw [hc] at h2; omega
          · -- below the count limit: the loop goes on
            rw [if_pos hret]
            obtain ⟨i1, i2, i3, i4, i5, i6, i7, i8⟩ := ih (processReply doShow r st).2
            refine ⟨i1.trans ht, i2.trans hf, fun h => i3 (hnodup h), ?_, by omega, ?_, ?_, ?_⟩
            · intro S hS hall
              apply i4 S
              · rw [haddr]
                intro a ha
                rcases List.mem_append.mp ha with ha | ha
                · exact hS ha
                · rw [List.mem_singleton.mp ha]
                  exact hall _ (by rw [hacc_list]; simp)
              · intro a ha
                exact hall _ (by rw [hacc_list]; simp [ha])
            · intro h
              obtain ⟨j1, j2⟩ := i6 h
              refine ⟨?_, by omega⟩
              rw [j1, hacc_list, haddr]
              simp [addNew, hnew]
            · intro h; omega
            · intro ret h
              rcases i8 ret h with h | h | ⟨h1, h2, h3⟩
              · exact Or.inl h
              · exact Or.inr (Or.inl h)
              · exact Or.inr (Or.inr ⟨h1, by omega, h3⟩)
          · -- the count limit is reached: the function returns 0
            rw [if_neg (by rw [hret]; simp)]
            refine ⟨ht, hf, hnodup, ?_, by omega, fun h => ?_, fun h => by omega, fun ret h => ?_⟩
            · intro S hS hall
              rw [haddr]
              intro a ha
              rcases List.mem_append.mp ha with ha | ha
              · exact hS ha
              · rw [List.mem_singleton.mp ha]
                exact hall _ (by rw [hacc_list]; simp)
            · rw [hret] at h; simp at h
            · rw [hret] at h
              right; right
              exact ⟨(Option.some.inj h).symm, by omega, hc⟩

theorem discoverRound_eq (ifCnt : Nat) (doShow : Bool) (rd : Round) (st : Discovery) :
    discoverRound ifCnt doShow rd st =
      if (List.range ifCnt).any (fun i => rd.sends i st.txCnt != (st.txCnt : Int)) then
        (some (-1), { st with numberFound := 0 })
      else if (receiveLoop doShow rd.arrivals { st with numberFound := 0 }).1 = none then
        (none, { (receiveLoop doShow rd.arrivals { st with numberFound := 0 }).2 with
          tries := if (receiveLoop doShow rd.arrivals { st with numberFound := 0 }).2.numberFound > 0
            then DISCOVER_ATTEMPTS
            else (receiveLoop doShow rd.arrivals { st with numberFound := 0 }).2.tries - 1,
          found := (receiveLoop doShow rd.arrivals { st with numberFound := 0 }).2.found
            ++ [(receiveLoop doShow rd.arrivals { st with numberFound := 0 }).2.numberFound] })
      else receiveLoop doShow rd.arrivals { st with numberFound := 0 } := by
  unfold discoverRound
  simp only []
  by_cases h1 : ((List.range ifCnt).any fun i => rd.sends i st.txCnt != (st.txCnt : Int)) = true
  · rw [if_pos h1, if_pos h1]
  · rw [if_neg h1, if_neg h1]
    rcases h : receiveLoop doShow rd.arrivals { st with numberFound := 0 } with ⟨_ | ret, st1⟩
    · simp
    · simp

/-- What one round does to the variables: an early return leaves the retry
counter and the record of rounds alone; a completed round records the number
of modules it added and resets or decrements the counter. -/
theorem discoverRound_spec (ifCnt : Nat) (doShow : Bool) (rd : Round) (st : Discovery) :
    (st.addresses.Nodup → (discoverRound ifCnt doShow rd st).2.addresses.Nodup)
    ∧ (∀ S : List (List Nat), st.addresses ⊆ S → (∀ a ∈ acceptedAddresses rd.arrivals, a ∈ S) →
        (discoverRound ifCnt doShow rd st).2.addresses ⊆ S)
    ∧ st.list.length ≤ (discoverRound ifCnt doShow rd st).2.list.length
    ∧ (st.count ≤ 0 → (discoverRound ifCnt doShow rd st).2.count = st.count
        ∧ (discoverRound ifCnt doShow rd st).1 ≠ some 0)
    ∧ (∀ ret, (discoverRound ifCnt doShow rd st).1 = some ret →
        (discoverRound ifCnt doShow rd st).2.tries = st.tries
        ∧ (discoverRound ifCnt doShow rd st).2.found = st.found
        ∧ (ret = -1 ∨ ret = -3
          ∨ (ret = 0 ∧ 0 < st.count ∧ (discoverRound ifCnt doShow rd st).2.count = 0)))
    ∧ ((discoverRound ifCnt doShow rd st).1 = none →
        (discoverRound ifCnt doShow rd st).2.addresses
          = addNew st.addresses (acceptedAddresses rd.arrivals)
        ∧ (discoverRound ifCnt doShow rd st).2.found
          = st.found ++ [(((discoverRound ifCnt doShow rd st).2.list.length
              - st.list.length : Nat) : Int)]
        ∧ (discoverRound ifCnt doShow rd st).2.tries
          = if st.list.length < (discoverRound ifCnt doShow rd st).2.list.length
            then DISCOVER_ATTEMPTS else st.tries - 1) := by
  obtain ⟨i1, i2, i3, i4, i5, i6, i7, i8⟩ :=
    receiveLoop_spec doShow rd.arrivals { st with numberFound := 0 }
  rw [discoverRound_eq]
  by_cases hsend :
      ((List.range ifCnt).any fun i => rd.sends i st.txCnt != (st.txCnt : Int)) = true
  · rw [if_pos hsend]
    refine ⟨fun h => h, fun S hS _ => hS, le_refl _, fun _ => ⟨rfl, ?_⟩,
      fun ret h => ⟨rfl, rfl, Or.inl (Option.some.inj h).symm⟩, fun h => ?_⟩
    · intro h; cases h
    · cases h
  rw [if_neg hsend]
  by_cases hnone : (receiveLoop doShow rd.arrivals { st with numberFound := 0 }).1 = none
  · rw [if_pos hnone]
    obtain ⟨j1, j2⟩ := i6 hnone
    have j2' : (receiveLoop doShow rd.arrivals { st with numberFound := 0 }).2.numberFound
        + st.list.length
        = 0 + (receiveLoop doShow rd.arrivals { st with numberFound := 0 }).2.list.length := j2
    have i5' : st.list.length
        ≤ (receiveLoop doShow rd.arrivals { st with numberFound := 0 }).2.list.length := i5
    have hnf : (receiveLoop doShow rd.arrivals { st with numberFound := 0 }).2.numberFound
        = (((receiveLoop doShow rd.arrivals { st with numberFound := 0 }).2.list.length
            - st.list.length : Nat) : Int) := by
      omega
    refine ⟨i3, i4, i5, fun h => ⟨(i7 h).1, ?_⟩, fun ret h => ?_, fun _ => ⟨j1, ?_, ?_⟩⟩
    · intro h; cases h
    · cases h
    · show _ ++ [_] = _
      rw [i2, hnf]
    · show (if _ then _ else _) = _
      by_cases hlt : st.list.length
          < (receiveLoop doShow rd.arrivals { st with numberFound := 0 }).2.list.length
      · rw [if_pos hlt, if_pos (by omega)]
      · rw [if_neg hlt, if_neg (by omega), i1]
  · rw [if_neg hnone]
    exact ⟨i3, i4, i5, i7, fun ret h => ⟨i1, i2, i8 ret h⟩, fun h => absurd h hnone⟩

theorem discoverLoop_exit (w : DiscoveryWorld) (doShow : Bool) (fuel k : Nat) (st : Discovery)
    (h : ¬ st.tries > 0) : discoverLoop w doShow fuel k st = some (0, st) := by
  cases fuel <;> simp [discoverLoop, h]

theorem discoverLoop_zero (w : DiscoveryWorld) (doShow : Bool) (k : Nat) (st : Discovery)
    (h : st.tries > 0) : discoverLoop w doShow 0 k st = none := by
  simp [discoverLoop, h]

theorem discoverLoop_return (w : DiscoveryWorld) (doShow : Bool) (fuel k : Nat)
    (st : Discovery) (ret : Int) (h : st.tries > 0)
    (hr : (discoverRound w.ifCnt.toNat doShow (w.rounds k) st).1 = some ret) :
    discoverLoop w doShow (fuel + 1) k st
      = some (ret, (discoverRound w.ifCnt.toNat doShow (w.rounds k) st).2) := by
  rcases hd : discoverRound w.ifCnt.toNat doShow (w.rounds k) st with ⟨_ | r, st1⟩
  · rw [hd] at hr; cases hr
  · rw [hd] at hr
    cases hr
    simp [discoverLoop, h, hd]

theorem discoverLoop_continue (w : DiscoveryWorld) (doShow : Bool) (fuel k : Nat)
    (st : Discovery) (h : st.tries > 0)
    (hr : (discoverRound w.ifCnt.toNat doShow (w.rounds k) st).1 = none) :
    discoverLoop w doShow (fuel + 1) k st
      = discoverLoop w doShow fuel (k + 1)
          (discoverRound w.ifCnt.toNat doShow (w.rounds k) st).2 := by
  rcases hd : discoverRound w.ifCnt.toNat doShow (w.rounds k) st with ⟨_ | r, st1⟩
  · simp [discoverLoop, h, hd]
  · rw [hd] at hr; cases hr

/-- More fuel does not change a result. -/
theorem discoverLoop_mono (w : DiscoveryWorld) (doShow : Bool) (fuel : Nat) :
    ∀ (k : Nat) (st : Discovery) (x : Int × Discovery) (m : Nat),
      discoverLoop w doShow fuel k st = some x → discoverLoop w doShow (fuel + m) k st = some x := by
  induction fuel with
  | zero =>
    intro k st x m h
    by_cases ht : st.tries > 0
    · rw [discoverLoop_zero w doShow k st ht] at h; cases h
    · rw [discoverLoop_exit w doShow _ k st ht] at h ⊢; exact h
  | succ fuel ih =>
    intro k st x m h
    by_cases ht : st.tries > 0
    · rw [show fuel + 1 + m = (fuel + m) + 1 by omega]
      cases hr : (discoverRound w.ifCnt.toNat doShow (w.rounds k) st).1 with
      | none =>
        rw [discoverLoop_continue w doShow _ k st ht hr] at h ⊢
        exact ih _ _ _ m h
      | some ret =>
        rw [discoverLoop_return w doShow _ k st ret ht hr] at h ⊢
        exact h
    · rw [discoverLoop_exit w doShow _ k st ht] at h ⊢; exact h

theorem acceptedAddresses_append (xs ys : List (Option Reply)) :
    acceptedAddresses (xs ++ ys) = acceptedAddresses xs ++ acceptedAddresses ys := by
  induction xs with
  | nil => rfl
  | cons o xs ih =>
    cases o with
    | none => simpa [acceptedAddresses] using ih
    | some r =>
      by_cases h : accepted r = true
      · simp [acceptedAddresses, h, ih]
      · simp [acceptedAddresses, h, ih]

theorem addNew_append (seen xs ys : List (List Nat)) :
    addNew seen (xs ++ ys) = addNew (addNew seen xs) ys := by
  induction xs generalizing seen with
  | nil => rfl
  | cons a xs ih =>
    by_cases h : a ∈ seen
    · simp [addNew, h, ih]
    · simp [addNew, h, ih]

/-- The addresses in the result list over the rounds of a call that ends by
itself: no address twice, and without a count limit every accepted sender of
the rounds that were run, added in the order of arrival. -/
theorem discoverLoop_addresses (w : DiscoveryWorld) (doShow : Bool) (fuel : Nat) :
    ∀ (k : Nat) (st : Discovery) (ret : Int) (st' : Discovery),
      discoverLoop w doShow fuel k st = some (ret, st') →
      (st.addresses.Nodup → st'.addresses.Nodup)
      ∧ (st.count ≤ 0 → ret = 0 →
          ∃ n, st'.found.length = st.found.length + n
            ∧ st'.addresses = addNew st.addresses (acceptedAddresses (arrivalsFrom w k n))) := by
  induction fuel with
  | zero =>
    intro k st ret st' h
    by_cases ht : st.tries > 0
    · rw [discoverLoop_zero w doShow k st ht] at h; cases h
    · rw [discoverLoop_exit w doShow _ k st ht] at h
      cases h
      exact ⟨fun h => h, fun _ _ => ⟨0, rfl, rfl⟩⟩
  | succ fuel ih =>
    intro k st ret st' h
    by_cases ht : st.tries > 0
    · obtain ⟨r1, r2, r3, r4, r5, r6⟩ := discoverRound_spec w.ifCnt.toNat doShow (w.rounds k) st
      cases hr : (discoverRound w.ifCnt.toNat doShow (w.rounds k) st).1 with
      | none =>
        rw [discoverLoop_continue w doShow _ k st ht hr] at h
        obtain ⟨j1, j2⟩ := ih _ _ _ _ h
        obtain ⟨q1, q2, q3⟩ := r6 hr
        refine ⟨fun hn => j1 (r1 hn), fun hc h0 => ?_⟩
        obtain ⟨n, hn1, hn2⟩ := j2 (by rw [(r4 hc).1]; exact hc) h0
        refine ⟨n + 1, ?_, ?_⟩
        · rw [hn1, q2]; simp; omega
        · rw [hn2, q1, arrivalsFrom, acceptedAddresses_append, addNew_append]
      | some ret1 =>
        rw [discoverLoop_return w doShow _ k st ret1 ht hr] at h
        cases h
        refine ⟨r1, fun hc h0 => ?_⟩
        exact absurd (h0 ▸ hr) (r4 hc).2
    · rw [discoverLoop_exit w doShow _ k st ht] at h
      cases h
      exact ⟨fun h => h, fun _ _ => ⟨0, rfl, rfl⟩⟩

theorem firstSeen_filter (p : List Nat → Bool) (l : List (List Nat)) :
    firstSeen (l.filter p) = (firstSeen l).filter p := by
  induction l with
  | nil => rfl
  | cons a l ih =>
    by_cases hp : p a = true
    · simp only [List.filter_cons_of_pos hp, firstSeen, ih, List.filter_filter]
      congr 1
      apply List.filter_congr
      intro x _
      exact Bool.and_comm _ _
    · simp only [List.filter_cons_of_neg hp, firstSeen, ih, List.filter_filter]
      apply List.filter_congr
      intro x _
      by_cases hx : x = a
      · subst hx; simp [hp]
      · simp [hx]

theorem addNew_eq (xs : List (List Nat)) : ∀ seen : List (List Nat),
    addNew seen xs = seen ++ firstSeen (xs.filter (fun a => decide (a ∉ seen))) := by
  induction xs with
  | nil => intro seen; simp [addNew, firstSeen]
  | cons a xs ih =>
    intro seen
    by_cases h : a ∈ seen
    · simp only [addNew, h, if_true, ih]
      rw [List.filter_cons_of_neg (by simp [h])]
    · simp only [addNew, h, if_false, ih]
      rw [List.filter_cons_of_pos (by simp [h]), firstSeen, ← firstSeen_filter,
        List.filter_filter, List.append_assoc, List.singleton_append]
      congr 3
      apply List.filter_congr
      intro x _
      by_cases hx : x = a
      · subst hx; simp
      · simp [hx]

theorem addNew_nil (xs : List (List Nat)) : addNew [] xs = firstSeen xs := by
  rw [addNew_eq]
  simp

theorem mem_firstSeen (l : List (List Nat)) (a : List Nat) : a ∈ firstSeen l ↔ a ∈ l := by
  induction l with
  | nil => simp [firstSeen]
  | cons b l ih =>
    simp only [firstSeen, List.mem_cons, List.mem_filter, ih, bne_iff_ne, ne_eq]
    by_cases h : a = b
    · simp [h]
    · simp [h]

theorem nodup_firstSeen (l : List (List Nat)) : (firstSeen l).Nodup := by
  induction l with
  | nil => simp [firstSeen]
  | cons b l ih =>
    simp only [firstSeen, List.nodup_cons, List.mem_filter, bne_iff_ne, ne_eq, not_true_eq_false,
      and_false, not_false_eq_true, true_and]
    exact ih.filter _

/-- With finitely many distinct module addresses the round loop ends: `fuel`
rounds suffice once they cover three rounds per address still unknown and the
attempts left. -/
theorem discoverLoop_terminates (w : DiscoveryWorld) (doShow : Bool) (S : List (List Nat))
    (hS : ∀ j, ∀ a ∈ acceptedAddresses (w.rounds j).arrivals, a ∈ S) (fuel : Nat) :
    ∀ (k : Nat) (st : Discovery), st.addresses.Nodup → st.addresses ⊆ S → st.tries ≤ 3 →
      3 * (S.length - st.list.length) + st.tries.toNat ≤ fuel →
      (discoverLoop w doShow fuel k st).isSome = true := by
  induction fuel with
  | zero =>
    intro k st _ _ _ hm
    rw [discoverLoop_exit w doShow _ k st (by omega)]
    rfl
  | succ fuel ih =>
    intro k st hnd hsub ht3 hm
    by_cases ht : st.tries > 0
    · obtain ⟨r1, r2, r3, r4, r5, r6⟩ := discoverRound_spec w.ifCnt.toNat doShow (w.rounds k) st
      cases hr : (discoverRound w.ifCnt.toNat doShow (w.rounds k) st).1 with
      | none =>
        rw [discoverLoop_continue w doShow _ k st ht hr]
        obtain ⟨q1, q2, q3⟩ := r6 hr
        have hnd1 := r1 hnd
        have hsub1 := r2 S hsub (hS k)
        have hlen : (discoverRound w.ifCnt.toNat doShow (w.rounds k) st).2.list.length
            ≤ S.length := by
          have := (List.subperm_of_subset hnd1 hsub1).length_le
          simpa [Discovery.addresses] using this
        apply ih _ _ hnd1 hsub1
        · rw [q3]; split_ifs
          · simp [DISCOVER_ATTEMPTS]
          · omega
        · rw [q3]
          split_ifs with hlt
          · simp only [DISCOVER_ATTEMPTS]
            omega
          · have : (discoverRound w.ifCnt.toNat doShow (w.rounds k) st).2.list.length
                = st.list.length := by omega
            rw [this]
            omega
      | some ret =>
        rw [discoverLoop_return w doShow _ k st ret ht hr]
        rfl
    · rw [discoverLoop_exit w doShow _ k st ht]
      rfl

theorem mem_acceptedAddresses_arrivalsFrom (w : DiscoveryWorld) (n : Nat) :
    ∀ (k j : Nat) (a : List Nat), k ≤ j → j < k + n →
      a ∈ acceptedAddresses (w.rounds j).arrivals →
      a ∈ acceptedAddresses (arrivalsFrom w k n) := by
  induction n with
  | zero => intro k j a h1 h2; omega
  | succ n ih =>
    intro k j a h1 h2 ha
    rw [arrivalsFrom, acceptedAddresses_append, List.mem_append]
    by_cases hj : j = k
    · subst hj; exact Or.inl ha
    · exact Or.inr (ih (k + 1) j a (by omega) (by omega) ha)

/-- The call returns, with a result that no longer depends on `fuel`, once
`fuel` covers the bound of `discoverLoop_terminates`. -/
theorem findModules_returns (w : DiscoveryWorld) (doShow : Bool) (count : Int)
    (S : List (List Nat)) (hS : ∀ j, ∀ a ∈ acceptedAddresses (w.rounds j).arrivals, a ∈ S) :
    ∃ ret st, ∀ fuel, 3 * S.length + 3 ≤ fuel →
      findModules w fuel doShow [] count = some (ret, st) := by
  have hsome : (findModules w (3 * S.length + 3) doShow [] count).isSome = true := by
    unfold findModules
    split_ifs
    · rfl
    · rfl
    · apply discoverLoop_terminates w doShow S hS
      · simp [Discovery.addresses, Discovery.init]
      · simp [Discovery.addresses, Discovery.init]
      · simp [Discovery.init, DISCOVER_ATTEMPTS]
      · simp [Discovery.init, DISCOVER_ATTEMPTS]
  obtain ⟨⟨ret, st⟩, hx⟩ := Option.isSome_iff_exists.mp hsome
  refine ⟨ret, st, fun fuel hf => ?_⟩
  obtain ⟨m, rfl⟩ : ∃ m, fuel = 3 * S.length + 3 + m := ⟨fuel - (3 * S.length + 3), by omega⟩
  unfold findModules at hx ⊢
  split_ifs at hx ⊢
  · exact hx
  · exact hx
  · exact discoverLoop_mono w doShow _ _ _ _ m hx

/-- C5: on an initially empty list, whatever `findModules` returns, no address
is in the result list twice; when it returns 0 without a count limit, the list
holds every sender address of an accepted reply of the rounds it ran exactly
once, in the order of first arrival.  For a finite sequence of rounds the call
returns.  Replies from one address under two names give one module. -/
theorem findModules_distinct_addresses (w : DiscoveryWorld) (doShow : Bool) (count : Int) :
    (∀ fuel ret st, findModules w fuel doShow [] count = some (ret, st) →
        st.addresses.Nodup
        ∧ (ret = 0 → count ≤ 0 →
            st.addresses = firstSeen (acceptedAddresses (arrivalsFrom w 0 st.found.length))
            ∧ ∀ a, a ∈ st.addresses
                ↔ a ∈ acceptedAddresses (arrivalsFrom w 0 st.found.length)))
    ∧ (∀ n, (∀ j, n ≤ j → (w.rounds j).arrivals = []) →
        ∃ ret st, ∀ fuel, 3 * (acceptedAddresses (arrivalsFrom w 0 n)).length + 3 ≤ fuel →
          findModules w fuel doShow [] count = some (ret, st))
    ∧ (findModules sampleNet 5 false [] (-1)).map (fun x => (x.1, x.2.list))
        = some (0, [⟨[], bytes "10.0.0.1"⟩, ⟨bytes "one", bytes "10.0.0.2"⟩]) := by
  refine ⟨?_, ?_, by decide⟩
  · intro fuel ret st h
    unfold findModules at h
    split_ifs at h
    · cases h
      exact ⟨by simp [Discovery.addresses, Discovery.init], fun h0 => by cases h0⟩
    · cases h
      exact ⟨by simp [Discovery.addresses, Discovery.init], fun h0 => by cases h0⟩
    · obtain ⟨h1, h2⟩ := discoverLoop_addresses w doShow fuel 0 _ ret st h
      refine ⟨h1 (by simp [Discovery.addresses, Discovery.init]), fun h0 hc => ?_⟩
      obtain ⟨n, hn1, hn2⟩ := h2 hc h0
      have hn : st.found.length = n := by simpa [Discovery.init] using hn1
      have hadd : st.addresses = firstSeen (acceptedAddresses (arrivalsFrom w 0 n)) := by
        rw [hn2]
        exact addNew_nil _
      rw [hn]
      refine ⟨hadd, fun a => ?_⟩
      rw [hadd, mem_firstSeen]
  · intro n hsilent
    apply findModules_returns
    intro j a ha
    by_cases hj : j < n
    · exact mem_acceptedAddresses_arrivalsFrom w n 0 j a (by omega) (by omega) ha
    · rw [hsilent j (by omega)] at ha
      simp [acceptedAddresses] at ha

/-- C5 on the sample network: two addresses, in the order of first arrival. -/
theorem findModules_distinct_addresses_witness :
    sampleDiscovery.2.addresses = [bytes "10.0.0.1", bytes "10.0.0.2"] :=
  ((((findModules_distinct_addresses sampleNet false (-1)).1 5 sampleDiscovery.1
    sampleDiscovery.2 (by rfl)).2 (by decide) (by decide)).1).trans (by decide)

/-! ## The retry counter -/

theorem no_run_after_new (X : List Int) (nf : Int) (hX : ¬ [0, 0, 0] <:+: X) (hnf : nf ≠ 0) :
    ¬ [0, 0, 0] <:+: (X ++ [nf]) ++ [0, 0] := by
  have e : (X ++ [nf]) ++ [0, 0] = ((X ++ [nf]) ++ [0]) ++ [0] := by simp
  rw [e, List.infix_concat_iff, List.infix_concat_iff, List.infix_concat_iff]
  rintro (h | h | h | h)
  · rw [← List.reverse_prefix] at h
    simp [List.cons_prefix_cons] at h
    omega
  · rw [← List.reverse_prefix] at h
    simp [List.cons_prefix_cons] at h
    omega
  · rw [← List.reverse_prefix] at h
    simp [List.cons_prefix_cons] at h
    omega
  · exact hX h

theorem RetryInv.init : RetryInv [] 3 := by
  refine ⟨by omega, by omega, [], by simp, ?_⟩
  intro h
  have := h.length_le
  simp at this

/-- A completed round keeps the relation between counter and record. -/
theorem RetryInv.step (found : List Int) (tries : Int) (g : Nat) (h : RetryInv found tries)
    (ht : tries > 0) :
    RetryInv (found ++ [(g : Int)]) (if 0 < g then 3 else tries - 1) := by
  obtain ⟨h0, h3, pre, hf, hno⟩ := h
  by_cases hg : 0 < g
  · rw [if_pos hg]
    refine ⟨by omega, by omega, found ++ [(g : Int)], by simp, ?_⟩
    apply no_run_after_new _ _ _ (by omega)
    intro hin
    apply hno
    apply hin.trans
    rw [hf]
    apply List.IsPrefix.isInfix
    apply (List.prefix_append_right_inj pre).mpr
    have : (3 - tries).toNat ≤ 2 := by omega
    obtain ⟨j, hj⟩ : ∃ j, (3 - tries).toNat = j := ⟨_, rfl⟩
    rw [hj]
    have hj2 : j ≤ 2 := by omega
    interval_cases j <;> simp [List.replicate]
  · rw [if_neg hg]
    have hg0 : g = 0 := by omega
    subst hg0
    refine ⟨by omega, by omega, pre, ?_, hno⟩
    rw [hf, List.append_assoc]
    congr 1
    have : (3 - (tries - 1)).toNat = (3 - tries).toNat + 1 := by omega
    rw [this, List.replicate_succ']
    rfl

/-- Where the loop ends: either by itself, with the counter at zero, right
after the first three consecutive rounds without a new module; or inside a
round, with attempts left, on an error or on reaching the count limit. -/
theorem discoverLoop_exit_point (w : DiscoveryWorld) (doShow : Bool) (fuel : Nat) :
    ∀ (k : Nat) (st : Discovery) (ret : Int) (st' : Discovery),
      discoverLoop w doShow fuel k st = some (ret, st') → RetryInv st.found st.tries →
      (st'.tries = 0 ∧ ret = 0
        ∧ ∃ pre, st'.found = pre ++ [0, 0, 0] ∧ ¬ [0, 0, 0] <:+: pre ++ [0, 0])
      ∨ (0 < st'.tries
        ∧ (ret = -1 ∨ ret = -3 ∨ (ret = 0 ∧ 0 < st.count ∧ st'.count = 0))) := by
  have hexit : ∀ (st : Discovery), ¬ st.tries > 0 → RetryInv st.found st.tries →
      st.tries = 0 ∧ (0 : Int) = 0
        ∧ ∃ pre, st.found = pre ++ [0, 0, 0] ∧ ¬ [0, 0, 0] <:+: pre ++ [0, 0] := by
    intro st ht ⟨h0, h3, pre, hf, hno⟩
    have h00 : st.tries = 0 := by omega
    refine ⟨h00, rfl, pre, ?_, hno⟩
    rw [hf, h00]
    rfl
  induction fuel with
  | zero =>
    intro k st ret st' h hinv
    by_cases ht : st.tries > 0
    · rw [discoverLoop_zero w doShow k st ht] at h; cases h
    · rw [discoverLoop_exit w doShow _ k st ht] at h
      cases h
      exact Or.inl (hexit st ht hinv)
  | succ fuel ih =>
    intro k st ret st' h hinv
    by_cases ht : st.tries > 0
    · obtain ⟨r1, r2, r3, r4, r5, r6⟩ := discoverRound_spec w.ifCnt.toNat doShow (w.rounds k) st
      cases hr : (discoverRound w.ifCnt.toNat doShow (w.rounds k) st).1 with
      | none =>
        rw [discoverLoop_continue w doShow _ k st ht hr] at h
        obtain ⟨q1, q2, q3⟩ := r6 hr
        have hinv1 : RetryInv (discoverRound w.ifCnt.toNat doShow (w.rounds k) st).2.found
            (discoverRound w.ifCnt.toNat doShow (w.rounds k) st).2.tries := by
          rw [q2, q3]
          have := RetryInv.step st.found st.tries
            ((discoverRound w.ifCnt.toNat doShow (w.rounds k) st).2.list.length
              - st.list.length) hinv ht
          simp only [DISCOVER_ATTEMPTS]
          by_cases hlt : st.list.length
              < (discoverRound w.ifCnt.toNat doShow (w.rounds k) st).2.list.length
          · rw [if_pos hlt]; rw [if_pos (by omega)] at this; exact this
          · rw [if_neg hlt]; rw [if_neg (by omega)] at this; exact this
        rcases ih _ _ _ _ h hinv1 with h1 | ⟨h1, h2⟩
        · exact Or.inl h1
        · refine Or.inr ⟨h1, ?_⟩
          rcases h2 with h2 | h2 | ⟨h2, h3, h4⟩
          · exact Or.inl h2
          · exact Or.inr (Or.inl h2)
          · refine Or.inr (Or.inr ⟨h2, ?_, h4⟩)
            by_contra hc
            have := (r4 (by omega)).1
            omega
      | some ret1 =>
        rw [discoverLoop_return w doShow _ k st ret1 ht hr] at h
        cases h
        obtain ⟨p1, p2, p3⟩ := r5 ret hr
        exact Or.inr ⟨by rw [p1]; exact ht, p3⟩
    · rw [discoverLoop_exit w doShow _ k st ht] at h
      cases h
      exact Or.inl (hexit st ht hinv)

theorem addNew_of_known (seen xs : List (List Nat)) (h : ∀ a ∈ xs, a ∈ seen) :
    addNew seen xs = seen := by
  induction xs with
  | nil => rfl
  | cons a xs ih =>
    have ha : a ∈ seen := h a (by simp)
    simp only [addNew, ha, if_true]
    exact ih (fun b hb => h b (by simp [hb]))

/-- From any list, the addresses of `S` that the list does not hold yet bound
the number of rounds that add a module, so the loop ends. -/
theorem discoverLoop_terminates_any (w : DiscoveryWorld) (doShow : Bool) (S : List (List Nat))
    (hS : ∀ j, ∀ a ∈ acceptedAddresses (w.rounds j).arrivals, a ∈ S) (fuel : Nat) :
    ∀ (k : Nat) (st : Discovery), st.tries ≤ 3 →
      3 * (S.toFinset \ st.addresses.toFinset).card + st.tries.toNat ≤ fuel →
      (discoverLoop w doShow fuel k st).isSome = true := by
  induction fuel with
  | zero =>
    intro k st _ hm
    rw [discoverLoop_exit w doShow _ k st (by omega)]
    rfl
  | succ fuel ih =>
    intro k st ht3 hm
    by_cases ht : st.tries > 0
    · obtain ⟨_, _, _, _, _, r6⟩ := discoverRound_spec w.ifCnt.toNat doShow (w.rounds k) st
      cases hr : (discoverRound w.ifCnt.toNat doShow (w.rounds k) st).1 with
      | none =>
        rw [discoverLoop_continue w doShow _ k st ht hr]
        obtain ⟨q1, _, q3⟩ := r6 hr
        rw [addNew_eq] at q1
        generalize hF : firstSeen (List.filter (fun a => decide (a ∉ st.addresses))
          (acceptedAddresses (w.rounds k).arrivals)) = F at q1
        have hsub : S.toFinset \ (discoverRound w.ifCnt.toNat doShow (w.rounds k) st
            ).2.addresses.toFinset ⊆ S.toFinset \ st.addresses.toFinset := by
          intro a ha
          rw [q1] at ha
          simp only [Finset.mem_sdiff, List.mem_toFinset, List.mem_append, not_or] at ha ⊢
          exact ⟨ha.1, ha.2.1⟩
        apply ih
        · rw [q3]; split_ifs
          · simp [DISCOVER_ATTEMPTS]
          · omega
        · rw [q3]
          split_ifs with hlt
          · have hlen := congrArg List.length q1
            simp only [Discovery.addresses, List.length_map, List.length_append] at hlen
            obtain ⟨a, t, hat⟩ : ∃ a t, F = a :: t := by
              cases hFc : F with
              | nil => rw [hFc] at hlen; simp at hlen; omega
              | cons a t => exact ⟨a, t, rfl⟩
            have haF : a ∈ firstSeen (List.filter (fun a => decide (a ∉ st.addresses))
                (acceptedAddresses (w.rounds k).arrivals)) := by
              rw [hF, hat]; simp
            rw [mem_firstSeen, List.mem_filter] at haF
            have hnew : a ∉ st.addresses := by simpa using haF.2
            have hlt2 : (S.toFinset \ (discoverRound w.ifCnt.toNat doShow (w.rounds k) st
                ).2.addresses.toFinset).card < (S.toFinset \ st.addresses.toFinset).card := by
              apply Finset.card_lt_card
              rw [Finset.ssubset_iff_of_subset hsub]
              refine ⟨a, ?_, ?_⟩
              · simp only [Finset.mem_sdiff, List.mem_toFinset]
                exact ⟨hS k a haF.1, hnew⟩
              · rw [q1, hat]
                simp
            simp only [DISCOVER_ATTEMPTS]
            omega
          · have := Finset.card_le_card hsub
            omega
      | some ret =>
        rw [discoverLoop_return w doShow _ k st ret ht hr]
        rfl
    · rw [discoverLoop_exit w doShow _ k st ht]
      rfl

/-- The call returns from any list, with a result that no longer depends on
`fuel`, once `fuel` covers three rounds for each address and three more. -/
theorem findModules_returns_any (w : DiscoveryWorld) (doShow : Bool) (list : List WiFiInfo)
    (count : Int) (S : List (List Nat))
    (hS : ∀ j, ∀ a ∈ acceptedAddresses (w.rounds j).arrivals, a ∈ S) :
    ∃ ret st, ∀ fuel, 3 * S.length + 3 ≤ fuel →
      findModules w fuel doShow list count = some (ret, st) := by
  have hcard : (S.toFinset \ (Discovery.init list count).addresses.toFinset).card ≤ S.length :=
    (Finset.card_le_card Finset.sdiff_subset).trans (List.toFinset_card_le S)
  have hsome : (findModules w (3 * S.length + 3) doShow list count).isSome = true := by
    unfold findModules
    split_ifs
    · rfl
    · rfl
    · apply discoverLoop_terminates_any w doShow S hS
      · simp [Discovery.init, DISCOVER_ATTEMPTS]
      · have : (Discovery.init list count).tries.toNat = 3 := by
          simp [Discovery.init, DISCOVER_ATTEMPTS]
        omega
  obtain ⟨⟨ret, st⟩, hx⟩ := Option.isSome_iff_exists.mp hsome
  refine ⟨ret, st, fun fuel hf => ?_⟩
  obtain ⟨m, rfl⟩ : ∃ m, fuel = 3 * S.length + 3 + m := ⟨fuel - (3 * S.length + 3), by omega⟩
  unfold findModules at hx ⊢
  split_ifs at hx ⊢
  · exact hx
  · exact hx
  · exact discoverLoop_mono w doShow _ _ _ _ m hx

/-- C6 fails as stated: with `count = 1` the call returns 0 inside its first
round, right after the first module, with the retry counter still at 3 and no
round completed, not at the end of three rounds without a new module. -/
theorem findModules_returns_inside_round :
    (findModules sampleNet 5 false [] 1).map
        (fun x => (x.1, x.2.tries, x.2.found, x.2.list.length))
      = some (0, 3, [], 1) := by
  decide

/-- C6, amended: the retry counter starts at `DISCOVER_ATTEMPTS` = 3; a round
that completes resets it to 3 when it added a module and decrements it when it
added none, as when only known addresses reply.  A call that does not return
inside a round (on a send, receive or field error, or on reaching the count
limit) returns with the counter at zero exactly at the end of the first three
consecutive rounds without a new module.  When the accepted replies come from
finitely many addresses, the call returns, whatever list it is given. -/
theorem findModules_retry_counter (w : DiscoveryWorld) (doShow : Bool)
    (list : List WiFiInfo) (count : Int) :
    ((Discovery.init list count).tries = DISCOVER_ATTEMPTS ∧ DISCOVER_ATTEMPTS = 3)
    ∧ (∀ (ifCnt : Nat) (rd : Round) (st : Discovery),
        (discoverRound ifCnt doShow rd st).1 = none →
        ((discoverRound ifCnt doShow rd st).2.tries
          = if st.list.length < (discoverRound ifCnt doShow rd st).2.list.length then 3
            else st.tries - 1)
        ∧ (discoverRound ifCnt doShow rd st).2.found
          = st.found ++ [(((discoverRound ifCnt doShow rd st).2.list.length
              - st.list.length : Nat) : Int)]
        ∧ ((∀ a ∈ acceptedAddresses rd.arrivals, a ∈ st.addresses) →
            (discoverRound ifCnt doShow rd st).2.tries = st.tries - 1))
    ∧ (∀ fuel ret st, findModules w fuel doShow list count = some (ret, st) →
        (st.tries = 0 ∧ ret = 0
          ∧ ∃ pre, st.found = pre ++ [0, 0, 0] ∧ ¬ [0, 0, 0] <:+: pre ++ [0, 0])
        ∨ (0 < st.tries ∧ (ret = -1 ∨ ret = -3 ∨ (ret = 0 ∧ 0 < count ∧ st.count = 0))))
    ∧ (∀ S : List (List Nat), (∀ j, ∀ a ∈ acceptedAddresses (w.rounds j).arrivals, a ∈ S) →
        ∃ ret st, ∀ fuel, 3 * S.length + 3 ≤ fuel →
          findModules w fuel doShow list count = some (ret, st)) := by
  refine ⟨⟨rfl, rfl⟩, ?_, ?_, fun S hS => findModules_returns_any w doShow list count S hS⟩
  · intro ifCnt rd st hnone
    obtain ⟨r1, r2, r3, r4, r5, r6⟩ := discoverRound_spec ifCnt doShow rd st
    obtain ⟨q1, q2, q3⟩ := r6 hnone
    refine ⟨q3, q2, fun hknown => ?_⟩
    rw [q3]
    have hlen : (discoverRound ifCnt doShow rd st).2.list.length = st.list.length := by
      have := congrArg List.length q1
      rw [addNew_of_known _ _ hknown] at this
      simpa [Discovery.addresses] using this
    rw [if_neg (by omega)]
  · intro fuel ret st h
    unfold findModules at h
    split_ifs at h
    · cases h
      exact Or.inr ⟨by simp [Discovery.init, DISCOVER_ATTEMPTS], Or.inl rfl⟩
    · cases h
      exact Or.inr ⟨by simp [Discovery.init, DISCOVER_ATTEMPTS], Or.inl rfl⟩
    · exact discoverLoop_exit_point w doShow fuel 0 _ ret st h RetryInv.init

/-- C6, amended, on the sample network: the call ends after rounds that added
2, 0, 0 and 0 modules. -/
theorem findModules_retry_counter_witness :
    sampleDiscovery.2.tries = 0 ∧ sampleDiscovery.1 = 0
    ∧ ∃ pre, sampleDiscovery.2.found = pre ++ [0, 0, 0] ∧ ¬ [0, 0, 0] <:+: pre ++ [0, 0] :=
  ((findModules_retry_counter sampleNet false [] (-1)).2.2.1 5 sampleDiscovery.1
    sampleDiscovery.2 (by rfl)).resolve_right (by decide)

/-! ## The status line -/

theorem dropWhile_append_left (p : Nat → Bool) (a b : List Nat) (ha : ∀ x ∈ a, p x = true)
    (hb : ∀ y, b.head? = some y → p y = false) : (a ++ b).dropWhile p = b := by
  induction a with
  | nil =>
    cases b with
    | nil => rfl
    | cons y b => simp [List.dropWhile, hb y rfl]
  | cons x a ih =>
    have hx : p x = true := ha x (by simp)
    simp only [List.cons_append, List.dropWhile, hx]
    exact ih (fun z hz => ha z (by simp [hz]))

theorem cstr_append_left (a b : List Nat) (ha : ∀ x ∈ a, x ≠ 0) : cstr (a ++ b) = a ++ cstr b := by
  induction a with
  | nil => rfl
  | cons x a ih =>
    have hx : x ≠ 0 := ha x (by simp)
    have ih' := ih (fun z hz => ha z (by simp [hz]))
    simp only [cstr] at ih' ⊢
    rw [List.cons_append, List.takeWhile_cons_of_pos (by simpa using hx), ih']
    rfl

theorem digitsValue_append (t x : List Nat) (a : Nat) (hx : isdigit (peek x) = false) :
    digitsValue (t ++ x) a = digitsValue t a := by
  induction t generalizing a with
  | nil => simp [digitsValue_of_not_digit x a hx, digitsValue]
  | cons c t ih =>
    rw [List.cons_append, digitsValue, digitsValue, ih]

theorem peek_append (t x : List Nat) (ht : t ≠ []) : peek (t ++ x) = peek t := by
  cases t with
  | nil => exact absurd rfl ht
  | cons c t => rfl

theorem peek_tail_append (t x : List Nat) (ht : t ≠ []) (hx : isdigit (peek x) = false) :
    isdigit (peek (t ++ x).tail) = isdigit (peek t.tail) := by
  cases t with
  | nil => exact absurd rfl ht
  | cons c t =>
    cases t with
    | nil => simp [peek, isdigit] at hx ⊢; simpa [peek] using hx
    | cons d t => rfl

/-- The conversion `%d` reads the same value whatever follows, as long as no
digit follows directly. -/
theorem scanInt_append (t x : List Nat) (ht : t ≠ []) (hx : isdigit (peek x) = false) :
    scanInt (t ++ x) = scanInt t := by
  have htail : (t ++ x).tail = t.tail ++ x := by
    cases t with
    | nil => exact absurd rfl ht
    | cons c t => rfl
  unfold scanInt
  rw [peek_append t x ht, peek_tail_append t x ht hx, htail, digitsValue_append _ _ _ hx,
    digitsValue_append _ _ _ hx]

/-- What `sscanf` makes of a status line that is complete: white space, a first
token that fits the buffer, white space, a second token, and a white-space or
NUL byte after it. -/
theorem sscanfStatus_complete (ws1 t1 ws2 t2 : List Nat) (c : Nat) (rest : List Nat)
    (hws1 : ∀ x ∈ ws1, isspace x = true)
    (ht1 : t1 ≠ [] ∧ ∀ x ∈ t1, isspace x = false ∧ x ≠ 0)
    (hfit : t1.length < 80)
    (hws2 : ws2 ≠ [] ∧ ∀ x ∈ ws2, isspace x = true)
    (ht2 : t2 ≠ [] ∧ ∀ x ∈ t2, isspace x = false ∧ x ≠ 0)
    (hc : isspace c = true ∨ c = 0) :
    sscanfStatus (ws1 ++ t1 ++ ws2 ++ t2 ++ c :: rest)
      = some (match scanInt t2 with
        | none => (1, none)
        | some v => (2, some v)) := by
  have hsp0 : ∀ x, isspace x = true → x ≠ 0 := by
    intro x hx h0; subst h0; simp [isspace] at hx
  obtain ⟨X, hX, hXd, hXs⟩ : ∃ X, cstr (c :: rest) = X ∧ isdigit (peek X) = false
      ∧ ∀ y, X.head? = some y → isspace y = true := by
    rcases hc with hc | hc
    · refine ⟨c :: cstr rest, ?_, ?_, ?_⟩
      · simp only [cstr]
        rw [List.takeWhile_cons_of_pos (by simpa using hsp0 c hc)]
      · simp only [peek, List.headD_cons]
        simp only [isspace, isdigit, Bool.or_eq_true, beq_iff_eq, Bool.and_eq_true,
          decide_eq_true_eq, Bool.and_eq_false_imp] at hc ⊢
        omega
      · intro y hy
        simp only [List.head?_cons, Option.some.injEq] at hy
        subst hy; exact hc
    · subst hc
      exact ⟨[], by simp [cstr], by decide, by simp⟩
  have hcstr : cstr (ws1 ++ t1 ++ ws2 ++ t2 ++ c :: rest) = ws1 ++ (t1 ++ (ws2 ++ (t2 ++ X))) := by
    rw [List.append_assoc, List.append_assoc, List.append_assoc,
      cstr_append_left _ _ (fun x hx => hsp0 x (hws1 x hx)),
      cstr_append_left _ _ (fun x hx => (ht1.2 x hx).2),
      cstr_append_left _ _ (fun x hx => hsp0 x (hws2.2 x hx)),
      cstr_append_left _ _ (fun x hx => (ht2.2 x hx).2), hX]
  have hhead : ∀ (t u : List Nat), t ≠ [] → ∀ y, (t ++ u).head? = some y → y ∈ t := by
    intro t u ht y hy
    cases t with
    | nil => exact absurd rfl ht
    | cons a t =>
      simp only [List.cons_append, List.head?_cons, Option.some.injEq] at hy
      subst hy; simp
  have h1 : (ws1 ++ (t1 ++ (ws2 ++ (t2 ++ X)))).dropWhile isspace = t1 ++ (ws2 ++ (t2 ++ X)) :=
    dropWhile_append_left _ _ _ hws1 (fun y hy => (ht1.2 y (hhead _ _ ht1.1 y hy)).1)
  have h2 : (t1 ++ (ws2 ++ (t2 ++ X))).dropWhile (fun c => !isspace c) = ws2 ++ (t2 ++ X) :=
    dropWhile_append_left _ _ _ (fun x hx => by simp [(ht1.2 x hx).1])
      (fun y hy => by simp [hws2.2 y (hhead _ _ hws2.1 y hy)])
  have h3 : (ws2 ++ (t2 ++ X)).dropWhile isspace = t2 ++ X :=
    dropWhile_append_left _ _ _ hws2.2 (fun y hy => (ht2.2 y (hhead _ _ ht2.1 y hy)).1)
  have h4 : (t1 ++ (ws2 ++ (t2 ++ X))).takeWhile (fun c => !isspace c) = t1 := by
    rw [List.takeWhile_append_of_pos (fun x hx => by simp [(ht1.2 x hx).1])]
    obtain ⟨y, ys, hy⟩ : ∃ y ys, ws2 = y :: ys := by
      cases hw : ws2 with
      | nil => exact absurd hw hws2.1
      | cons y ys => exact ⟨y, ys, rfl⟩
    have hys : isspace y = true := hws2.2 y (by rw [hy]; simp)
    rw [hy, List.cons_append, List.takeWhile_cons_of_neg (by simp [hys]), List.append_nil]
  have hne : t1 ++ (ws2 ++ (t2 ++ X)) ≠ [] := by
    intro h
    exact ht1.1 (List.append_eq_nil.mp h).1
  have hfit2 : ¬ 80 ≤ t1.length := by omega
  unfold sscanfStatus
  simp only [hcstr, h1, h2, h3, h4, hne, hfit2, if_false, scanInt_append t2 X ht2.1 hXd]
  cases scanInt t2 <;> rfl

theorem scanInt_decimal (n : Nat) (junk : List Nat) (hn : n < 2147483648)
    (hj : isdigit (peek junk) = false) : scanInt (decimal n ++ junk) = some (n : Int) := by
  obtain ⟨c, t, hc, hd⟩ := decimalAux_head (n + 1) n [] (by omega)
  obtain ⟨-, h45, h43⟩ := isdigit_not_space c hd
  have hv := digitsValue_decimal n junk hj
  unfold decimal at hv ⊢
  rw [hc] at hv ⊢
  rw [List.cons_append] at hv ⊢
  unfold scanInt
  simp only [peek, List.headD_cons, h45, h43, if_false, hd, if_true, hv, toInt_of_lt n hn]

theorem scanInt_none (t : List Nat) (hd : isdigit (peek t) = false) (h45 : peek t ≠ 45)
    (h43 : peek t ≠ 43) : scanInt t = none := by
  unfold scanInt
  simp [hd, h45, h43]

/-- C11 fails as stated: the second token of `HTTP/1.1 2x` is not an integer,
yet `sendRequest` returns the byte count 15 and reports status 2. -/
theorem sendRequest_accepts_2x :
    isDecimalInteger (secondToken (bytes "HTTP/1.1 2x\r\n\r\n")) = false
    ∧ (setBaudRateRequest (sampleWorldWith (bytes "HTTP/1.1 2x\r\n\r\n"))
        sampleSession9600 115200).1.ret = 15
    ∧ (setBaudRateRequest (sampleWorldWith (bytes "HTTP/1.1 2x\r\n\r\n"))
        sampleSession9600 115200).1.result = some 2 := by
  decide

/-- The scan of the status line is not bounded by the received bytes: after a
38-byte response that holds one token and blanks, `sscanf` goes on into what
is left of the request in the same buffer and reports its `115200` as status. -/
theorem sendRequest_scans_stale_request :
    (setBaudRateRequest (sampleWorldWith (bytes "X" ++ List.replicate 37 32))
        sampleSession9600 115200).1.ret = 38
    ∧ (setBaudRateRequest (sampleWorldWith (bytes "X" ++ List.replicate 37 32))
        sampleSession9600 115200).1.result = some 115200 := by
  decide

/-- The conversion `%d` on a token that starts with decimal digits. -/
theorem scanInt_digits (digits junk : List Nat) (hne : digits ≠ [])
    (hall : ∀ d ∈ digits, isdigit d = true) (hj : isdigit (peek junk) = false) :
    scanInt (digits ++ junk) = some (toInt (digitsValue digits 0)) := by
  obtain ⟨d, ds, rfl⟩ : ∃ d ds, digits = d :: ds := by
    cases hd : digits with
    | nil => exact absurd hd hne
    | cons d ds => exact ⟨d, ds, rfl⟩
  have hd : isdigit d = true := hall d (by simp)
  obtain ⟨-, h45, h43⟩ := isdigit_not_space d hd
  have hv := digitsValue_append (d :: ds) junk 0 hj
  rw [List.cons_append] at hv ⊢
  unfold scanInt
  simp only [peek, List.headD_cons, h45, h43, if_false, hd, if_true, hv]

/-- The conversion `%d` on a token that starts with a sign and decimal digits. -/
theorem scanInt_signed (digits junk : List Nat) (hne : digits ≠ [])
    (hall : ∀ d ∈ digits, isdigit d = true) (hj : isdigit (peek junk) = false) :
    scanInt (43 :: digits ++ junk) = some (toInt (digitsValue digits 0))
    ∧ scanInt (45 :: digits ++ junk) = some (toInt (-(digitsValue digits 0 : Int))) := by
  obtain ⟨d, ds, rfl⟩ : ∃ d ds, digits = d :: ds := by
    cases hd : digits with
    | nil => exact absurd hd hne
    | cons d ds => exact ⟨d, ds, rfl⟩
  have hd : isdigit d = true := hall d (by simp)
  have hv := digitsValue_append (d :: ds) junk 0 hj
  rw [List.cons_append] at hv
  constructor
  · unfold scanInt
    simp only [List.cons_append, peek, List.headD_cons, List.tail_cons, hd, if_true, hv]
    simp
  · unfold scanInt
    simp only [List.cons_append, peek, List.headD_cons, List.tail_cons, hd, if_true, hv]

theorem scanInt_sign_only (t : List Nat) (hs : peek t = 45 ∨ peek t = 43)
    (hd : isdigit (peek t.tail) = false) : scanInt t = none := by
  unfold scanInt
  rcases hs with h | h <;> simp [h, hd]

/-- A first token of 80 bytes does not fit `buf`: the scan is undefined. -/
theorem sscanfStatus_overrun :
    sscanfStatus (List.replicate 80 65 ++ bytes " 200 OK\r\n\r\n") = none
    ∧ sscanfStatus (List.replicate 79 65 ++ bytes " 200 OK\r\n\r\n") = some (2, some 200) := by
  constructor <;> decide

/-- C11, amended: when a response is received whose status line is complete
within the received bytes (a first token of fewer than 80 bytes, which fits the
scan buffer, white space, a second token, and a white-space or NUL byte after
it), and the second token starts with decimal digits, with or without a sign,
whose value is in the range of `int`, then the reported status is that value
and `sendRequest` returns the byte count, as 200 for `HTTP/1.1 200 OK`; when
the second token does not start with such digits, `sendRequest` returns -1. -/
theorem sendRequest_status (w : World) (s : Session) (req : List Nat) (reqSize : Nat)
    (res : List Nat) (resMax : Nat) (data ws1 t1 ws2 t2 : List Nat) (c : Nat) (more : List Nat)
    (hconnect : (w.ctl s.requests.length).connect = 0)
    (hsend : (w.ctl s.requests.length).send reqSize = (reqSize : Int))
    (hrecv : (w.ctl s.requests.length).recv = some data)
    (hshape : data.take resMax = ws1 ++ t1 ++ ws2 ++ t2 ++ c :: more)
    (hws1 : ∀ x ∈ ws1, isspace x = true)
    (ht1 : t1 ≠ [] ∧ ∀ x ∈ t1, isspace x = false ∧ x ≠ 0)
    (hfit : t1.length < 80)
    (hws2 : ws2 ≠ [] ∧ ∀ x ∈ ws2, isspace x = true)
    (ht2 : t2 ≠ [] ∧ ∀ x ∈ t2, isspace x = false ∧ x ≠ 0)
    (hc : isspace c = true ∨ c = 0) :
    (∀ digits junk : List Nat, digits ≠ [] → (∀ d ∈ digits, isdigit d = true) →
        isdigit (peek junk) = false →
        (t2 = digits ++ junk → digitsValue digits 0 < 2147483648 →
          (sendRequest w s req reqSize res resMax).1.ret = ((data.take resMax).length : Int)
          ∧ (sendRequest w s req reqSize res resMax).1.result
              = some (digitsValue digits 0 : Int))
        ∧ (t2 = 43 :: digits ++ junk → digitsValue digits 0 < 2147483648 →
          (sendRequest w s req reqSize res resMax).1.ret = ((data.take resMax).length : Int)
          ∧ (sendRequest w s req reqSize res resMax).1.result
              = some (digitsValue digits 0 : Int))
        ∧ (t2 = 45 :: digits ++ junk → digitsValue digits 0 ≤ 2147483648 →
          (sendRequest w s req reqSize res resMax).1.ret = ((data.take resMax).length : Int)
          ∧ (sendRequest w s req reqSize res resMax).1.result
              = some (-(digitsValue digits 0 : Int))))
    ∧ (∀ (n : Nat) (junk : List Nat), n < 2147483648 → isdigit (peek junk) = false →
        t2 = decimal n ++ junk →
        (sendRequest w s req reqSize res resMax).1.ret = ((data.take resMax).length : Int)
        ∧ (sendRequest w s req reqSize res resMax).1.result = some (n : Int))
    ∧ (isdigit (peek t2) = false → peek t2 ≠ 45 → peek t2 ≠ 43 →
        (sendRequest w s req reqSize res resMax).1.ret = -1)
    ∧ ((peek t2 = 45 ∨ peek t2 = 43) → isdigit (peek t2.tail) = false →
        (sendRequest w s req reqSize res resMax).1.ret = -1) := by
  have hscan : sscanfStatus (data.take resMax ++ res.drop (data.take resMax).length)
      = some (match scanInt t2 with
        | none => (1, none)
        | some v => (2, some v)) := by
    rw [hshape, List.append_assoc _ (c :: more), List.cons_append]
    exact sscanfStatus_complete ws1 t1 ws2 t2 c _ hws1 ht1 hfit hws2 ht2 hc
  have hsome : ∀ v, scanInt t2 = some v →
      (sendRequest w s req reqSize res resMax).1.ret = ((data.take resMax).length : Int)
      ∧ (sendRequest w s req reqSize res resMax).1.result = some v := by
    intro v hv
    rw [hv] at hscan
    unfold sendRequest
    simp only [hconnect, hsend, hrecv, hscan, Option.getD_some, ne_eq, not_true_eq_false,
      if_false, not_false_eq_true, if_true]
    exact ⟨trivial, trivial⟩
  have hnone : scanInt t2 = none → (sendRequest w s req reqSize res resMax).1.ret = -1 := by
    intro hv
    rw [hv] at hscan
    unfold sendRequest
    simp only [hconnect, hsend, hrecv, hscan, Option.getD_some, ne_eq, not_true_eq_false,
      if_false]
    simp
  refine ⟨?_, ?_, ?_, ?_⟩
  · intro digits junk hne hall hj
    refine ⟨?_, ?_, ?_⟩
    · intro ht hv
      have := hsome _ (by rw [ht]; exact scanInt_digits digits junk hne hall hj)
      rwa [toInt_of_lt _ hv] at this
    · intro ht hv
      have := hsome _ (by rw [ht]; exact (scanInt_signed digits junk hne hall hj).1)
      rwa [toInt_of_lt _ hv] at this
    · intro ht hv
      have := hsome _ (by rw [ht]; exact (scanInt_signed digits junk hne hall hj).2)
      rwa [toInt_neg_of_le _ hv] at this
  · intro n junk hn hj ht
    exact hsome _ (by rw [ht]; exact scanInt_decimal n junk hn hj)
  · intro hd h45 h43
    exact hnone (scanInt_none t2 hd h45 h43)
  · intro hs hd
    exact hnone (scanInt_sign_only t2 hs hd)

set_option maxRecDepth 100000 in
/-- C11, amended, at the response `HTTP/1.1 200 OK` with the body `abcd`. -/
theorem sendRequest_status_witness :
    (setBaudRateRequest sampleWorld200 sampleSession9600 115200).1.ret = 23
    ∧ (setBaudRateRequest sampleWorld200 sampleSession9600 115200).1.result = some 200 :=
  (sendRequest_status sampleWorld200 sampleSession9600 _ _ _ 1024
    (bytes "HTTP/1.1 200 OK\r\n\r\nabcd") [] (bytes "HTTP/1.1") [32] (bytes "200") 32
    (bytes "OK\r\n\r\nabcd") (by decide) (by decide) (by decide) (by decide) (by decide)
    (by decide) (by decide) (by decide) (by decide) (by decide)).2.1 200 [] (by decide)
    (by decide) (by decide)

/-! ## The classification of error bodies -/

theorem tolower_eq_zero (c : Nat) : tolower c = 0 ↔ c = 0 := by
  unfold tolower
  split_ifs with h
  · simp only [Bool.and_eq_true, decide_eq_true_eq] at h
    constructor <;> intro h1 <;> first | omega | exact h1.elim
  · rfl

/-- The comparison of `beginsWith` with a text of `n` bytes without NUL looks at
the first `n` bytes of the body, letter case aside. -/
theorem strncasecmp_eq_zero_iff (text : List Nat) (h0 : ∀ x ∈ text, x ≠ 0) :
    ∀ body : List Nat, strncasecmp body text text.length = 0
      ↔ (body.take text.length).map tolower = text.map tolower := by
  induction text with
  | nil => intro body; simp [strncasecmp]
  | cons d text ih =>
    intro body
    have hd : tolower d ≠ 0 := fun h => h0 d (by simp) ((tolower_eq_zero d).mp h)
    have ih' := ih (fun x hx => h0 x (by simp [hx]))
    cases body with
    | nil =>
      have ht0 : tolower 0 = 0 := rfl
      have hne : ¬ (0 : Nat) = tolower d := fun h => hd h.symm
      simp only [List.length_cons, strncasecmp, peek, List.headD, List.take_nil,
        List.map_nil, List.map_cons, ht0, ne_eq, hne, not_false_eq_true, if_true]
      constructor
      · intro h; simp at h; omega
      · intro h; cases h
    | cons c body =>
      simp only [List.length_cons, strncasecmp, peek, List.headD_cons, List.tail_cons,
        List.take_succ_cons, List.map_cons, List.cons.injEq]
      by_cases hcd : tolower c = tolower d
      · simp only [hcd, ne_eq, not_true_eq_false, if_false, hd, true_and]
        exact ih' body
      · simp only [ne_eq, hcd, not_false_eq_true, if_true, false_and, iff_false]
        omega

theorem beginsWith_iff (body text : List Nat) (h0 : ∀ x ∈ text, x ≠ 0) :
    beginsWith body text = beginsIgnoringCase body text := by
  have hlen : strlen text = text.length := by
    unfold strlen cstr
    rw [List.takeWhile_eq_self_iff.mpr (fun x hx => by simpa using h0 x hx)]
  have := strncasecmp_eq_zero_iff text h0 body
  unfold beginsWith beginsIgnoringCase
  simp only [hlen]
  by_cases h : strncasecmp body text text.length = 0
  · simp [h, this.mp h]
  · have h' := fun e => h (this.mpr e)
    have h2 : (List.map tolower (List.take text.length body) == List.map tolower text)
        = false := by simpa using h'
    rw [h2]
    simpa using h

theorem errorPatterns_nonzero : ∀ p ∈ errorPatterns, ∀ x ∈ p, x ≠ 0 := by decide

theorem beginsIgnoringCase_both (body p q : List Nat) (hp : beginsIgnoringCase body p = true)
    (hq : beginsIgnoringCase body q = true) (hlen : p.length ≤ q.length) :
    p.map tolower = (q.take p.length).map tolower := by
  simp only [beginsIgnoringCase, beq_iff_eq] at hp hq
  have h := congrArg (List.take p.length) hq
  rw [← List.map_take, ← List.map_take, List.take_take, Nat.min_eq_left hlen, hp] at h
  exact h

theorem errorPatterns_distinct : ∀ p ∈ errorPatterns, ∀ q ∈ errorPatterns, p ≠ q →
    p.length ≤ q.length → p.map tolower ≠ (q.take p.length).map tolower := by
  decide

/-- No body begins with two of the patterns at once. -/
theorem beginsWith_exclusive (body p : List Nat) (hp : p ∈ errorPatterns) (q : List Nat)
    (hq : q ∈ errorPatterns) (hne : p ≠ q) (h : beginsWith body p = true) :
    beginsWith body q = false := by
  cases hbq : beginsWith body q with
  | false => rfl
  | true =>
    exfalso
    rw [beginsWith_iff body p (errorPatterns_nonzero p hp)] at h
    rw [beginsWith_iff body q (errorPatterns_nonzero q hq)] at hbq
    rcases Nat.le_total p.length q.length with hl | hl
    · exact errorPatterns_distinct p hp q hq hne hl (beginsIgnoringCase_both body p q h hbq hl)
    · exact errorPatterns_distinct q hq p hp (Ne.symm hne) hl
        (beginsIgnoringCase_both body q p hbq h hl)

/-- For every body, none of the seven comparisons succeeds, or exactly one does. -/
theorem errorPatterns_cases (body : List Nat) :
    (beginsWith body (bytes "RX handshake timeout") = false ∧ beginsWith body (bytes "Checksum timeout") = false ∧ beginsWith body (bytes "StartAck timeout") = false ∧ beginsWith body (bytes "RX handshake failed") = false ∧ beginsWith body (bytes "Wrong Propeller version: got ") = false ∧ beginsWith body (bytes "Checksum error") = false ∧ beginsWith body (bytes "Load image failed") = false)
    ∨ (beginsWith body (bytes "RX handshake timeout") = true ∧ beginsWith body (bytes "Checksum timeout") = false ∧ beginsWith body (bytes "StartAck timeout") = false ∧ beginsWith body (bytes "RX handshake failed") = false ∧ beginsWith body (bytes "Wrong Propeller version: got ") = false ∧ beginsWith body (bytes "Checksum error") = false ∧ beginsWith body (bytes "Load image failed") = false)
    ∨ (beginsWith body (bytes "RX handshake timeout") = false ∧ beginsWith body (bytes "Checksum timeout") = true ∧ beginsWith body (bytes "StartAck timeout") = false ∧ beginsWith body (bytes "RX handshake failed") = false ∧ beginsWith body (bytes "Wrong Propeller version: got ") = false ∧ beginsWith body (bytes "Checksum error") = false ∧ beginsWith body (bytes "Load image failed") = false)
    ∨ (beginsWith body (bytes "RX handshake timeout") = false ∧ beginsWith body (bytes "Checksum timeout") = false ∧ beginsWith body (bytes "StartAck timeout") = true ∧ beginsWith body (bytes "RX handshake failed") = false ∧ beginsWith body (bytes "Wrong Propeller version: got ") = false ∧ beginsWith body (bytes "Checksum error") = false ∧ beginsWith body (bytes "Load image failed") = false)
    ∨ (beginsWith body (bytes "RX handshake timeout") = false ∧ beginsWith body (bytes "Checksum timeout") = false ∧ beginsWith body (bytes "StartAck timeout") = false ∧ beginsWith body (bytes "RX handshake failed") = true ∧ beginsWith body (bytes "Wrong Propeller version: got ") = false ∧ beginsWith body (bytes "Checksum error") = false ∧ beginsWith body (bytes "Load image failed") = false)
    ∨ (beginsWith body (bytes "RX handshake timeout") = false ∧ beginsWith body (bytes "Checksum timeout") = false ∧ beginsWith body (bytes "StartAck timeout") = false ∧ beginsWith body (bytes "RX handshake failed") = false ∧ beginsWith body (bytes "Wrong Propeller version: got ") = true ∧ beginsWith body (bytes "Checksum error") = false ∧ beginsWith body (bytes "Load image failed") = false)
    ∨ (beginsWith body (bytes "RX handshake timeout") = false ∧ beginsWith body (bytes "Checksum timeout") = false ∧ beginsWith body (bytes "StartAck timeout") = false ∧ beginsWith body (bytes "RX handshake failed") = false ∧ beginsWith body (bytes "Wrong Propeller version: got ") = false ∧ beginsWith body (bytes "Checksum error") = true ∧ beginsWith body (bytes "Load image failed") = false)
    ∨ (beginsWith body (bytes "RX handshake timeout") = false ∧ beginsWith body (bytes "Checksum timeout") = false ∧ beginsWith body (bytes "StartAck timeout") = false ∧ beginsWith body (bytes "RX handshake failed") = false ∧ beginsWith body (bytes "Wrong Propeller version: got ") = false ∧ beginsWith body (bytes "Checksum error") = false ∧ beginsWith body (bytes "Load image failed") = true) := by
  have hx := beginsWith_exclusive body
  by_cases h0 : beginsWith body (bytes "RX handshake timeout") = true
  · exact Or.inr (Or.inl ⟨h0, hx (bytes "RX handshake timeout") (by decide) (bytes "Checksum timeout") (by decide) (by decide) h0, hx (bytes "RX handshake timeout") (by decide) (bytes "StartAck timeout") (by decide) (by decide) h0, hx (bytes "RX handshake timeout") (by decide) (bytes "RX handshake failed") (by decide) (by decide) h0, hx (bytes "RX handshake timeout") (by decide) (bytes "Wrong Propeller version: got ") (by decide) (by decide) h0, hx (bytes "RX handshake timeout") (by decide) (bytes "Checksum error") (by decide) (by decide) h0, hx (bytes "RX handshake timeout") (by decide) (bytes "Load image failed") (by decide) (by decide) h0⟩)
  by_cases h1 : beginsWith body (bytes "Checksum timeout") = true
  · exact Or.inr (Or.inr (Or.inl ⟨hx (bytes "Checksum timeout") (by decide) (bytes "RX handshake timeout") (by decide) (by decide) h1, h1, hx (bytes "Checksum timeout") (by decide) (bytes "StartAck timeout") (by decide) (by decide) h1, hx (bytes "Checksum timeout") (by decide) (bytes "RX handshake failed") (by decide) (by decide) h1, hx (bytes "Checksum timeout") (by decide) (bytes "Wrong Propeller version: got ") (by decide) (by decide) h1, hx (bytes "Checksum timeout") (by decide) (bytes "Checksum error") (by decide) (by decide) h1, hx (bytes "Checksum timeout") (by decide) (bytes "Load image failed") (by decide) (by decide) h1⟩))
  by_cases h2 : beginsWith body (bytes "StartAck timeout") = true
  · exact Or.inr (Or.inr (Or.inr (Or.inl ⟨hx (bytes "StartAck timeout") (by decide) (bytes "RX handshake timeout") (by decide) (by decide) h2, hx (bytes "StartAck timeout") (by decide) (bytes "Checksum timeout") (by decide) (by decide) h2, h2, hx (bytes "StartAck timeout") (by decide) (bytes "RX handshake failed") (by decide) (by decide) h2, hx (bytes "StartAck timeout") (by decide) (bytes "Wrong Propeller version: got ") (by decide) (by decide) h2, hx (bytes "StartAck timeout") (by decide) (bytes "Checksum error") (by decide) (by decide) h2, hx (bytes "StartAck timeout") (by decide) (bytes "Load image failed") (by decide) (by decide) h2⟩)))
  by_cases h3 : beginsWith body (bytes "RX handshake failed") = true
  · exact Or.inr (Or.inr (Or.inr (Or.inr (Or.inl ⟨hx (bytes "RX handshake failed") (by decide) (bytes "RX handshake timeout") (by decide) (by decide) h3, hx (bytes "RX handshake failed") (by decide) (bytes "Checksum timeout") (by decide) (by decide) h3, hx (bytes "RX handshake failed") (by decide) (bytes "StartAck timeout") (by decide) (by decide) h3, h3, hx (bytes "RX handshake failed") (by decide) (bytes "Wrong Propeller version: got ") (by decide) (by decide) h3, hx (bytes "RX handshake failed") (by decide) (bytes "Checksum error") (by decide) (by decide) h3, hx (bytes "RX handshake failed") (by decide) (bytes "Load image failed") (by decide) (by decide) h3⟩))))
  by_cases h4 : beginsWith body (bytes "Wrong Propeller version: got ") = true
  · exact Or.inr (Or.inr (Or.inr (Or.inr (Or.inr (Or.inl ⟨hx (bytes "Wrong Propeller version: got ") (by decide) (bytes "RX handshake timeout") (by decide) (by decide) h4, hx (bytes "Wrong Propeller version: got ") (by decide) (bytes "Checksum timeout") (by decide) (by decide) h4, hx (bytes "Wrong Propeller version: got ") (by decide) (bytes "StartAck timeout") (by decide) (by decide) h4, hx (bytes "Wrong Propeller version: got ") (by decide) (bytes "RX handshake failed") (by decide) (by decide) h4, h4, hx (bytes "Wrong Propeller version: got ") (by decide) (bytes "Checksum error") (by decide) (by decide) h4, hx (bytes "Wrong Propeller version: got ") (by decide) (bytes "Load image failed") (by decide) (by decide) h4⟩)))))
  by_cases h5 : beginsWith body (bytes "Checksum error") = true
  · exact Or.inr (Or.inr (Or.inr (Or.inr (Or.inr (Or.inr (Or.inl ⟨hx (bytes "Checksum error") (by decide) (bytes "RX handshake timeout") (by decide) (by decide) h5, hx (bytes "Checksum error") (by decide) (bytes "Checksum timeout") (by decide) (by decide) h5, hx (bytes "Checksum error") (by decide) (bytes "StartAck timeout") (by decide) (by decide) h5, hx (bytes "Checksum error") (by decide) (bytes "RX handshake failed") (by decide) (by decide) h5, hx (bytes "Checksum error") (by decide) (bytes "Wrong Propeller version: got ") (by decide) (by decide) h5, h5, hx (bytes "Checksum error") (by decide) (bytes "Load image failed") (by decide) (by decide) h5⟩))))))
  by_cases h6 : beginsWith body (bytes "Load image failed") = true
  · exact Or.inr (Or.inr (Or.inr (Or.inr (Or.inr (Or.inr (Or.inr (⟨hx (bytes "Load image failed") (by decide) (bytes "RX handshake timeout") (by decide) (by decide) h6, hx (bytes "Load image failed") (by decide) (bytes "Checksum timeout") (by decide) (by decide) h6, hx (bytes "Load image failed") (by decide) (bytes "StartAck timeout") (by decide) (by decide) h6, hx (bytes "Load image failed") (by decide) (bytes "RX handshake failed") (by decide) (by decide) h6, hx (bytes "Load image failed") (by decide) (bytes "Wrong Propeller version: got ") (by decide) (by decide) h6, hx (bytes "Load image failed") (by decide) (bytes "Checksum error") (by decide) (by decide) h6, h6⟩)))))))
  exact Or.inl ⟨by simpa using h0, by simpa using h1, by simpa using h2, by simpa using h3, by simpa using h4, by simpa using h5, by simpa using h6⟩

/-- The non-200 branch of `loadImage` with a body: status and error are those of
the chain of comparisons. -/
theorem loadImageReply_classify (s : Session) (r : Response) (response : List Nat)
    (responseSize : Int) (b : Nat × Nat) (hret : r.ret ≠ -1) (hstatus : r.result ≠ some 200)
    (hbody : getBody r.res r.ret.toNat = some b) :
    loadImageReply s r response responseSize
      = ⟨(classifyBody s.portName (bodyBytes r.res b)).1,
          nerror s (classifyBody s.portName (bodyBytes r.res b)).2, response⟩ := by
  unfold loadImageReply classifyBody
  simp only [hret, hstatus, if_false, ne_eq, not_false_eq_true, if_true, hbody]
  repeat' split
  all_goals rfl

theorem loadImageReply_no_body (s : Session) (r : Response) (response : List Nat)
    (responseSize : Int) (hret : r.ret ≠ -1) (hstatus : r.result ≠ some 200)
    (hbody : getBody r.res r.ret.toNat = none) :
    loadImageReply s r response responseSize = ⟨-1, s, response⟩ := by
  unfold loadImageReply
  simp only [hret, hstatus, if_false, ne_eq, not_false_eq_true, if_true, hbody]

theorem errors_append_inj (s : Session) (e e' : ErrorReport) :
    (nerror s e).errors = s.errors ++ [e'] ↔ e = e' := by
  simp [nerror]

theorem classifyBody_internal_iff (portName body : List Nat) :
    (classifyBody portName body).2 = .ERROR_INTERNAL_CODE_ERROR
      ↔ ∀ p ∈ errorPatterns, beginsIgnoringCase body p = false := by
  have hiff : (∀ p ∈ errorPatterns, beginsIgnoringCase body p = false)
      ↔ ∀ p ∈ errorPatterns, beginsWith body p = false := by
    constructor
    · intro h p hp
      rw [beginsWith_iff body p (errorPatterns_nonzero p hp)]; exact h p hp
    · intro h p hp
      rw [← beginsWith_iff body p (errorPatterns_nonzero p hp)]; exact h p hp
  rw [hiff]
  unfold classifyBody
  simp only [errorPatterns, List.mem_cons, List.mem_singleton, List.not_mem_nil, or_false,
    forall_eq_or_imp, forall_eq]
  rcases errorPatterns_cases body with h | h | h | h | h | h | h | h <;>
    obtain ⟨h1, h2, h3, h4, h5, h6, h7⟩ := h <;>
    simp [h1, h2, h3, h4, h5, h6, h7]

theorem beginsWith_of_spelled (body p : List Nat) (hp : p ∈ errorPatterns) (h : p <+: body) :
    beginsWith body p = true := by
  rw [beginsWith_iff body p (errorPatterns_nonzero p hp)]
  obtain ⟨t, ht⟩ := h
  rw [← ht]
  simp [beginsIgnoringCase]

theorem classifyBody_status (portName body : List Nat) :
    (classifyBody portName body).1
      = if beginsIgnoringCase body (bytes "StartAck timeout") then -2 else -1 := by
  rw [← beginsWith_iff body _ (errorPatterns_nonzero _ (by decide))]
  unfold classifyBody
  rcases errorPatterns_cases body with h | h | h | h | h | h | h | h <;>
    obtain ⟨h1, h2, h3, h4, h5, h6, h7⟩ := h <;>
    simp [h1, h2, h3, h4, h5, h6, h7]

set_option maxRecDepth 100000 in
/-- C12, counterexample: the body `rx handshake timeout` begins with none of the
seven texts as spelled, and `loadImage` reports communication lost, not the
internal error. -/
theorem loadImage_classifies_lower_case :
    (∀ p ∈ errorPatterns, ¬ p <+: bytes "rx handshake timeout")
    ∧ (loadImageRequest (sampleWorldError (bytes "rx handshake timeout")) sampleSession [] 0).1
        = some (sampleLoadResponse (sampleWorldError (bytes "rx handshake timeout")))
    ∧ (sampleLoadResponse (sampleWorldError (bytes "rx handshake timeout"))).result = some 500
    ∧ getBody (sampleLoadResponse (sampleWorldError (bytes "rx handshake timeout"))).res 58
        = some (38, 20)
    ∧ bodyBytes (sampleLoadResponse (sampleWorldError (bytes "rx handshake timeout"))).res (38, 20)
        = bytes "rx handshake timeout"
    ∧ (loadImage (sampleWorldError (bytes "rx handshake timeout")) sampleSession [] [] 0
        ).session.errors = [.ERROR_COMMUNICATION_LOST] := by
  refine ⟨by decide, by rfl, by decide, by decide, by decide, by decide⟩

/-- C12, amended: the classification is closed and ignores the case of ASCII
letters. For every non-200 response with a body, `loadImage` reports the
internal error exactly when the body begins, letter case ignored, with none of
the seven texts; a body that begins with one of them as spelled is therefore
never reported as internal. -/
theorem loadImage_internal_iff (w : World) (s : Session) (image response : List Nat)
    (responseSize : Int) (r : Response) (b : Nat × Nat)
    (hreq : (loadImageRequest w s image responseSize).1 = some r)
    (hret : r.ret ≠ -1) (hstatus : r.result ≠ some 200)
    (hbody : getBody r.res r.ret.toNat = some b) :
    let s1 := (loadImageRequest w s image responseSize).2
    let out := loadImage w s image response responseSize
    (out.session.errors = s1.errors ++ [.ERROR_INTERNAL_CODE_ERROR]
      ↔ ∀ p ∈ errorPatterns, beginsIgnoringCase (bodyBytes r.res b) p = false)
    ∧ (∀ p ∈ errorPatterns, p <+: bodyBytes r.res b →
        out.session.errors ≠ s1.errors ++ [.ERROR_INTERNAL_CODE_ERROR]) := by
  intro s1 out
  have hout : out = loadImageReply s1 r response responseSize :=
    loadImage_eq_reply w s image response responseSize r hreq
  have h1 : out.session.errors = s1.errors ++ [.ERROR_INTERNAL_CODE_ERROR]
      ↔ ∀ p ∈ errorPatterns, beginsIgnoringCase (bodyBytes r.res b) p = false := by
    rw [hout, loadImageReply_classify s1 r response responseSize b hret hstatus hbody]
    show (nerror s1 _).errors = _ ↔ _
    rw [errors_append_inj, classifyBody_internal_iff]
  refine ⟨h1, ?_⟩
  intro p hp hpre heq
  have h2 := h1.mp heq p hp
  obtain ⟨t, ht⟩ := hpre
  rw [← ht] at h2
  simp [beginsIgnoringCase] at h2

set_option maxRecDepth 100000 in
/-- C12, amended, at the bodies `Unknown` (internal error) and
`rx handshake timeout` (not internal). -/
theorem loadImage_internal_iff_witness :
    (loadImage (sampleWorldError (bytes "Unknown")) sampleSession [] [] 0).session.errors
      = [.ERROR_INTERNAL_CODE_ERROR]
    ∧ beginsIgnoringCase (bytes "rx handshake timeout") (bytes "RX handshake timeout") = true :=
  ⟨((loadImage_internal_iff (sampleWorldError (bytes "Unknown")) sampleSession [] [] 0
      (sampleLoadResponse (sampleWorldError (bytes "Unknown"))) (38, 7)
      (by rfl) (by decide) (by decide) (by decide)).1).mpr (by decide), by decide⟩

/-- A scan in the documented order whose comparison agrees with the source's
on the seven patterns gives the error of the source's chain. -/
theorem classifyInOrder_eq (cmp : List Nat → List Nat → Bool) (portName body : List Nat)
    (hcmp : ∀ p ∈ errorPatterns, cmp body p = beginsWith body p) :
    classifyInOrder cmp portName body = (classifyBody portName body).2 := by
  unfold classifyInOrder classifyBody
  rw [hcmp (bytes "RX handshake timeout") (by decide),
    hcmp (bytes "Checksum timeout") (by decide),
    hcmp (bytes "StartAck timeout") (by decide),
    hcmp (bytes "RX handshake failed") (by decide),
    hcmp (bytes "Wrong Propeller version: got ") (by decide),
    hcmp (bytes "Checksum error") (by decide),
    hcmp (bytes "Load image failed") (by decide)]
  rcases errorPatterns_cases body with h | h | h | h | h | h | h | h <;>
    obtain ⟨h1, h2, h3, h4, h5, h6, h7⟩ := h <;>
    simp [h1, h2, h3, h4, h5, h6, h7]

/-- On a body that begins with one of the patterns as spelled, or with none of
them when letter case is ignored, the comparison as spelled agrees with the
source's on the seven patterns. -/
theorem beginsAsSpelled_eq (body : List Nat)
    (h : (∃ q ∈ errorPatterns, q <+: body)
      ∨ ∀ q ∈ errorPatterns, beginsIgnoringCase body q = false)
    (p : List Nat) (hp : p ∈ errorPatterns) :
    beginsAsSpelled body p = beginsWith body p := by
  cases hbw : beginsWith body p with
  | false =>
    rw [Bool.eq_false_iff]
    intro hs
    have hpre : p <+: body := List.isPrefixOf_iff_prefix.mp hs
    rw [beginsWith_of_spelled body p hp hpre] at hbw
    exact Bool.noConfusion hbw
  | true =>
    rcases h with ⟨q, hq, hpre⟩ | hnone
    · by_cases hqp : q = p
      · subst hqp
        exact List.isPrefixOf_iff_prefix.mpr hpre
      · have := beginsWith_exclusive body q hq p hp hqp (beginsWith_of_spelled body q hq hpre)
        rw [this] at hbw
        exact Bool.noConfusion hbw
    · have := hnone p hp
      rw [← beginsWith_iff body p (errorPatterns_nonzero p hp), hbw] at this
      exact Bool.noConfusion this

set_option maxRecDepth 100000 in
/-- C13, counterexample: on the body `rx handshake timeout` the scan in the
documented order, with the patterns compared as they are spelled, gives the
internal error, and the chain of `loadImage` reports communication lost. -/
theorem classifySpecOrder_differs_lower_case :
    classifySpecOrder (bytes "") (bytes "rx handshake timeout") = .ERROR_INTERNAL_CODE_ERROR
    ∧ (classifyBody (bytes "") (bytes "rx handshake timeout")).2 = .ERROR_COMMUNICATION_LOST
    ∧ sampleSession.portName = bytes ""
    ∧ (loadImage (sampleWorldError (bytes "rx handshake timeout")) sampleSession [] [] 0
        ).session.errors = [.ERROR_COMMUNICATION_LOST] := by
  refine ⟨by decide, by decide, by decide, by decide⟩

/-- C13, amended: for every non-200 response with a body, the error that
`loadImage` reports with its comparisons in source order is the one that a
first-match scan in the documented priority order gives when the scan ignores
letter case, as the source does; it is also the one that the scan gives with
the patterns compared as spelled, whenever the body begins with one of the
patterns as spelled or with none of them when letter case is ignored.  No body
begins, letter case ignored, with two different patterns. -/
theorem loadImage_priority_order (w : World) (s : Session) (image response : List Nat)
    (responseSize : Int) (r : Response) (b : Nat × Nat)
    (hreq : (loadImageRequest w s image responseSize).1 = some r)
    (hret : r.ret ≠ -1) (hstatus : r.result ≠ some 200)
    (hbody : getBody r.res r.ret.toNat = some b) :
    let s1 := (loadImageRequest w s image responseSize).2
    let out := loadImage w s image response responseSize
    out.session.errors
        = s1.errors ++ [classifyInOrder beginsIgnoringCase s1.portName (bodyBytes r.res b)]
    ∧ (((∃ p ∈ errorPatterns, p <+: bodyBytes r.res b)
          ∨ ∀ p ∈ errorPatterns, beginsIgnoringCase (bodyBytes r.res b) p = false) →
        out.session.errors
          = s1.errors ++ [classifySpecOrder s1.portName (bodyBytes r.res b)])
    ∧ (∀ body, ∀ p ∈ errorPatterns, ∀ q ∈ errorPatterns, p ≠ q →
        ¬ (beginsIgnoringCase body p = true ∧ beginsIgnoringCase body q = true)) := by
  intro s1 out
  have hout : out = loadImageReply s1 r response responseSize :=
    loadImage_eq_reply w s image response responseSize r hreq
  have herr : ∀ e, e = (classifyBody s1.portName (bodyBytes r.res b)).2 →
      out.session.errors = s1.errors ++ [e] := by
    intro e he
    rw [hout, loadImageReply_classify s1 r response responseSize b hret hstatus hbody]
    show (nerror s1 _).errors = _
    rw [errors_append_inj, he]
  refine ⟨?_, ?_, ?_⟩
  · exact herr _ (classifyInOrder_eq _ _ _
      (fun p hp => (beginsWith_iff _ p (errorPatterns_nonzero p hp)).symm))
  · intro h
    exact herr _ (classifyInOrder_eq _ _ _ (beginsAsSpelled_eq _ h))
  · rintro body p hp q hq hne ⟨h1, h2⟩
    rw [← beginsWith_iff body p (errorPatterns_nonzero p hp)] at h1
    rw [← beginsWith_iff body q (errorPatterns_nonzero q hq),
      beginsWith_exclusive body p hp q hq hne h1] at h2
    exact Bool.false_ne_true h2

set_option maxRecDepth 100000 in
/-- C13, amended, at the body `StartAck timeout`, the last comparison of the
source and the third of the documented order. -/
theorem loadImage_priority_order_witness :
    (loadImage (sampleWorldError (bytes "StartAck timeout")) sampleSession [] [] 0).session.errors
      = [classifySpecOrder (bytes "") (bytes "StartAck timeout")] :=
  (loadImage_priority_order (sampleWorldError (bytes "StartAck timeout")) sampleSession [] [] 0
    (sampleLoadResponse (sampleWorldError (bytes "StartAck timeout"))) (38, 16)
    (by rfl) (by decide) (by decide) (by decide)).2.1
    (Or.inl ⟨bytes "StartAck timeout", by decide, by decide⟩)

set_option maxRecDepth 100000 in
/-- C19, counterexample: the body `startack timeout` does not begin with
`StartAck timeout`, and `loadImage` returns -2. -/
theorem loadImage_soft_failure_lower_case :
    ¬ bytes "StartAck timeout" <+: bytes "startack timeout"
    ∧ (loadImageRequest (sampleWorldError (bytes "startack timeout")) sampleSession [] 0).1
        = some (sampleLoadResponse (sampleWorldError (bytes "startack timeout")))
    ∧ (sampleLoadResponse (sampleWorldError (bytes "startack timeout"))).result = some 500
    ∧ getBody (sampleLoadResponse (sampleWorldError (bytes "startack timeout"))).res 54
        = some (38, 16)
    ∧ bodyBytes (sampleLoadResponse (sampleWorldError (bytes "startack timeout"))).res (38, 16)
        = bytes "startack timeout"
    ∧ (loadImage (sampleWorldError (bytes "startack timeout")) sampleSession [] [] 0).ret
        = -2 := by
  refine ⟨by decide, by rfl, by decide, by decide, by decide, by decide⟩

/-- C19, amended: for every response that is received with a status other than
200, `loadImage` returns -1 when no body is found, and when a body is found it
returns -2 exactly when the body begins, letter case ignored, with
`StartAck timeout` and -1 otherwise; in particular it returns -2 for a body that
begins with `StartAck timeout` as spelled and -1 for one that begins with
`RX handshake timeout` or `Checksum timeout`. -/
theorem loadImage_soft_failure_iff (w : World) (s : Session) (image response : List Nat)
    (responseSize : Int) (r : Response)
    (hreq : (loadImageRequest w s image responseSize).1 = some r)
    (hret : r.ret ≠ -1) (hstatus : r.result ≠ some 200) :
    let out := loadImage w s image response responseSize
    (getBody r.res r.ret.toNat = none → out.ret = -1)
    ∧ (∀ b, getBody r.res r.ret.toNat = some b →
        (out.ret = -2 ↔ beginsIgnoringCase (bodyBytes r.res b) (bytes "StartAck timeout") = true)
        ∧ (out.ret ≠ -2 → out.ret = -1)
        ∧ (bytes "StartAck timeout" <+: bodyBytes r.res b → out.ret = -2)
        ∧ (bytes "RX handshake timeout" <+: bodyBytes r.res b → out.ret = -1)
        ∧ (bytes "Checksum timeout" <+: bodyBytes r.res b → out.ret = -1)) := by
  intro out
  have hout : out = loadImageReply (loadImageRequest w s image responseSize).2 r response
      responseSize := loadImage_eq_reply w s image response responseSize r hreq
  refine ⟨?_, ?_⟩
  · intro hbody
    rw [hout, loadImageReply_no_body _ r response responseSize hret hstatus hbody]
  · intro b hbody
    have hr : out.ret = if beginsIgnoringCase (bodyBytes r.res b) (bytes "StartAck timeout")
        then -2 else -1 := by
      rw [hout, loadImageReply_classify _ r response responseSize b hret hstatus hbody]
      exact classifyBody_status _ _
    refine ⟨?_, ?_, ?_, ?_, ?_⟩
    · rw [hr]; split <;> simp_all
    · rw [hr]; split <;> simp_all
    · rintro ⟨t, ht⟩
      rw [hr, ← ht]
      simp [beginsIgnoringCase]
    · intro hpre
      rw [hr, if_neg]
      rw [← beginsWith_iff _ _ (errorPatterns_nonzero _ (by decide)),
        beginsWith_exclusive _ _ (by decide) _ (by decide) (by decide)
          (beginsWith_of_spelled _ _ (by decide) hpre)]
      exact Bool.false_ne_true
    · intro hpre
      rw [hr, if_neg]
      rw [← beginsWith_iff _ _ (errorPatterns_nonzero _ (by decide)),
        beginsWith_exclusive _ _ (by decide) _ (by decide) (by decide)
          (beginsWith_of_spelled _ _ (by decide) hpre)]
      exact Bool.false_ne_true

set_option maxRecDepth 100000 in
/-- C19, amended, at the bodies `StartAck timeout` (-2) and `Checksum timeout` (-1). -/
theorem loadImage_soft_failure_iff_witness :
    (loadImage (sampleWorldError (bytes "StartAck timeout")) sampleSession [] [] 0).ret = -2
    ∧ (loadImage (sampleWorldError (bytes "Checksum timeout")) sampleSession [] [] 0).ret = -1 :=
  ⟨((loadImage_soft_failure_iff (sampleWorldError (bytes "StartAck timeout")) sampleSession [] []
      0 (sampleLoadResponse (sampleWorldError (bytes "StartAck timeout")))
      (by rfl) (by decide) (by decide)).2 (38, 16) (by decide)).2.2.1 (by decide),
   ((loadImage_soft_failure_iff (sampleWorldError (bytes "Checksum timeout")) sampleSession [] []
      0 (sampleLoadResponse (sampleWorldError (bytes "Checksum timeout")))
      (by rfl) (by decide) (by decide)).2 (38, 16) (by decide)).2.2.2.2 (by decide)⟩

/-! ## The count limit -/

theorem receiveLoop_append (doShow : Bool) (rs rs' : List (Option Reply)) :
    ∀ st : Discovery, (receiveLoop doShow rs st).1 = none →
      receiveLoop doShow (rs ++ rs') st = receiveLoop doShow rs' (receiveLoop doShow rs st).2 := by
  induction rs with
  | nil => intro st _; rfl
  | cons o rs ih =>
    intro st h
    cases o with
    | none => exact Option.noConfusion h
    | some r =>
      rw [receiveLoop_cons] at h ⊢
      rw [List.cons_append, receiveLoop_cons]
      by_cases hp : (processReply doShow r st).1 = none
      · rw [if_pos hp] at h ⊢
        rw [if_pos hp]
        exact ih _ h
      · rw [if_neg hp] at h
        exact absurd h hp

theorem receiveLoop_count (doShow : Bool) (rs : List (Option Reply)) :
    ∀ st : Discovery, 0 < st.count →
      ((receiveLoop doShow rs st).2.list.length : Int) + (receiveLoop doShow rs st).2.count
          = st.list.length + st.count
      ∧ 0 ≤ (receiveLoop doShow rs st).2.count
      ∧ ((receiveLoop doShow rs st).2.count = 0 ↔ (receiveLoop doShow rs st).1 = some 0) := by
  induction rs with
  | nil =>
    intro st h
    refine ⟨rfl, le_of_lt h, ?_⟩
    constructor
    · intro h0
      have h1 : st.count = 0 := h0
      omega
    · intro h0
      exact Option.noConfusion h0
  | cons o rs ih =>
    intro st h
    cases o with
    | none =>
      have e : receiveLoop doShow (none :: rs) st = (some (-3), st) := rfl
      rw [e]
      refine ⟨rfl, le_of_lt h, ?_⟩
      constructor
      · intro h0
        have h1 : st.count = 0 := h0
        omega
      · intro h0
        have := Option.some.inj h0
        omega
    | some r =>
      rw [receiveLoop_cons]
      rcases processReply_cases doShow r st with ⟨_, hp⟩ | ⟨_, _, _, _, _, hrest⟩
      · rw [hp]
        simp only [if_true]
        exact ih st h
      · rcases hrest with ⟨hret, hl, hc⟩ | ⟨⟨name, hl⟩, hcase⟩
        · rw [if_neg (by rw [hret]; exact Option.noConfusion)]
          rw [hl, hc, hret]
          refine ⟨rfl, le_of_lt h, ?_⟩
          constructor
          · intro h0; omega
          · intro h0
            have := Option.some.inj h0
            omega
        · rcases hcase with ⟨h0, _, _⟩ | ⟨h1, hret, hc⟩ | ⟨h1, hret, hc⟩
          · omega
          · rw [if_pos hret]
            obtain ⟨i1, i2, i3⟩ := ih (processReply doShow r st).2 (by rw [hc]; omega)
            refine ⟨?_, i2, i3⟩
            rw [i1, hl, hc]
            simp only [List.length_append, List.length_singleton]
            push_cast
            omega
          · rw [if_neg (by rw [hret]; exact Option.noConfusion)]
            rw [hl, hc, hret]
            refine ⟨?_, le_refl _, ?_⟩
            · simp only [List.length_append, List.length_singleton]
              push_cast
              omega
            · simp

theorem discoverRound_count (ifCnt : Nat) (doShow : Bool) (rd : Round) (st : Discovery)
    (h : 0 < st.count) :
    ((discoverRound ifCnt doShow rd st).2.list.length : Int) + (discoverRound ifCnt doShow rd st).2.count
        = st.list.length + st.count
    ∧ 0 ≤ (discoverRound ifCnt doShow rd st).2.count
    ∧ ((discoverRound ifCnt doShow rd st).2.count = 0
        ↔ (discoverRound ifCnt doShow rd st).1 = some 0) := by
  have hr := receiveLoop_count doShow rd.arrivals { st with numberFound := 0 } h
  rw [discoverRound_eq]
  by_cases hs : (List.range ifCnt).any (fun i => rd.sends i st.txCnt != (st.txCnt : Int)) = true
  · rw [if_pos hs]
    refine ⟨rfl, le_of_lt h, ?_⟩
    constructor
    · intro h0
      have h1 : st.count = 0 := h0
      omega
    · intro h0
      have := Option.some.inj h0
      omega
  · rw [if_neg hs]
    by_cases hn : (receiveLoop doShow rd.arrivals { st with numberFound := 0 }).1 = none
    · rw [if_pos hn]
      obtain ⟨i1, i2, i3⟩ := hr
      refine ⟨i1, i2, ?_⟩
      constructor
      · intro h0
        have := i3.mp h0
        rw [hn] at this
        exact Option.noConfusion this
      · intro h0
        exact Option.noConfusion h0
    · rw [if_neg hn]
      exact hr

theorem discoverLoop_count (w : DiscoveryWorld) (doShow : Bool) (fuel : Nat) :
    ∀ (k : Nat) (st : Discovery) (ret : Int) (st' : Discovery),
      discoverLoop w doShow fuel k st = some (ret, st') → 0 < st.count →
      (st'.list.length : Int) + st'.count = st.list.length + st.count
      ∧ 0 ≤ st'.count
      ∧ (st'.count = 0 ↔ (ret = 0 ∧ 0 < st'.tries)) := by
  induction fuel with
  | zero =>
    intro k st ret st' h hc
    by_cases ht : st.tries > 0
    · rw [discoverLoop_zero w doShow k st ht] at h
      exact Option.noConfusion h
    · rw [discoverLoop_exit w doShow 0 k st ht] at h
      obtain ⟨rfl, rfl⟩ := Prod.mk.inj (Option.some.inj h)
      refine ⟨rfl, le_of_lt hc, ?_⟩
      constructor
      · intro h0; omega
      · rintro ⟨_, h0⟩
        exact absurd h0 ht
  | succ fuel ih =>
    intro k st ret st' h hc
    by_cases ht : st.tries > 0
    · obtain ⟨i1, i2, i3⟩ := discoverRound_count w.ifCnt.toNat doShow (w.rounds k) st hc
      obtain ⟨_, _, _, _, j5, _⟩ := discoverRound_spec w.ifCnt.toNat doShow (w.rounds k) st
      cases hr : (discoverRound w.ifCnt.toNat doShow (w.rounds k) st).1 with
      | none =>
        rw [discoverLoop_continue w doShow fuel k st ht hr] at h
        have hc1 : 0 < (discoverRound w.ifCnt.toNat doShow (w.rounds k) st).2.count := by
          rcases lt_or_eq_of_le i2 with h1 | h1
          · exact h1
          · have := i3.mp h1.symm
            rw [hr] at this
            exact Option.noConfusion this
        obtain ⟨l1, l2, l3⟩ := ih _ _ _ _ h hc1
        exact ⟨by rw [l1, i1], l2, l3⟩
      | some ret0 =>
        rw [discoverLoop_return w doShow fuel k st ret0 ht hr] at h
        obtain ⟨rfl, rfl⟩ := Prod.mk.inj (Option.some.inj h)
        obtain ⟨jt, _, _⟩ := j5 ret0 hr
        refine ⟨i1, i2, ?_⟩
        rw [i3, hr]
        constructor
        · intro h0
          have := Option.some.inj h0
          exact ⟨this, by rw [jt]; exact ht⟩
        · rintro ⟨h0, _⟩
          rw [h0]
    · rw [discoverLoop_exit w doShow (fuel + 1) k st ht] at h
      obtain ⟨rfl, rfl⟩ := Prod.mk.inj (Option.some.inj h)
      refine ⟨rfl, le_of_lt hc, ?_⟩
      constructor
      · intro h0; omega
      · rintro ⟨_, h0⟩
        exact absurd h0 ht

theorem discoverLoop_terminates_count (w : DiscoveryWorld) (doShow : Bool) (fuel : Nat) :
    ∀ (k : Nat) (st : Discovery), 0 < st.count → st.tries ≤ 3 →
      3 * st.count.toNat + st.tries.toNat ≤ fuel →
      (discoverLoop w doShow fuel k st).isSome = true := by
  induction fuel with
  | zero =>
    intro k st hc _ hm
    omega
  | succ fuel ih =>
    intro k st hc ht3 hm
    by_cases ht : st.tries > 0
    · obtain ⟨_, _, _, _, _, r6⟩ := discoverRound_spec w.ifCnt.toNat doShow (w.rounds k) st
      obtain ⟨i1, i2, i3⟩ := discoverRound_count w.ifCnt.toNat doShow (w.rounds k) st hc
      cases hr : (discoverRound w.ifCnt.toNat doShow (w.rounds k) st).1 with
      | none =>
        rw [discoverLoop_continue w doShow _ k st ht hr]
        obtain ⟨_, _, q3⟩ := r6 hr
        have hc1 : 0 < (discoverRound w.ifCnt.toNat doShow (w.rounds k) st).2.count := by
          rcases lt_or_eq_of_le i2 with h1 | h1
          · exact h1
          · have := i3.mp h1.symm
            rw [hr] at this
            exact Option.noConfusion this
        apply ih _ _ hc1
        · rw [q3]; split_ifs
          · simp [DISCOVER_ATTEMPTS]
          · omega
        · rw [q3]
          split_ifs with hlt
          · simp only [DISCOVER_ATTEMPTS]
            omega
          · omega
      | some ret =>
        rw [discoverLoop_return w doShow _ k st ret ht hr]
        rfl
    · rw [discoverLoop_exit w doShow _ k st ht]
      rfl

theorem findModules_returns_count (w : DiscoveryWorld) (doShow : Bool) (list : List WiFiInfo)
    (count : Int) (hc : 0 < count) :
    ∃ ret st, ∀ fuel, 3 * count.toNat + 3 ≤ fuel →
      findModules w fuel doShow list count = some (ret, st) := by
  have hsome : (findModules w (3 * count.toNat + 3) doShow list count).isSome = true := by
    unfold findModules
    split_ifs
    · rfl
    · rfl
    · apply discoverLoop_terminates_count w doShow
      · exact hc
      · simp [Discovery.init, DISCOVER_ATTEMPTS]
      · simp [Discovery.init, DISCOVER_ATTEMPTS]
  obtain ⟨⟨ret, st⟩, hx⟩ := Option.isSome_iff_exists.mp hsome
  refine ⟨ret, st, fun fuel hf => ?_⟩
  obtain ⟨m, rfl⟩ : ∃ m, fuel = 3 * count.toNat + 3 + m := ⟨fuel - (3 * count.toNat + 3), by omega⟩
  unfold findModules at hx ⊢
  split_ifs at hx ⊢
  · exact hx
  · exact hx
  · exact discoverLoop_mono w doShow _ _ _ _ m hx

theorem discoverLoop_count_nonpos (w : DiscoveryWorld) (doShow : Bool) (fuel : Nat) :
    ∀ (k : Nat) (st : Discovery) (ret : Int) (st' : Discovery),
      discoverLoop w doShow fuel k st = some (ret, st') → st.count ≤ 0 → st'.count = st.count := by
  induction fuel with
  | zero =>
    intro k st ret st' h hc
    by_cases ht : st.tries > 0
    · rw [discoverLoop_zero w doShow k st ht] at h
      exact Option.noConfusion h
    · rw [discoverLoop_exit w doShow 0 k st ht] at h
      obtain ⟨rfl, rfl⟩ := Prod.mk.inj (Option.some.inj h)
      rfl
  | succ fuel ih =>
    intro k st ret st' h hc
    by_cases ht : st.tries > 0
    · obtain ⟨_, _, _, j4, _, _⟩ := discoverRound_spec w.ifCnt.toNat doShow (w.rounds k) st
      obtain ⟨j41, _⟩ := j4 hc
      cases hr : (discoverRound w.ifCnt.toNat doShow (w.rounds k) st).1 with
      | none =>
        rw [discoverLoop_continue w doShow fuel k st ht hr] at h
        rw [ih _ _ _ _ h (by rw [j41]; exact hc), j41]
      | some ret0 =>
        rw [discoverLoop_return w doShow fuel k st ret0 ht hr] at h
        obtain ⟨rfl, rfl⟩ := Prod.mk.inj (Option.some.inj h)
        exact j41
    · rw [discoverLoop_exit w doShow (fuel + 1) k st ht] at h
      obtain ⟨rfl, rfl⟩ := Prod.mk.inj (Option.some.inj h)
      rfl

/-- C14: with `count > 0`, `findModules` returns for every sequence of replies,
its list grows by `count` minus what is left of the counter, so by at most
`count` entries, and it has grown by `count` exactly when the call returned 0
from inside a round; the reply that makes the counter zero ends the receive
loop whatever datagrams follow it, and a round that returns ends the call
whatever rounds follow.  With `count <= 0` the counter never changes, the call
returns 0 only when the retry counter is exhausted, and the list then holds
every address whose reply was accepted in the rounds that ran. -/
theorem findModules_count_limit (w : DiscoveryWorld) (doShow : Bool) (list : List WiFiInfo)
    (count : Int) :
    (0 < count →
      (∃ ret st, ∀ fuel, 3 * count.toNat + 3 ≤ fuel →
        findModules w fuel doShow list count = some (ret, st))
      ∧ ∀ fuel ret st, findModules w fuel doShow list count = some (ret, st) →
        (st.list.length : Int) = list.length + (count - st.count)
        ∧ 0 ≤ st.count
        ∧ st.list.length ≤ list.length + count.toNat
        ∧ (st.list.length = list.length + count.toNat ↔ (ret = 0 ∧ 0 < st.tries)))
    ∧ (∀ (pre rest : List (Option Reply)) (r : Reply) (st : Discovery),
        (receiveLoop doShow pre st).1 = none →
        (processReply doShow r (receiveLoop doShow pre st).2).1 = some 0 →
        receiveLoop doShow (pre ++ some r :: rest) st
          = processReply doShow r (receiveLoop doShow pre st).2)
    ∧ (∀ fuel k st, st.tries > 0 →
        (discoverRound w.ifCnt.toNat doShow (w.rounds k) st).1 = some 0 →
        discoverLoop w doShow (fuel + 1) k st
          = some (0, (discoverRound w.ifCnt.toNat doShow (w.rounds k) st).2))
    ∧ (count ≤ 0 → ∀ fuel ret st, findModules w fuel doShow list count = some (ret, st) →
        st.count = count
        ∧ (ret = 0 → st.tries = 0
            ∧ st.addresses = addNew (list.map (fun i => i.m_address))
                (acceptedAddresses (arrivalsFrom w 0 st.found.length)))) := by
  refine ⟨fun hc => ⟨findModules_returns_count w doShow list count hc, ?_⟩, ?_, ?_, ?_⟩
  · intro fuel ret st h
    have key : (st.list.length : Int) + st.count = list.length + count
        ∧ 0 ≤ st.count ∧ (st.count = 0 ↔ (ret = 0 ∧ 0 < st.tries)) := by
      unfold findModules at h
      split_ifs at h
      · obtain ⟨rfl, rfl⟩ := Prod.mk.inj (Option.some.inj h)
        refine ⟨rfl, le_of_lt hc, ?_⟩
        constructor
        · intro h0
          have h1 : count = 0 := h0
          omega
        · rintro ⟨h0, _⟩
          omega
      · obtain ⟨rfl, rfl⟩ := Prod.mk.inj (Option.some.inj h)
        refine ⟨rfl, le_of_lt hc, ?_⟩
        constructor
        · intro h0
          have h1 : count = 0 := h0
          omega
        · rintro ⟨h0, _⟩
          omega
      · exact discoverLoop_count w doShow fuel 0 _ ret st h hc
    obtain ⟨k1, k2, k3⟩ := key
    refine ⟨by omega, k2, by omega, ?_⟩
    rw [← k3]
    omega
  · intro pre rest r st hpre hr
    rw [receiveLoop_append doShow pre _ st hpre, receiveLoop_cons, if_neg (by rw [hr]; exact Option.noConfusion)]
  · intro fuel k st ht hr
    exact discoverLoop_return w doShow fuel k st 0 ht hr
  · intro hc fuel ret st h
    unfold findModules at h
    split_ifs at h
    · obtain ⟨rfl, rfl⟩ := Prod.mk.inj (Option.some.inj h)
      exact ⟨rfl, fun h0 => by omega⟩
    · obtain ⟨rfl, rfl⟩ := Prod.mk.inj (Option.some.inj h)
      exact ⟨rfl, fun h0 => by omega⟩
    · refine ⟨discoverLoop_count_nonpos w doShow fuel 0 _ ret st h hc, fun h0 => ?_⟩
      subst h0
      constructor
      · rcases discoverLoop_exit_point w doShow fuel 0 _ 0 st h RetryInv.init with
          ⟨e1, _⟩ | ⟨_, e2⟩
        · exact e1
        · rcases e2 with e | e | ⟨_, e, _⟩
          · omega
          · omega
          · have : (Discovery.init list count).count = count := rfl
            omega
      · obtain ⟨_, a2⟩ := discoverLoop_addresses w doShow fuel 0 _ 0 st h
        obtain ⟨n, hn, ha⟩ := a2 hc rfl
        have : n = st.found.length := by
          rw [hn]; simp [Discovery.init]
        rw [this] at ha
        exact ha

/-- C14 on the sample network with `count = 1`: the list has grown by one
module, so the call returned 0 from inside a round. -/
theorem findModules_count_limit_witness :
    sampleDiscoveryOne.1 = 0 ∧ 0 < sampleDiscoveryOne.2.tries
    ∧ sampleDiscoveryOne.2.list.length = 1 :=
  ⟨(((((findModules_count_limit sampleNet false [] 1).1 (by decide)).2 6 sampleDiscoveryOne.1
      sampleDiscoveryOne.2 (by rfl)).2.2.2).mp (by decide)).1,
   (((((findModules_count_limit sampleNet false [] 1).1 (by decide)).2 6 sampleDiscoveryOne.1
      sampleDiscoveryOne.2 (by rfl)).2.2.2).mp (by decide)).2, by decide⟩

/-! ## Fields that do not fit -/

theorem strstr_append (pre p needle : List Nat)
    (h : ∀ i < pre.length, ¬ needle <+: (pre ++ p).drop i) (hp : needle <+: p) :
    strstr (pre ++ p) needle = some p := by
  induction pre with
  | nil =>
    cases p with
    | nil =>
      have : needle = [] := List.prefix_nil.mp hp
      simp [strstr, this]
    | cons c t =>
      rw [List.nil_append, strstr, if_pos (List.isPrefixOf_iff_prefix.mpr hp)]
  | cons c pre ih =>
    have h0 := h 0 (by simp)
    rw [List.drop_zero] at h0
    rw [List.cons_append, strstr, if_neg (by rw [List.isPrefixOf_iff_prefix]; exact h0)]
    apply ih
    intro i hi
    have := h (i + 1) (by simp only [List.length_cons]; omega)
    simpa using this

theorem extractField_too_long (rxBuf tag pre value rest : List Nat)
    (htag : tag = NAME_TAG ∨ tag = MACADDR_TAG)
    (htext : cstr rxBuf = pre ++ (tag ++ (value ++ rest)))
    (hfirst : ∀ i < pre.length, ¬ tag <+: (pre ++ (tag ++ (value ++ rest))).drop i)
    (hvalue : ∀ c ∈ value, c ≠ 34) (hlen : 128 ≤ value.length) :
    extractField rxBuf tag = none := by
  have hs : strlen tag = tag.length := by
    rcases htag with rfl | rfl <;> decide
  unfold extractField
  rw [htext, strstr_append pre _ tag hfirst ⟨_, rfl⟩]
  simp only [hs, List.drop_left]
  have htw : (value ++ rest).takeWhile (fun c => c != 34)
      = value ++ rest.takeWhile (fun c => c != 34) := by
    apply List.takeWhile_append_of_pos
    intro c hc
    simpa using hvalue c hc
  rw [htw]
  split_ifs
  · rfl
  · rfl
  · rename_i h1 h2
    simp only [List.length_append] at h2
    omega

theorem processReply_field_error (doShow : Bool) (r : Reply) (st : Discovery)
    (hacc : accepted r = true) (hnew : r.address ∉ st.addresses)
    (h : extractField (r.payload.take 1023) NAME_TAG = none
      ∨ extractField (r.payload.take 1023) MACADDR_TAG = none) :
    (processReply doShow r st).1 = some (-1) ∧ (processReply doShow r st).2.list = st.list := by
  have hacc' : (r.payload.take 1023).length ≥ 4 ∧ word32 (r.payload.take 1023) ≠ 0 := by
    simpa [accepted] using hacc
  have hany : st.list.any (fun i => i.m_address == r.address) = false := by
    rw [Bool.eq_false_iff, Ne, any_address_iff]
    exact hnew
  unfold processReply
  rw [if_pos hacc', hany]
  simp only [Bool.false_eq_true, if_false]
  rcases h with h | h
  · rw [h]
    refine ⟨rfl, ?_⟩
    show (ite _ _ _ : Discovery).list = _
    split_ifs <;> rfl
  · cases hn : extractField (r.payload.take 1023) NAME_TAG with
    | none =>
      refine ⟨rfl, ?_⟩
      show (ite _ _ _ : Discovery).list = _
      split_ifs <;> rfl
    | some name =>
      simp only [h, true_and]
      show (ite _ _ _ : Discovery).list = _
      split_ifs <;> rfl

theorem processReply_extends (doShow : Bool) (r : Reply) (st : Discovery) :
    st.list <+: (processReply doShow r st).2.list := by
  rcases processReply_cases doShow r st with ⟨_, hp⟩ | ⟨_, _, _, _, _, hrest⟩
  · rw [hp]
  · rcases hrest with ⟨_, hl, _⟩ | ⟨⟨name, hl⟩, _⟩
    · rw [hl]
    · rw [hl]
      exact List.prefix_append _ _

theorem receiveLoop_extends (doShow : Bool) (rs : List (Option Reply)) :
    ∀ st : Discovery, st.list <+: (receiveLoop doShow rs st).2.list := by
  induction rs with
  | nil => intro st; exact List.prefix_refl _
  | cons o rs ih =>
    intro st
    cases o with
    | none => exact List.prefix_refl _
    | some r =>
      rw [receiveLoop_cons]
      split_ifs
      · exact (processReply_extends doShow r st).trans (ih _)
      · exact processReply_extends doShow r st

theorem discoverRound_extends (ifCnt : Nat) (doShow : Bool) (rd : Round) (st : Discovery) :
    st.list <+: (discoverRound ifCnt doShow rd st).2.list := by
  have h := receiveLoop_extends doShow rd.arrivals { st with numberFound := 0 }
  rw [discoverRound_eq]
  split_ifs <;> first | exact List.prefix_refl _ | exact h

theorem discoverLoop_extends (w : DiscoveryWorld) (doShow : Bool) (fuel : Nat) :
    ∀ (k : Nat) (st : Discovery) (ret : Int) (st' : Discovery),
      discoverLoop w doShow fuel k st = some (ret, st') → st.list <+: st'.list := by
  induction fuel with
  | zero =>
    intro k st ret st' h
    by_cases ht : st.tries > 0
    · rw [discoverLoop_zero w doShow k st ht] at h
      exact Option.noConfusion h
    · rw [discoverLoop_exit w doShow 0 k st ht] at h
      obtain ⟨rfl, rfl⟩ := Prod.mk.inj (Option.some.inj h)
      exact List.prefix_refl _
  | succ fuel ih =>
    intro k st ret st' h
    by_cases ht : st.tries > 0
    · have hp := discoverRound_extends w.ifCnt.toNat doShow (w.rounds k) st
      cases hr : (discoverRound w.ifCnt.toNat doShow (w.rounds k) st).1 with
      | none =>
        rw [discoverLoop_continue w doShow fuel k st ht hr] at h
        exact hp.trans (ih _ _ _ _ h)
      | some ret0 =>
        rw [discoverLoop_return w doShow fuel k st ret0 ht hr] at h
        obtain ⟨rfl, rfl⟩ := Prod.mk.inj (Option.some.inj h)
        exact hp
    · rw [discoverLoop_exit w doShow (fuel + 1) k st ht] at h
      obtain ⟨rfl, rfl⟩ := Prod.mk.inj (Option.some.inj h)
      exact List.prefix_refl _

set_option maxRecDepth 100000 in
/-- C15, counterexample: a first reply gives a module, a second reply from a new
address has the name marker followed by 128 bytes; the call returns -1 and the
caller's list still holds the first module. -/
theorem findModules_keeps_earlier_modules :
    sampleLongNameReply.payload
        = bytes "abcd" ++ (NAME_TAG ++ (List.replicate 128 65 ++ bytes "\""))
    ∧ (findModules sampleLongNameNet 5 false [] (-1)).map (fun x => (x.1, x.2.list))
        = some (-1, [⟨[], bytes "10.0.0.1"⟩]) := by
  constructor <;> decide

/-- C15, amended: a reply that is accepted, comes from an address not yet in the
list, and whose text holds the name or MAC-address marker, at its first
occurrence, followed by 128 or more bytes without a quote, makes `findModules`
return -1 at that reply: the receive loop and the call end there, no module is
added for the reply, and the list is what it was when the reply arrived, with
every module added earlier in the call still in it.  On every return the list
passed in is a prefix of the caller's list. -/
theorem findModules_field_too_long (doShow : Bool) (r : Reply) (tag pre value rest : List Nat)
    (hacc : accepted r = true)
    (htag : tag = NAME_TAG ∨ tag = MACADDR_TAG)
    (htext : cstr (r.payload.take 1023) = pre ++ (tag ++ (value ++ rest)))
    (hfirst : ∀ i < pre.length, ¬ tag <+: (pre ++ (tag ++ (value ++ rest))).drop i)
    (hvalue : ∀ c ∈ value, c ≠ 34) (hlen : 128 ≤ value.length) :
    (∀ (before after : List (Option Reply)) (st : Discovery),
        (receiveLoop doShow before st).1 = none →
        r.address ∉ (receiveLoop doShow before st).2.addresses →
        (receiveLoop doShow (before ++ some r :: after) st).1 = some (-1)
        ∧ (receiveLoop doShow (before ++ some r :: after) st).2.list
            = (receiveLoop doShow before st).2.list)
    ∧ (∀ (w : DiscoveryWorld) (fuel k : Nat) (st : Discovery)
        (before after : List (Option Reply)),
        st.tries > 0 → (w.rounds k).arrivals = before ++ some r :: after →
        (∀ i < w.ifCnt.toNat, (w.rounds k).sends i st.txCnt = st.txCnt) →
        (receiveLoop doShow before { st with numberFound := 0 }).1 = none →
        r.address ∉ (receiveLoop doShow before { st with numberFound := 0 }).2.addresses →
        ∃ st', discoverLoop w doShow (fuel + 1) k st = some (-1, st')
          ∧ st'.list = (receiveLoop doShow before { st with numberFound := 0 }).2.list
          ∧ st.list <+: st'.list
          ∧ r.address ∉ st'.addresses)
    ∧ (∀ (w : DiscoveryWorld) (fuel : Nat) (list : List WiFiInfo) (count ret : Int)
        (st : Discovery),
        findModules w fuel doShow list count = some (ret, st) → list <+: st.list) := by
  have hfield : extractField (r.payload.take 1023) NAME_TAG = none
      ∨ extractField (r.payload.take 1023) MACADDR_TAG = none := by
    have := extractField_too_long _ tag pre value rest htag htext hfirst hvalue hlen
    rcases htag with rfl | rfl
    · exact Or.inl this
    · exact Or.inr this
  have h1 : ∀ (before after : List (Option Reply)) (st : Discovery),
      (receiveLoop doShow before st).1 = none →
      r.address ∉ (receiveLoop doShow before st).2.addresses →
      (receiveLoop doShow (before ++ some r :: after) st).1 = some (-1)
      ∧ (receiveLoop doShow (before ++ some r :: after) st).2.list
          = (receiveLoop doShow before st).2.list := by
    intro before after st hb hnew
    obtain ⟨p1, p2⟩ := processReply_field_error doShow r _ hacc hnew hfield
    rw [receiveLoop_append doShow before _ st hb, receiveLoop_cons,
      if_neg (by rw [p1]; exact Option.noConfusion)]
    exact ⟨p1, p2⟩
  refine ⟨h1, ?_, ?_⟩
  · intro w fuel k st before after ht harr hsend hb hnew
    obtain ⟨q1, q2⟩ := h1 before after _ hb hnew
    have hround : discoverRound w.ifCnt.toNat doShow (w.rounds k) st
        = receiveLoop doShow (before ++ some r :: after) { st with numberFound := 0 } := by
      rw [discoverRound_eq, harr, if_neg, if_neg]
      · rw [q1]; exact Option.noConfusion
      · simp only [List.any_eq_true, List.mem_range, bne_iff_ne, ne_eq, not_exists, not_and,
          not_not]
        intro i hi
        exact hsend i hi
    have hret : (discoverRound w.ifCnt.toNat doShow (w.rounds k) st).1 = some (-1) := by
      rw [hround]; exact q1
    refine ⟨_, discoverLoop_return w doShow fuel k st (-1) ht hret, ?_, ?_, ?_⟩
    · rw [hround]; exact q2
    · exact discoverRound_extends _ _ _ _
    · rw [hround]
      unfold Discovery.addresses at hnew ⊢
      rw [q2]
      exact hnew
  · intro w fuel list count ret st h
    unfold findModules at h
    split_ifs at h
    · obtain ⟨rfl, rfl⟩ := Prod.mk.inj (Option.some.inj h)
      exact List.prefix_refl _
    · obtain ⟨rfl, rfl⟩ := Prod.mk.inj (Option.some.inj h)
      exact List.prefix_refl _
    · exact discoverLoop_extends w doShow fuel 0 _ ret st h

set_option maxRecDepth 100000 in
/-- C15, amended, on the sample network: the reply with the 128-byte name ends
the call with -1 and the module of the first reply stays in the list. -/
theorem findModules_field_too_long_witness :
    ∃ st, discoverLoop sampleLongNameNet false 1 0 (Discovery.init [] (-1)) = some (-1, st)
      ∧ st.list = [⟨[], bytes "10.0.0.1"⟩] :=
  ((findModules_field_too_long false sampleLongNameReply NAME_TAG (bytes "abcd")
      (List.replicate 128 65) (bytes "\"") (by decide) (Or.inl rfl) (by decide) (by decide)
      (by decide) (by decide)).2.1 sampleLongNameNet 0 0 (Discovery.init [] (-1))
      [some ⟨bytes "10.0.0.1", 1, bytes "abcd"⟩] [] (by decide) (by rfl) (by decide)
      (by decide) (by decide)).imp (fun _ h => ⟨h.1, h.2.1.trans (by decide)⟩)

/-! ## The endpoints -/

/-- C16, counterexample: the control endpoint resolves and the data endpoint
does not; `setAddress` returns -1 with the control endpoint replaced and the
data endpoint as before. -/
theorem setAddress_partial_rebind :
    (setAddress sampleWorldHalfResolved sampleSession (bytes "10.0.0.1")).1 = -1
    ∧ (setAddress sampleWorldHalfResolved sampleSession (bytes "10.0.0.1")).2.m_httpAddr
        = ⟨167772161, 80⟩
    ∧ sampleSession.m_httpAddr = ⟨0, 0⟩
    ∧ (setAddress sampleWorldHalfResolved sampleSession (bytes "10.0.0.1")).2.m_telnetAddr
        = sampleSession.m_telnetAddr := by
  decide

/-- C16, amended: `setAddress` replaces the endpoints one after the other.  It
returns 0 exactly when the allocation and both resolutions succeed, and then
both endpoints are the ones resolved for the new address; when the allocation
fails, neither endpoint is touched; when the resolution of the control endpoint
fails, the data endpoint is as before; when the control endpoint resolves and
the data endpoint does not, it returns -1 with the control endpoint already
replaced by the one resolved for the new address. -/
theorem setAddress_endpoints (w : World) (s : Session) (ipaddr : List Nat) :
    ((setAddress w s ipaddr).1 = 0 ∨ (setAddress w s ipaddr).1 = -1)
    ∧ ((setAddress w s ipaddr).1 = 0 ↔
        w.mallocOk = true ∧ (w.GetInternetAddress (cstr ipaddr) HTTP_PORT s.m_httpAddr).1 = 0
        ∧ (w.GetInternetAddress (cstr ipaddr) TELNET_PORT s.m_telnetAddr).1 = 0)
    ∧ ((setAddress w s ipaddr).1 = 0 →
        (setAddress w s ipaddr).2.m_httpAddr
          = (w.GetInternetAddress (cstr ipaddr) HTTP_PORT s.m_httpAddr).2
        ∧ (setAddress w s ipaddr).2.m_telnetAddr
          = (w.GetInternetAddress (cstr ipaddr) TELNET_PORT s.m_telnetAddr).2)
    ∧ (w.mallocOk = false →
        (setAddress w s ipaddr).2.m_httpAddr = s.m_httpAddr
        ∧ (setAddress w s ipaddr).2.m_telnetAddr = s.m_telnetAddr)
    ∧ (w.mallocOk = true →
        (w.GetInternetAddress (cstr ipaddr) HTTP_PORT s.m_httpAddr).1 ≠ 0 →
        (setAddress w s ipaddr).2.m_telnetAddr = s.m_telnetAddr)
    ∧ (w.mallocOk = true →
        (w.GetInternetAddress (cstr ipaddr) HTTP_PORT s.m_httpAddr).1 = 0 →
        (w.GetInternetAddress (cstr ipaddr) TELNET_PORT s.m_telnetAddr).1 ≠ 0 →
        (setAddress w s ipaddr).1 = -1
        ∧ (setAddress w s ipaddr).2.m_httpAddr
          = (w.GetInternetAddress (cstr ipaddr) HTTP_PORT s.m_httpAddr).2) := by
  unfold setAddress
  cases hm : w.mallocOk
  · simp
  · by_cases hh : (w.GetInternetAddress (cstr ipaddr) HTTP_PORT s.m_httpAddr).1 = 0
    · by_cases ht : (w.GetInternetAddress (cstr ipaddr) TELNET_PORT s.m_telnetAddr).1 = 0
      · simp [hh, ht]
      · simp [hh, ht]
    · simp [hh]

/-- C16, amended, in the sample environment, where both resolutions succeed. -/
theorem setAddress_endpoints_witness :
    (setAddress sampleWorld200 sampleSession (bytes "10.0.0.1")).2.m_httpAddr
        = ⟨167772161, 80⟩
    ∧ (setAddress sampleWorld200 sampleSession (bytes "10.0.0.1")).2.m_telnetAddr
        = ⟨167772161, 23⟩ :=
  (setAddress_endpoints sampleWorld200 sampleSession (bytes "10.0.0.1")).2.2.1 (by decide)

/-! ## The data channel when it is not open -/

/-- C17: `sendDownloadDataTxt` returns 0 whatever happens to its writes.  With
the data channel not open, `sendDownloadHeader` returns -1, nothing is written
and the call returns 0; with the channel open and a socket error on the image
and the terminator, the call returns 0 as well. -/
theorem sendDownloadDataTxt_returns_zero (w : World) (s : Session) (image : List Nat) :
    (sendDownloadDataTxt w s image).1 = 0
    ∧ isOpen sampleSession = false
    ∧ (sendDownloadHeader sampleWorld200 sampleSession).1 = -1
    ∧ (sendDownloadDataTxt sampleWorld200 sampleSession (bytes "abc")).2.dataWrites = []
    ∧ (sendDownloadDataTxt sampleWorld200 sampleSession (bytes "abc")).1 = 0
    ∧ isOpen sampleOpenSession = true
    ∧ (sendDownloadHeader sampleWorldWriteError sampleOpenSession).1 = 0
    ∧ (sendData sampleWorldWriteError (sendDownloadHeader sampleWorldWriteError sampleOpenSession).2
        (framedImage (bytes "abc")) 4).1 = -1
    ∧ (sendDownloadDataTxt sampleWorldWriteError sampleOpenSession (bytes "abc")).1 = 0 := by
  refine ⟨?_, by decide, by decide, by decide, by decide, by decide, by decide, by decide,
    by decide⟩
  unfold sendDownloadDataTxt
  simp only []
  split_ifs <;> rfl

/-- C18: when the data channel is not open, `sendData`, `receiveDataTimeout`,
`receiveDataExactTimeout`, `terminal`, `close` and `disconnect` return -1 and
leave the session, with its record of socket calls, and the caller's buffer as
they were; `close` on an open channel returns 0 and leaves it not open, and a
second `close` returns -1. -/
theorem not_open_returns_minus_one (w : World) (s : Session) (h : isOpen s = false)
    (buf : List Nat) (len : Nat) (timeout : Int) (checkForExit pstMode : Bool) :
    sendData w s buf len = (-1, s)
    ∧ receiveDataTimeout w s buf len timeout = ((-1, buf), s)
    ∧ receiveDataExactTimeout w s buf len timeout = ((-1, buf), s)
    ∧ terminal s checkForExit pstMode = (-1, s)
    ∧ close s = (-1, s)
    ∧ disconnect s = (-1, s)
    ∧ (∀ o : Session, isOpen o = true →
        (close o).1 = 0 ∧ isOpen (close o).2 = false ∧ close (close o).2 = (-1, (close o).2)) := by
  have hs : s.m_telnetSocket = none := by
    simpa [isOpen] using h
  refine ⟨?_, ?_, ?_, ?_, ?_, ?_, ?_⟩
  · simp [sendData, h]
  · simp [receiveDataTimeout, h]
  · simp [receiveDataExactTimeout, h]
  · simp [terminal, h]
  · simp [close, h]
  · simp [disconnect, hs]
  · intro o ho
    obtain ⟨sock, hsock⟩ : ∃ sock, o.m_telnetSocket = some sock := by
      cases hso : o.m_telnetSocket with
      | none => simp [isOpen, hso] at ho
      | some sock => exact ⟨sock, rfl⟩
    have hc : close o = (0, (disconnect o).2) := by
      simp [close, ho]
    have hd : (disconnect o).2.m_telnetSocket = none := by
      simp [disconnect, hsock]
    have hno : isOpen (disconnect o).2 = false := by
      simp [isOpen, hd]
    rw [hc]
    refine ⟨rfl, hno, ?_⟩
    simp [close, hno]

set_option maxRecDepth 100000 in
/-- C18 on the sample session, which was never opened, and on the sample open
session, closed twice. -/
theorem not_open_returns_minus_one_witness :
    (sendData sampleWorld200 sampleSession (bytes "abc") 3 = (-1, sampleSession)
      ∧ close sampleSession = (-1, sampleSession))
    ∧ (close sampleOpenSession).1 = 0 ∧ (close (close sampleOpenSession).2).1 = -1 :=
  ⟨⟨(not_open_returns_minus_one sampleWorld200 sampleSession (by decide) (bytes "abc") 3 0
      false false).1,
    (not_open_returns_minus_one sampleWorld200 sampleSession (by decide) (bytes "abc") 3 0
      false false).2.2.2.2.1⟩,
   ((not_open_returns_minus_one sampleWorld200 sampleSession (by decide) (bytes "abc") 3 0
      false false).2.2.2.2.2.2 sampleOpenSession (by decide)).1,
   congrArg Prod.fst ((not_open_returns_minus_one sampleWorld200 sampleSession (by decide)
      (bytes "abc") 3 0 false false).2.2.2.2.2.2 sampleOpenSession (by decide)).2.2⟩

end PropLoader
